import Mathlib

/-! Box-in-box containment strategies (`strategies/cartesian/box_in_box.hpp`)

A shallow embedding of the per-dimension range tests `box_within_range` and
`box_covered_by_range`, of their longitude specialisations for the spherical
coordinate-system family, and of the compile-time loop `relate_box_box_loop`
that `box_in_box` runs over the dimensions of two boxes.

Coordinates are rationals and angles are in degrees. The spherical tests are given
twice: in exact arithmetic (integer or rational coordinates), and with the rounding of
the coordinate arithmetic as a parameter (`double` coordinates).

The second part (`IsValid`) models the validity rules that the test file
`test/algorithms/is_valid.cpp` exercises: points, segments, boxes, linestrings, rings,
polygons and multi-polygons. The implementation of `is_valid` is not among the sources,
so these definitions follow the specification.

The third part (`Vincenty`) embeds the two helpers `normalize_deg` and `azimuth` of the
test `extensions/test/gis/latlong/vincenty.cpp`, in exact arithmetic, and the loops of
`normalize_deg` also in rounded arithmetic.
-/

namespace BoxInBox

/-! ## Data model -/

/-- Modelled from the spec: the coordinate-system tags of `core/tags.hpp`, a header
that is not among the sources. The source comments name them: "spherical_equatorial_tag
and spherical_polar_tag is casted to spherical_tag", "geographic_tag is casted to
spherical_tag". -/
inductive CSTag
  | cartesian_tag
  | spherical_tag
  | spherical_polar_tag
  | spherical_equatorial_tag
  | geographic_tag
  deriving DecidableEq, Repr

/-- Modelled from the spec: `tag_cast<Tag, spherical_tag>::type` of `core/tag_cast.hpp`
(not among the sources). A tag derived from `spherical_tag` is cast to `spherical_tag`,
any other tag is left as it is. -/
def tag_cast : CSTag → CSTag
  | CSTag.cartesian_tag => CSTag.cartesian_tag
  | CSTag.spherical_tag => CSTag.spherical_tag
  | CSTag.spherical_polar_tag => CSTag.spherical_tag
  | CSTag.spherical_equatorial_tag => CSTag.spherical_tag
  | CSTag.geographic_tag => CSTag.spherical_tag

/-- A box of `DimensionCount` dimensions: `get<min_corner, d>` and `get<max_corner, d>`
for every `d < DimensionCount`. No ordering between the corners is imposed by the type. -/
structure Box (DimensionCount : Nat) where
  min_corner : Fin DimensionCount → ℚ
  max_corner : Fin DimensionCount → ℚ

/-- Modelled from the spec: `constants_on_spheroid<calc_t, degree>::period()` of
`util/normalize_spheroidal_coordinates.hpp` (not among the sources): longitude is
"periodic with period 360 angular units". -/
def period : ℚ := 360

/-- Modelled from the spec: `constants_on_spheroid<calc_t, degree>::half_period()`,
half of the period of 360 degrees. -/
def half_period : ℚ := 180

/-- Modelled from the spec: `math::normalize_longitude<degree, calc_t>` of
`util/normalize_spheroidal_coordinates.hpp` (not among the sources). It replaces a
longitude by its representative in the half-open interval (-180, 180], the value that
differs from it by an integer number of periods. -/
def normalize_longitude (longitude : ℚ) : ℚ :=
  longitude - period * (⌈(longitude - half_period) / period⌉ : ℤ)

/-- Modelled from the spec: `math::smaller(a, b)` of `util/math.hpp` (not among the
sources); in exact arithmetic it is the strict order, its negation being the
`>= period` of the source comment. -/
def math.smaller (a b : ℚ) : Bool := decide (a < b)

/-! ## Per-dimension range tests -/

/-- The primary template `box_within_range<Geometry, Dimension, CSTag>::apply`. -/
def box_within_range.apply {T : Type} [LinearOrder T]
    (bed_min bed_max bing_min bing_max : T) : Bool :=
  (decide (bing_min ≤ bed_min) && decide (bed_max ≤ bing_max)) -- contained in containing
    && decide (bed_min < bed_max)                              -- interiors overlap

/-- The primary template `box_covered_by_range<Geometry, Dimension, CSTag>::apply`. -/
def box_covered_by_range.apply {T : Type} [LinearOrder T]
    (bed_min bed_max bing_min bing_max : T) : Bool :=
  decide (bed_min ≥ bing_min) && decide (bed_max ≤ bing_max)

/-- The specialisation `box_within_range<Geometry, 0, spherical_tag>::apply`
(units: degree). -/
def box_within_range_spherical.apply (bed_min bed_max bing_min bing_max : ℚ) : Bool :=
  -- min <= max <=> diff >= 0
  let diff_ed := bed_max - bed_min
  let diff_ing := bing_max - bing_min
  -- if containing is smaller it cannot contain
  -- or interiors doesn't overlap (no interior in contained)
  if diff_ing < diff_ed ∨ diff_ed = 0 then false
  -- if containing covers the whole globe it contains all
  else if !math.smaller diff_ing period then true
  else
    -- calculate positive longitude translation with bing_min as origin
    let c0 : ℚ := 0
    let diff_min := normalize_longitude (bed_min - bing_min)
    let diff_min := if diff_min < c0 then diff_min + period else diff_min
    decide (bing_min + diff_min + diff_ed ≤ bing_max)

/-- The specialisation `box_covered_by_range<Geometry, 0, spherical_tag>::apply`
(units: degree). -/
def box_covered_by_range_spherical.apply (bed_min bed_max bing_min bing_max : ℚ) : Bool :=
  -- min <= max <=> diff >= 0
  let diff_ed := bed_max - bed_min
  let diff_ing := bing_max - bing_min
  -- if containing is smaller it cannot contain
  if diff_ing < diff_ed then false
  -- if containing covers the whole globe it contains all
  else if !math.smaller diff_ing period then true
  else
    -- calculate positive longitude translation with bing_min as origin
    let c0 : ℚ := 0
    let diff_min := normalize_longitude (bed_min - bing_min)
    let diff_min := if diff_min < c0 then diff_min + period else diff_min
    decide (bing_min + diff_min + diff_ed ≤ bing_max)

/-- Template selection for `box_within_range<Geometry, Dimension, CSTag>`: the
specialisation is chosen for dimension 0 with `spherical_tag`, the primary template
everywhere else. -/
def box_within_range (Dimension : Nat) (cs_tag : CSTag) : ℚ → ℚ → ℚ → ℚ → Bool :=
  match Dimension, cs_tag with
  | 0, CSTag.spherical_tag => box_within_range_spherical.apply
  | _, _ => box_within_range.apply

/-- Template selection for `box_covered_by_range<Geometry, Dimension, CSTag>`. -/
def box_covered_by_range (Dimension : Nat) (cs_tag : CSTag) : ℚ → ℚ → ℚ → ℚ → Bool :=
  match Dimension, cs_tag with
  | 0, CSTag.spherical_tag => box_covered_by_range_spherical.apply
  | _, _ => box_covered_by_range.apply

/-! ## The loop over the dimensions -/

/-- The template recursion `relate_box_box_loop<SubStrategy, Box1, Box2, Dimension,
DimensionCount>::apply`. `SubStrategy` is the template template parameter, a family of
range tests indexed by dimension and tag; `cs` is `cs_tag<Box1>::type`. The
specialisation for `Dimension = DimensionCount` returns `true`; the recursion is only
ever entered at `Dimension = 0`, so `Dimension ≤ DimensionCount` throughout. -/
def relate_box_box_loop.apply (SubStrategy : Nat → CSTag → ℚ → ℚ → ℚ → ℚ → Bool)
    (cs : CSTag) {DimensionCount : Nat} (b_contained b_containing : Box DimensionCount)
    (Dimension : Nat) : Bool :=
  if h : Dimension < DimensionCount then
    let cs_tag_t := tag_cast cs
    if !SubStrategy Dimension cs_tag_t
          (b_contained.min_corner ⟨Dimension, h⟩)
          (b_contained.max_corner ⟨Dimension, h⟩)
          (b_containing.min_corner ⟨Dimension, h⟩)
          (b_containing.max_corner ⟨Dimension, h⟩) then
      false
    else
      relate_box_box_loop.apply SubStrategy cs b_contained b_containing (Dimension + 1)
  else
    true
termination_by DimensionCount - Dimension

/-- The strategy `box_in_box<Box1, Box2, SubStrategy>::apply`: the loop started at
dimension 0. -/
def box_in_box.apply (SubStrategy : Nat → CSTag → ℚ → ℚ → ℚ → ℚ → Bool)
    (cs : CSTag) {DimensionCount : Nat} (box1 box2 : Box DimensionCount) : Bool :=
  relate_box_box_loop.apply SubStrategy cs box1 box2 0

/-! ## Rounded arithmetic of the coordinate type

The range tests compute in `calc_t`, the more precise of the two coordinate types. For
integer and rational coordinates the arithmetic is exact; for `double` every sum and
difference is rounded. The definitions below take the rounding as a parameter `fl`
(`id` for exact arithmetic, `round_double` for `double`). -/

/-- The integer nearest to a rational, a tie going to the even neighbour: the rounding
direction of IEEE 754 arithmetic (round to nearest, ties to even). -/
def round_half_even (q : ℚ) : ℤ :=
  let f := ⌊q⌋
  let r := q - f
  if r < 1 / 2 then f
  else if 1 / 2 < r then f + 1
  else if f % 2 = 0 then f else f + 1

/-- The number of times a natural number can be halved before it falls below 2, counted
with at most `fuel` halvings. -/
def halvings : Nat → Nat → Nat
  | 0, _ => 0
  | fuel + 1, n => if 2 ≤ n then halvings fuel (n / 2) + 1 else 0

/-- The binary logarithm of a natural number, rounded down (0 for 0 and 1). -/
def binary_log (n : Nat) : Nat := halvings n n

/-- The binary exponent of a non-zero rational: the `e` with `2^e ≤ |x| < 2^(e+1)`. -/
def binary_exponent (x : ℚ) : ℤ :=
  if 1 ≤ |x| then (binary_log ⌊|x|⌋.toNat : ℤ)
  else -((binary_log (⌈|x|⁻¹⌉.toNat - 1) : ℤ) + 1)

/-- The value of a C++ `double` (IEEE 754 binary64) nearest to a rational: 53
significant bits, exponents from -1022 (below which the spacing stays 2^-1074), round to
nearest, ties to even. Overflow to infinity is not modelled: the result is meant for
magnitudes below 2^1024. -/
def round_double (x : ℚ) : ℚ :=
  if x = 0 then 0
  else
    let e := max (binary_exponent x) (-1022)
    let ulp : ℚ := 2 ^ (e - 52)
    round_half_even (x / ulp) * ulp

/-- The specialisation `box_within_range<Geometry, 0, spherical_tag>::apply` (units:
degree) with every arithmetic operation of `calc_t` rounded by `fl`; comparisons are
exact. The absent `normalize_longitude` is taken to return the rounded representative. -/
def box_within_range_spherical.apply_rounded (fl : ℚ → ℚ)
    (bed_min bed_max bing_min bing_max : ℚ) : Bool :=
  -- min <= max <=> diff >= 0
  let diff_ed := fl (bed_max - bed_min)
  let diff_ing := fl (bing_max - bing_min)
  -- if containing is smaller it cannot contain
  -- or interiors doesn't overlap (no interior in contained)
  if diff_ing < diff_ed ∨ diff_ed = 0 then false
  -- if containing covers the whole globe it contains all
  else if !math.smaller diff_ing period then true
  else
    -- calculate positive longitude translation with bing_min as origin
    let c0 : ℚ := 0
    let diff_min := fl (normalize_longitude (fl (bed_min - bing_min)))
    let diff_min := if diff_min < c0 then fl (diff_min + period) else diff_min
    decide (fl (fl (bing_min + diff_min) + diff_ed) ≤ bing_max)

/-- The specialisation `box_covered_by_range<Geometry, 0, spherical_tag>::apply` (units:
degree) with every arithmetic operation of `calc_t` rounded by `fl`. -/
def box_covered_by_range_spherical.apply_rounded (fl : ℚ → ℚ)
    (bed_min bed_max bing_min bing_max : ℚ) : Bool :=
  -- min <= max <=> diff >= 0
  let diff_ed := fl (bed_max - bed_min)
  let diff_ing := fl (bing_max - bing_min)
  -- if containing is smaller it cannot contain
  if diff_ing < diff_ed then false
  -- if containing covers the whole globe it contains all
  else if !math.smaller diff_ing period then true
  else
    -- calculate positive longitude translation with bing_min as origin
    let c0 : ℚ := 0
    let diff_min := fl (normalize_longitude (fl (bed_min - bing_min)))
    let diff_min := if diff_min < c0 then fl (diff_min + period) else diff_min
    decide (fl (fl (bing_min + diff_min) + diff_ed) ≤ bing_max)

/-- Template selection for `box_within_range<Geometry, Dimension, CSTag>` in the
arithmetic rounded by `fl`; the primary template only compares. -/
def box_within_range_rounded (fl : ℚ → ℚ) (Dimension : Nat) (cs_tag : CSTag) :
    ℚ → ℚ → ℚ → ℚ → Bool :=
  match Dimension, cs_tag with
  | 0, CSTag.spherical_tag => box_within_range_spherical.apply_rounded fl
  | _, _ => box_within_range.apply

/-- Template selection for `box_covered_by_range<Geometry, Dimension, CSTag>` in the
arithmetic rounded by `fl`. -/
def box_covered_by_range_rounded (fl : ℚ → ℚ) (Dimension : Nat) (cs_tag : CSTag) :
    ℚ → ℚ → ℚ → ℚ → Bool :=
  match Dimension, cs_tag with
  | 0, CSTag.spherical_tag => box_covered_by_range_spherical.apply_rounded fl
  | _, _ => box_covered_by_range.apply

/-! ## Example boxes -/

/-- The box `BOX(-180 0,-63.6 1)` with `double` coordinates. -/
def seamBox : Box 2 := ⟨![-180, 0], ![round_double (-63.6), 1]⟩

/-- The box `BOX(0 0,1 1)`. -/
def unitBox : Box 2 := ⟨![0, 0], ![1, 1]⟩

end BoxInBox

namespace IsValid

open BoxInBox

/-! ## Validity: data model -/

/-- Modelled from the spec: a two-dimensional `Point`, "an ordered tuple of coordinate
values"; the point type of `geometries/point.hpp` is not among the sources. Coordinates
are rationals (exact arithmetic). -/
structure Point where
  x : ℚ
  y : ℚ
  deriving DecidableEq

/-- Modelled from the spec: a `Segment`, "an ordered pair of Points", degenerate ones not
excluded by the type. -/
structure Segment where
  first : Point
  second : Point
  deriving DecidableEq

/-- Modelled from the spec: `ValidationConfig`,
`{ allow_duplicate_points: bool, allow_spikes: bool }`; in the test file these are the
template arguments `AllowDuplicates` and `AllowSpikes` of the validity testers. -/
structure ValidationConfig where
  allow_duplicate_points : Bool
  allow_spikes : Bool
  deriving DecidableEq

/-- Modelled from the spec: a `LinearRing`, "an ordered sequence of Points plus two
flags", `closed` and the expected orientation; these are the template arguments
`ClockWise` and `Closed` of `bg::model::ring<Point, ClockWise, Closed>` in the test file. -/
structure LinearRing where
  points : List Point
  clockwise : Bool
  closed : Bool
  deriving DecidableEq

/-- Modelled from the spec: a `Polygon`, "one exterior LinearRing plus an ordered sequence
of interior LinearRings". -/
structure Polygon where
  outer : LinearRing
  inners : List LinearRing
  deriving DecidableEq

/-! ## Validity: geometric primitives (spec 4.1) -/

/-- Modelled from the spec: "the 2-D cross product of b−a and c−a". -/
def cross_product (a b c : Point) : ℚ :=
  (b.x - a.x) * (c.y - a.y) - (b.y - a.y) * (c.x - a.x)

/-- Modelled from the spec: the three values of `orientation`. -/
inductive Side
  | left
  | right
  | collinear
  deriving DecidableEq

/-- Modelled from the spec: `orientation(a, b, c) -> {left, right, collinear}`, the sign
of the cross product. -/
def orientation (a b c : Point) : Side :=
  if 0 < cross_product a b c then Side.left
  else if cross_product a b c < 0 then Side.right
  else Side.collinear

/-- Modelled from the spec: `distance_squared(a,b)`, "for degeneracy checks". -/
def distance_squared (a b : Point) : ℚ :=
  (b.x - a.x) * (b.x - a.x) + (b.y - a.y) * (b.y - a.y)

/-- Modelled from the spec: the scalar product of b−a and c−b, negative when the path
a, b, c turns back. -/
def dot_product (a b c : Point) : ℚ :=
  (b.x - a.x) * (c.x - b.x) + (b.y - a.y) * (c.y - b.y)

/-- Modelled from the spec: the point `p` lies on the closed segment from `a` to `b`. -/
def on_segment (a b p : Point) : Bool :=
  decide (cross_product a b p = 0) &&
  decide (min a.x b.x ≤ p.x) && decide (p.x ≤ max a.x b.x) &&
  decide (min a.y b.y ≤ p.y) && decide (p.y ≤ max a.y b.y)

/-! ## Validity: segment relation kernel (spec 4.2) -/

/-- Modelled from the spec: the result of `relate`,
`{Disjoint, TouchAtPoint(p), Crossing(p), CollinearOverlap(range), Identical}`. -/
inductive Relation
  | Disjoint
  | TouchAtPoint (p : Point)
  | Crossing (p : Point)
  | CollinearOverlap (range : Segment)
  | Identical
  deriving DecidableEq

/-- Modelled from the spec: the order of points along a shared line (by x, then by y),
used for the "1-D interval overlap". -/
def lex_le (a b : Point) : Bool :=
  decide (a.x < b.x) || (decide (a.x = b.x) && decide (a.y ≤ b.y))

/-- Modelled from the spec: the smaller of two points along a line. -/
def lex_min (a b : Point) : Point := if lex_le a b then a else b

/-- Modelled from the spec: the larger of two points along a line. -/
def lex_max (a b : Point) : Point := if lex_le a b then b else a

/-- Modelled from the spec: the point where the lines through two crossing segments
meet. -/
def crossing_point (a b c d : Point) : Point :=
  let t := cross_product c d a / (cross_product c d a - cross_product c d b)
  ⟨a.x + t * (b.x - a.x), a.y + t * (b.y - a.y)⟩

/-- Modelled from the spec: `relate(s1, s2)` of section 4.2. The orientations of each
endpoint of one segment relative to the other decide between crossing, touching and
disjoint; two collinear segments fall back to the overlap of their intervals on the
shared line. Arithmetic is exact, so the collinearity tolerance is zero. -/
def relate (s1 s2 : Segment) : Relation :=
  let a := s1.first
  let b := s1.second
  let c := s2.first
  let d := s2.second
  let o1 := orientation a b c
  let o2 := orientation a b d
  let o3 := orientation c d a
  let o4 := orientation c d b
  if o1 = Side.collinear ∧ o2 = Side.collinear ∧ o3 = Side.collinear ∧ o4 = Side.collinear then
    if (a = c ∧ b = d) ∨ (a = d ∧ b = c) then Relation.Identical
    else
      let lo := lex_max (lex_min a b) (lex_min c d)
      let hi := lex_min (lex_max a b) (lex_max c d)
      if lo = hi then Relation.TouchAtPoint lo
      else if lex_le lo hi then Relation.CollinearOverlap ⟨lo, hi⟩
      else Relation.Disjoint
  else if o1 ≠ Side.collinear ∧ o2 ≠ Side.collinear ∧ o1 ≠ o2 ∧
      o3 ≠ Side.collinear ∧ o4 ≠ Side.collinear ∧ o3 ≠ o4 then
    Relation.Crossing (crossing_point a b c d)
  else if on_segment a b c then Relation.TouchAtPoint c
  else if on_segment a b d then Relation.TouchAtPoint d
  else if on_segment c d a then Relation.TouchAtPoint a
  else if on_segment c d b then Relation.TouchAtPoint b
  else Relation.Disjoint

/-- Modelled from the spec: the relation is `Crossing`, `CollinearOverlap` or
`Identical`, the relations that are invalid wherever two edges are compared. -/
def Relation.crosses_or_overlaps : Relation → Bool
  | Relation.Crossing _ => true
  | Relation.CollinearOverlap _ => true
  | Relation.Identical => true
  | _ => false

/-- Modelled from the spec: the point of a `TouchAtPoint` relation, if it is one. -/
def Relation.touch_point : Relation → Option Point
  | Relation.TouchAtPoint p => some p
  | _ => none

/-! ## Validity: point sequences -/

/-- Modelled from the spec: "immediately-repeated consecutive points are always
collapsed before further checks"; the sequence with each run of equal points reduced to
one point. -/
def collapse : List Point → List Point
  | [] => []
  | [p] => [p]
  | p :: q :: rest => if p = q then collapse (q :: rest) else p :: collapse (q :: rest)

/-- Modelled from the spec: the collapsed sequence of a ring, read cyclically: the last
point is dropped when it repeats the first ("accounting for ring wraparound"). -/
def cyclic_collapse (l : List Point) : List Point :=
  let c := collapse l
  if 2 ≤ c.length ∧ c.head? = c.getLast? then c.dropLast else c

/-- Modelled from the spec: a spike, "three consecutive distinct points" where "the turn
is collinear" and "the path doubles back on itself". -/
def is_spike (a b c : Point) : Bool :=
  decide (cross_product a b c = 0) && decide (dot_product a b c < 0)

/-- Modelled from the spec: some three consecutive points of the path form a spike. -/
def has_spikes : List Point → Bool
  | a :: b :: c :: rest => is_spike a b c || has_spikes (b :: c :: rest)
  | _ => false

/-- Modelled from the spec: the edges of a cyclic point sequence, "the edge from last to
first" included. -/
def cyclic_edges (l : List Point) : List Segment :=
  List.zipWith Segment.mk l (l.tail ++ l.take 1)

/-- Modelled from the spec: two edges meet, their relation is not `Disjoint`. -/
def edges_meet (e f : Segment) : Bool := decide (relate e f ≠ Relation.Disjoint)

/-- Modelled from the spec: some edge of a path meets a later edge that does not follow
it directly. -/
def path_self_intersects : List Segment → Bool
  | [] => false
  | e :: rest => rest.tail.any (edges_meet e) || path_self_intersects rest

/-- Modelled from the spec: self-intersection of a ring, "for every pair of non-adjacent
edges (sharing no endpoint by index-adjacency, accounting for ring wraparound)": the
first edge is compared with all but its successor and the closing edge, every other
edge with all later edges but its successor. -/
def ring_self_intersects : List Segment → Bool
  | [] => false
  | e :: rest => rest.tail.dropLast.any (edges_meet e) || path_self_intersects rest

/-! ## Validity: points, segments, boxes, linestrings -/

/-- Modelled from the spec: "a Point is always valid"; `is_valid` for points
(`algorithms/is_valid.hpp`) is not among the sources. -/
def is_valid_point (_cfg : ValidationConfig) (_p : Point) : Bool := true

/-- Modelled from the spec: `is_valid` for segments (not among the sources):
"zero-length segments are detected as an error case", the degeneracy check being made
with `distance_squared`. -/
def is_valid_segment (s : Segment) : Bool :=
  decide (distance_squared s.first s.second ≠ 0)

/-- Modelled from the spec: `is_valid` for boxes (not among the sources): "min ≤ max
componentwise and min < max strictly in at least the first two dimensions (else the box
itself is judged invalid)". -/
def is_valid_box {DimensionCount : Nat} (b : Box DimensionCount) : Bool :=
  decide (2 ≤ DimensionCount) &&
  decide (∀ d : Fin DimensionCount, b.min_corner d ≤ b.max_corner d) &&
  decide (∀ d : Fin DimensionCount, d.val < 2 → b.min_corner d < b.max_corner d)

/-- Modelled from the spec: the spikes of a linestring, read on its collapsed sequence:
a spike at three consecutive points, or, when the linestring returns to its first point,
at that point between the last and the first edge (the test file expects the verdict
`AllowSpikes` for `LINESTRING(0 0,10 0,10 10,5 0,0 0)`, l17). -/
def linestring_has_spikes (c : List Point) : Bool :=
  has_spikes c ||
  (decide (3 ≤ c.length) && decide (c.head? = c.getLast?) &&
    has_spikes (c.dropLast.getLast?.toList ++ c.take 2))

/-- Modelled from the spec: `is_valid` for linestrings (not among the sources). The
spec gives the rules for rings; for a linestring the vertex floor is two distinct
points ("`LINESTRING(0 0)` → invalid (single point)") and "spikes are allowed iff
`allow_spikes` is true", both read on the collapsed sequence. -/
def is_valid_linestring (cfg : ValidationConfig) (ls : List Point) : Bool :=
  decide (2 ≤ (collapse ls).length) &&
  (cfg.allow_spikes || !linestring_has_spikes (collapse ls))

/-! ## Validity: rings (spec 4.3) -/

/-- Modelled from the spec: "a ring's logical vertex sequence always excludes the
redundant closing duplicate when `closed` is true". -/
def LinearRing.logical (r : LinearRing) : List Point :=
  if r.closed then r.points.dropLast else r.points

/-- Modelled from the spec: the distinct consecutive points of a ring, its logical
sequence collapsed cyclically. -/
def LinearRing.vertices (r : LinearRing) : List Point := cyclic_collapse r.logical

/-- Modelled from the spec: step 1 of the ring validator, the vertex floor: at least 3
distinct consecutive points, and "a closed ring's explicit closing duplicate ... must
still close exactly". -/
def vertex_floor (r : LinearRing) : Bool :=
  decide (3 ≤ r.vertices.length) &&
  (!r.closed || (decide (2 ≤ r.points.length) && decide (r.points.head? = r.points.getLast?)))

/-- Modelled from the spec: step 2 of the ring validator, the duplicate policy: a
repeated point in the logical sequence is permitted only if `allow_duplicate_points` is
true. On immediate repeats the spec speaks twice: they are collapsed "under the
duplicate policy" (step 1), and the collapsing "is not itself a duplicate-policy
violation" (step 2). The test file expects the verdict `AllowDuplicates` for the rings
whose only repeated points are immediate (r08, r32), so here an immediate repeat counts
as a duplicate. -/
def duplicates_permitted (cfg : ValidationConfig) (r : LinearRing) : Bool :=
  cfg.allow_duplicate_points || decide r.logical.Nodup

/-- Modelled from the spec: step 3 of the ring validator, the spike policy, the
wraparound triples included. -/
def spikes_permitted (cfg : ValidationConfig) (r : LinearRing) : Bool :=
  cfg.allow_spikes || !has_spikes (r.vertices ++ r.vertices.take 2)

/-- Modelled from the spec: step 4 of the ring validator, no two non-adjacent edges
meet. -/
def no_self_intersection (r : LinearRing) : Bool :=
  !ring_self_intersects (cyclic_edges r.vertices)

/-- Modelled from the spec: the ring validator of section 4.3 (`is_valid` for rings, not
among the sources): "a ring passing all four checks is valid". The second argument tells
whether the ring is validated as a hole of a polygon; with the orientation flag of the
ring it is "read but not enforced as a hard validity rule". -/
def is_valid_ring (cfg : ValidationConfig) (_is_interior_ring : Bool) (r : LinearRing) :
    Bool :=
  vertex_floor r &&
  duplicates_permitted cfg r &&
  spikes_permitted cfg r &&
  no_self_intersection r

/-! ## Validity: polygons (spec 4.4) -/

/-- Modelled from the spec: the edges of a ring, those of its distinct consecutive
points. -/
def LinearRing.edges (r : LinearRing) : List Segment := cyclic_edges r.vertices

/-- Modelled from the spec: the bounding box of a ring (the box from the least to the
greatest coordinate of its points). -/
def envelope (r : LinearRing) : Box 2 :=
  match r.points with
  | [] => ⟨![0, 0], ![0, 0]⟩
  | p :: rest =>
    ⟨![rest.foldl (fun m q => min m q.x) p.x, rest.foldl (fun m q => min m q.y) p.y],
     ![rest.foldl (fun m q => max m q.x) p.x, rest.foldl (fun m q => max m q.y) p.y]⟩

/-- Modelled from the spec: some edge of the first list and some edge of the second
cross or overlap. -/
def edges_cross_or_overlap (es fs : List Segment) : Bool :=
  es.any fun e => fs.any fun f => (relate e f).crosses_or_overlaps

/-- Modelled from the spec: the point lies on an edge of the ring. -/
def on_boundary (r : LinearRing) (p : Point) : Bool :=
  r.edges.any fun e => on_segment e.first e.second p

/-- Modelled from the spec: the edge crosses the horizontal ray from `p` to the right
(the step of the "exact point-in-ring" test). -/
def ray_crosses (p : Point) (e : Segment) : Bool :=
  decide ((p.y < e.first.y) ≠ (p.y < e.second.y)) &&
  decide (p.x < e.first.x + (p.y - e.first.y) * (e.second.x - e.first.x) / (e.second.y - e.first.y))

/-- Modelled from the spec: the point lies strictly inside the ring, off its boundary
and with an odd number of edges crossed by the ray to the right. -/
def strictly_inside (r : LinearRing) (p : Point) : Bool :=
  !on_boundary r p && decide ((r.edges.filter (ray_crosses p)).length % 2 = 1)

/-- Modelled from the spec: step 3 of the polygon validator, hole containment: the
bounding box of the hole is covered by that of the exterior (section 4.6, planar), no
edge of the hole crosses or overlaps an edge of the exterior, and every vertex of the
hole is inside the exterior or on its boundary. -/
def hole_within_exterior (outer hole : LinearRing) : Bool :=
  box_in_box.apply box_covered_by_range CSTag.cartesian_tag (envelope hole) (envelope outer) &&
  !edges_cross_or_overlap hole.edges outer.edges &&
  hole.vertices.all fun p => on_boundary outer p || strictly_inside outer p

/-- Modelled from the spec: step 4 of the polygon validator for two holes: their edges
neither cross nor overlap, and neither hole has a vertex strictly inside the other. -/
def holes_compatible (h1 h2 : LinearRing) : Bool :=
  !edges_cross_or_overlap h1.edges h2.edges &&
  !h1.vertices.any (strictly_inside h2) &&
  !h2.vertices.any (strictly_inside h1)

/-- Modelled from the spec: step 4 of the polygon validator, all pairs of holes. -/
def holes_pairwise_compatible : List LinearRing → Bool
  | [] => true
  | h :: rest => rest.all (holes_compatible h) && holes_pairwise_compatible rest

/-- Modelled from the spec: the points at which an edge of one ring touches an edge of
another. -/
def touch_points (r1 r2 : LinearRing) : List Point :=
  (r1.edges.flatMap fun e => r2.edges.filterMap fun f => (relate e f).touch_point).dedup

/-- Modelled from the spec: the edges of the touching graph contributed by the ring
numbered `i` and the later rings: a ring is joined to each point at which it touches
another ring. -/
def touch_graph_from (i : Nat) : List LinearRing → List (Nat × Point)
  | [] => []
  | r :: rest =>
    ((List.range rest.length).zip rest).flatMap (fun jr =>
      (touch_points r jr.2).flatMap fun p => [(i, p), (i + 1 + jr.1, p)])
    ++ touch_graph_from (i + 1) rest

/-- Modelled from the spec: the touching graph of a polygon, "whose nodes are the
exterior and each hole and whose edges are touch-points". -/
def touch_graph (pg : Polygon) : List (Nat × Point) :=
  (touch_graph_from 0 (pg.outer :: pg.inners)).dedup

/-- Modelled from the spec: one round of removing from the touching graph every edge
that ends in a ring or in a point with no other edge. -/
def strip_leaves (g : List (Nat × Point)) : List (Nat × Point) :=
  g.filter fun e =>
    decide (2 ≤ (g.filter fun f => f.1 = e.1).length) &&
    decide (2 ≤ (g.filter fun f => f.2 = e.2).length)

/-- Modelled from the spec: `fuel` rounds of leaf removal. -/
def strip_leaves_iter : Nat → List (Nat × Point) → List (Nat × Point)
  | 0, g => g
  | fuel + 1, g => strip_leaves_iter fuel (strip_leaves g)

/-- Modelled from the spec: step 5 of the polygon validator, interior connectivity: the
touching rings and touch points close no cycle (a cycle would pinch "the free space
into separate components"), which is the case when leaf removal empties the graph. -/
def interior_connected (pg : Polygon) : Bool :=
  (strip_leaves_iter (touch_graph pg).length (touch_graph pg)).isEmpty

/-- Modelled from the spec: the polygon validator of section 4.4 (`is_valid` for
polygons, not among the sources): the exterior ring, each hole (as an interior ring),
hole containment, the relations between holes, and interior connectivity. -/
def is_valid_polygon (cfg : ValidationConfig) (pg : Polygon) : Bool :=
  is_valid_ring cfg false pg.outer &&
  pg.inners.all (is_valid_ring cfg true) &&
  pg.inners.all (hole_within_exterior pg.outer) &&
  holes_pairwise_compatible pg.inners &&
  interior_connected pg

/-! ## Validity: multi-polygons (spec 4.5) -/

/-- Modelled from the spec: the rings of a polygon, the exterior ring and the holes. -/
def Polygon.rings (pg : Polygon) : List LinearRing := pg.outer :: pg.inners

/-- Modelled from the spec: the boundary of a polygon, the edges of all its rings. -/
def Polygon.boundary (pg : Polygon) : List Segment := pg.rings.flatMap LinearRing.edges

/-- Modelled from the spec: the point lies on the boundary of the polygon. -/
def on_polygon_boundary (pg : Polygon) (p : Point) : Bool :=
  pg.boundary.any fun e => on_segment e.first e.second p

/-- Modelled from the spec: the point lies in the interior of the polygon, strictly
inside its exterior ring and neither inside nor on the boundary of a hole. -/
def in_interior (pg : Polygon) (p : Point) : Bool :=
  strictly_inside pg.outer p &&
  !(pg.inners.any fun h => on_boundary h p || strictly_inside h p)

/-- Modelled from the spec: no ring of the polygon repeats a point of its logical
sequence, so that the duplicate policy does not bear on the polygon. -/
def Polygon.free_of_duplicates (pg : Polygon) : Bool :=
  pg.rings.all fun r => decide r.logical.Nodup

/-- The verdict `v` found with duplicates allowed, together with the absence `n` of
duplicates, agrees with the verdicts expected with duplicates allowed and not allowed:
without duplicates allowed the verdict is `v && n`. -/
def verdicts_agree (v n : Bool) (expected : Bool × Bool) : Bool :=
  bif v then expected.1 && (expected.2 == n) else !expected.1 && !expected.2

/-- The point halfway between two points. -/
def midpoint (a b : Point) : Point := ⟨(a.x + b.x) / 2, (a.y + b.y) / 2⟩

/-- Modelled from the spec: the points at which an edge is cut by the edges of another
boundary that touch it: its two ends and the touch points on it. -/
def cut_points (e : Segment) (fs : List Segment) : List Point :=
  e.first :: e.second ::
    (fs.filterMap fun f => (relate e f).touch_point).filter (on_segment e.first e.second)

/-- The points halfway between any two points of a list. -/
def pair_midpoints : List Point → List Point
  | [] => []
  | a :: rest => rest.map (midpoint a) ++ pair_midpoints rest

/-- Modelled from the spec: the points of an edge tested against the interior of the
other polygon: its first end and the points halfway between any two of its cut points.
Between two neighbouring cut points the edge does not meet the other boundary, so it
runs inside the other polygon exactly when the point halfway does. -/
def probes (e : Segment) (fs : List Segment) : List Point :=
  e.first :: pair_midpoints (cut_points e fs)

/-- Modelled from the spec: the boundary of `q` enters the interior of `p`: a tested
point of an edge of `q` lies in the interior of `p`. -/
def boundary_enters (p q : Polygon) : Bool :=
  q.boundary.any fun e => (probes e p.boundary).any (in_interior p)

/-- Modelled from the spec: the pairwise rule of the multi-polygon validator: "two
polygons' interiors must be disjoint; boundaries may touch at isolated points", but "any
edge-crossing or overlapping-edge relation" between the boundaries, and "sharing a full
boundary segment", is invalid. Two polygons whose boundaries neither cross nor overlap
have disjoint interiors exactly when the boundary of neither enters the interior of the
other. -/
def polygons_compatible (p q : Polygon) : Bool :=
  !edges_cross_or_overlap p.boundary q.boundary &&
  !boundary_enters p q &&
  !boundary_enters q p

/-- Modelled from the spec: the pairwise rule on all pairs of polygons. -/
def polygons_pairwise_compatible : List Polygon → Bool
  | [] => true
  | p :: rest => rest.all (polygons_compatible p) && polygons_pairwise_compatible rest

/-- Modelled from the spec: the multi-polygon validator of section 4.5 (`is_valid` for
multi-polygons, not among the sources): "validates each constituent Polygon via 4.4;
then checks all pairs". A MultiPolygon is "an ordered sequence of Polygons". -/
def is_valid_multipolygon (cfg : ValidationConfig) (mp : List Polygon) : Bool :=
  mp.all (is_valid_polygon cfg) && polygons_pairwise_compatible mp

/-! ## Validity: geometries of the test file `test/algorithms/is_valid.cpp` -/

/-- The point `POINT(0 0)` (p01). -/
def point_p01 : Point := ⟨0, 0⟩

/-- The segment `SEGMENT(0 0,0 0)` (s01). -/
def segment_s01 : Segment := ⟨⟨0, 0⟩, ⟨0, 0⟩⟩

/-- The segment `SEGMENT(0 0,1 0)` (s02). -/
def segment_s02 : Segment := ⟨⟨0, 0⟩, ⟨1, 0⟩⟩

/-- The box with the given corners, `BOX(x1 y1,x2 y2)`. -/
def box2 (x1 y1 x2 y2 : ℚ) : Box 2 := ⟨![x1, y1], ![x2, y2]⟩

/-- An open counter-clockwise ring, `bg::model::ring<Point, false, false>`. -/
def open_ring (l : List Point) : LinearRing := ⟨l, false, false⟩

/-- A closed counter-clockwise ring, `bg::model::ring<Point, false, true>`. -/
def closed_ring (l : List Point) : LinearRing := ⟨l, false, true⟩

/-- The open ring `POLYGON((0 0,1 0,0 0))` (r06). -/
def ring_r06 : LinearRing := open_ring [⟨0, 0⟩, ⟨1, 0⟩, ⟨0, 0⟩]

/-- The closed ring `POLYGON((0 0,1 0,2 0,2 0))` (r08c). -/
def ring_r08c : LinearRing := closed_ring [⟨0, 0⟩, ⟨1, 0⟩, ⟨2, 0⟩, ⟨2, 0⟩]

/-- The linestring `LINESTRING(0 0)` (l02). -/
def linestring_l02 : List Point := [⟨0, 0⟩]

/-- The linestring `LINESTRING(0 0,0 0,0 0)` (l04). -/
def linestring_l04 : List Point := [⟨0, 0⟩, ⟨0, 0⟩, ⟨0, 0⟩]

/-- The linestring `LINESTRING(0 0,1 2)` (l05). -/
def linestring_l05 : List Point := [⟨0, 0⟩, ⟨1, 2⟩]

/-- The linestring `LINESTRING(0 0,0 0,1 2,1 2)` (l07). -/
def linestring_l07 : List Point := [⟨0, 0⟩, ⟨0, 0⟩, ⟨1, 2⟩, ⟨1, 2⟩]

/-- The linestring `LINESTRING(0 0,1 2,0 0)` (l12). -/
def linestring_l12 : List Point := [⟨0, 0⟩, ⟨1, 2⟩, ⟨0, 0⟩]

/-- The linestring `LINESTRING(0 0,10 0,5 0)` (l16). -/
def linestring_l16 : List Point := [⟨0, 0⟩, ⟨10, 0⟩, ⟨5, 0⟩]

/-- The point with the given coordinates. -/
def pt (x y : ℚ) : Point := ⟨x, y⟩

/-- The linestrings l01 to l29 of `test_linestrings`, each with the verdict expected when
spikes are allowed and when they are not. -/
def linestring_corpus : List (List Point × Bool × Bool) :=
  [([], false, false),
   ([pt 0 0], false, false),
   ([pt 0 0, pt 0 0], false, false),
   ([pt 0 0, pt 0 0, pt 0 0], false, false),
   ([pt 0 0, pt 1 2], true, true),
   ([pt 0 0, pt 1 2, pt 1 2], true, true),
   ([pt 0 0, pt 0 0, pt 1 2, pt 1 2], true, true),
   ([pt 0 0, pt 0 0, pt 0 0, pt 1 2, pt 1 2], true, true),
   ([pt 0 0, pt 1 0, pt 2 10], true, true),
   ([pt 0 0, pt 1 0, pt 2 10, pt 0 0], true, true),
   ([pt 0 0, pt 10 0, pt 10 10, pt 5 0], true, true),
   ([pt 0 0, pt 1 2, pt 0 0], true, false),
   ([pt 0 0, pt 1 2, pt 1 2, pt 0 0], true, false),
   ([pt 0 0, pt 0 0, pt 1 2, pt 1 2, pt 0 0], true, false),
   ([pt 0 0, pt 0 0, pt 0 0, pt 1 2, pt 1 2, pt 0 0, pt 0 0], true, false),
   ([pt 0 0, pt 10 0, pt 5 0], true, false),
   ([pt 0 0, pt 10 0, pt 10 10, pt 5 0, pt 0 0], true, false),
   ([pt 0 0, pt 10 0, pt 10 10, pt 5 0, pt 4 0, pt 6 0], true, false),
   ([pt 0 0, pt 1 0, pt 1 1, pt 5 5, pt 4 4], true, false),
   ([pt 0 0, pt 1 0, pt 1 1, pt 5 5, pt 4 4, pt 6 6], true, false),
   ([pt 0 0, pt 1 0, pt 1 1, pt 5 5, pt 4 4, pt 4 0], true, false),
   ([pt 0 0, pt 0 0, pt 1 0, pt 1 0, pt 1 0, pt 0 0, pt 0 0, pt 2 0], true, false),
   ([pt 0 0, pt 1 0, pt 0 0, pt 2 0, pt 0 0, pt 3 0, pt 0 0, pt 4 0], true, false),
   ([pt 0 0, pt 1 0, pt 0 0, pt 2 0, pt 0 0, pt 3 0, pt 0 0, pt 4 0, pt 0 0], true, false),
   ([pt 0 0, pt 10 0, pt 10 10, pt 5 0, pt 4 0], true, true),
   ([pt 0 0, pt 10 0, pt 10 10, pt 5 0, pt 4 0, pt 3 0], true, true),
   ([pt 0 0, pt 10 0, pt 10 10, pt 5 0, pt 4 0, pt (-1) 0], true, true),
   ([pt 0 0, pt 1 0, pt 1 1, pt (-1) 1, pt (-1) 0, pt 0 0], true, true),
   ([pt 0 0, pt 1 0, pt 1 1, pt (-1) 1, pt (-1) 0, pt 0.5 0], true, true)]

/-- The open rings r01 to r32 of `test_open_rings`, each with the verdict expected when
duplicates are allowed and when they are not. -/
def open_ring_corpus : List (List Point × Bool × Bool) :=
  [([], false, false),
   ([pt 0 0], false, false),
   ([pt 0 0, pt 1 0], false, false),
   ([pt 0 0, pt 0 0, pt 0 0], false, false),
   ([pt 0 0, pt 1 0, pt 1 0], false, false),
   ([pt 0 0, pt 1 0, pt 0 0], false, false),
   ([pt 0 0, pt 1 0, pt 1 1, pt 0 0, pt 0 0], true, false),
   ([pt 0 0, pt 1 0, pt 1 0, pt 1 1], true, false),
   ([pt 0 0, pt 1 0, pt 1 0, pt 1 1, pt 0 0], true, false),
   ([pt 0 0, pt 2 0, pt 2 2, pt 0 2, pt 1 2], false, false),
   ([pt 0 0, pt 2 0, pt 1 0, pt 2 2], false, false),
   ([pt 0 0, pt 1 0, pt 2 0, pt 1 0, pt 4 0, pt 4 4], false, false),
   ([pt 0 0, pt 2 0, pt 2 2, pt 1 0], false, false),
   ([pt 0 0, pt 2 0, pt 1 0], false, false),
   ([pt 0 0, pt 5 0, pt 5 5, pt 4 4, pt 5 5, pt 0 5], false, false),
   ([pt 0 0, pt 5 0, pt 5 5, pt 4 4, pt 3 3, pt 5 5, pt 0 5], false, false),
   ([pt 0 0, pt 0 0, pt 2 0, pt 2 0, pt 1 0, pt 1 0], false, false),
   ([pt 0 0, pt 5 0, pt 5 5, pt 3 (-1), pt 0 5], false, false),
   ([pt 0 0, pt 5 0, pt 5 5, pt 5 5, pt 3 (-1), pt 0 5, pt 0 5], false, false),
   ([pt 0 0, pt 5 0, pt 5 5, pt 3 5, pt 3 0, pt 2 0, pt 2 5, pt 0 5], false, false),
   ([pt 0 0, pt 5 0, pt 5 5, pt 3 5, pt 3 0, pt 2 5, pt 0 5], false, false),
   ([pt 0 0, pt 5 0, pt 5 1, pt 1 1, pt 1 2, pt 2 2, pt 3 1, pt 4 2, pt 5 2, pt 5 5,
     pt 0 5], false, false),
   ([pt 0 0, pt 5 0, pt 5 5, pt 3 5, pt 3 5, pt 3 0, pt 3 0, pt 2 0, pt 2 0, pt 2 5, pt 2 5,
     pt 0 5], false, false),
   ([pt 0 0, pt 5 0, pt 5 5, pt 0 5, pt 4 4, pt 2 2, pt 0 5], false, false),
   ([pt 0 0, pt 5 0, pt 5 5, pt 1 4, pt 4 4, pt 4 1, pt 0 5], false, false),
   ([pt 0 0, pt 5 0, pt 5 5, pt 4 4, pt 1 4, pt 1 1, pt 4 1, pt 4 4, pt 0 5], false, false),
   ([pt 0 0, pt 5 0, pt 5 5, pt 4 4, pt 4 1, pt 1 1, pt 1 4, pt 4 4, pt 0 5], false, false),
   ([pt 0 0, pt 1 0, pt 1 1], true, true),
   ([pt 1 0, pt 1 1, pt 0 0], true, true),
   ([pt 0 0, pt 1 0, pt 1 1, pt 0 1], true, true),
   ([pt 1 0, pt 1 1, pt 0 1, pt 0 0], true, true),
   ([pt 1.1713032141645456 (-0.9370425713316364), pt 5.1713032141645456 4.0629574286683638,
     pt 4.7808688094430307 4.3753049524455756, pt 4.7808688094430307 4.3753049524455756,
     pt 0.7808688094430304 (-0.6246950475544243),
     pt 0.7808688094430304 (-0.6246950475544243)], true, false)]

/-- The closed rings r01c to r10c of `test_closed_rings`, each with the verdict expected
when duplicates are allowed and when they are not. -/
def closed_ring_corpus : List (List Point × Bool × Bool) :=
  [([], false, false),
   ([pt 0 0], false, false),
   ([pt 0 0, pt 0 0], false, false),
   ([pt 0 0, pt 1 0], false, false),
   ([pt 0 0, pt 1 0, pt 1 0], false, false),
   ([pt 0 0, pt 1 0, pt 2 0], false, false),
   ([pt 0 0, pt 1 0, pt 1 0, pt 2 0], false, false),
   ([pt 0 0, pt 1 0, pt 2 0, pt 2 0], false, false),
   ([pt 0 0, pt 1 0, pt 1 1, pt 1 2], false, false),
   ([pt 0 0, pt 1 0, pt 1 0, pt 1 1, pt 1 1, pt 1 2], false, false)]

/-- The open polygons pg001 to pg075 of `test_open_polygons` (exterior ring, holes), each
with the verdict expected when duplicates are allowed and when they are not; the two
largest, pg067 (eleven holes) and pg074 (70 points), are left out. -/
def open_polygon_corpus : List (List Point × List (List Point) × Bool × Bool) :=
  [([], [], false, false),
   ([pt 0 0], [], false, false),
   ([pt 0 0, pt 1 0], [], false, false),
   ([pt 0 0, pt 10 0, pt 10 10, pt 0 10], [[]], false, false),
   ([pt 0 0, pt 10 0, pt 10 10, pt 0 10], [[pt 1 1]], false, false),
   ([pt 0 0, pt 10 0, pt 10 10, pt 0 10], [[pt 1 1, pt 2 2]], false, false),
   ([pt 0 0, pt 0 0, pt 0 0], [], false, false),
   ([pt 0 0, pt 1 0, pt 1 0], [], false, false),
   ([pt 0 0, pt 1 0, pt 0 0], [], false, false),
   ([pt 0 0, pt 1 0, pt 1 1, pt 0 0, pt 0 0], [], true, false),
   ([pt 0 0, pt 1 0, pt 1 0, pt 1 1], [], true, false),
   ([pt 0 0, pt 1 0, pt 1 0, pt 1 1, pt 0 0], [], true, false),
   ([pt 0 0, pt 10 0, pt 10 10, pt 0 10], [[pt 1 1, pt 1 1, pt 1 1]], false, false),
   ([pt 0 0, pt 10 0, pt 10 10, pt 0 10], [[pt 1 1, pt 2 1, pt 2 1]], false, false),
   ([pt 0 0, pt 10 0, pt 10 10, pt 0 10], [[pt 1 1, pt 2 1, pt 1 1]], false, false),
   ([pt 0 0, pt 10 0, pt 10 10, pt 0 10], [[pt 1 1, pt 2 2, pt 2 1, pt 1 1, pt 1 1]], true, false),
   ([pt 0 0, pt 10 0, pt 10 10, pt 0 10], [[pt 1 1, pt 2 2, pt 2 2, pt 2 1]], true, false),
   ([pt 0 0, pt 10 0, pt 10 10, pt 0 10], [[pt 1 1, pt 2 2, pt 2 1, pt 2 1, pt 1 1]], true, false),
   ([pt 0 0, pt 2 0, pt 2 2, pt 0 2, pt 1 2], [], false, false),
   ([pt 0 0, pt 2 0, pt 1 0, pt 2 2], [], false, false),
   ([pt 0 0, pt 1 0, pt 2 0, pt 1 0, pt 4 0, pt 4 4], [], false, false),
   ([pt 0 0, pt 2 0, pt 2 2, pt 1 0], [], false, false),
   ([pt 0 0, pt 2 0, pt 1 0], [], false, false),
   ([pt 0 0, pt 5 0, pt 5 5, pt 4 4, pt 5 5, pt 0 5], [], false, false),
   ([pt 0 0, pt 5 0, pt 5 5, pt 4 4, pt 3 3, pt 5 5, pt 0 5], [], false, false),
   ([pt 0 0, pt 10 0, pt 10 10, pt 0 10], [[pt 1 1, pt 3 1, pt 3 3, pt 1 3, pt 2 3]], false, false),
   ([pt 0 0, pt 10 0, pt 10 10, pt 0 10], [[pt 1 1, pt 3 1, pt 2 1, pt 3 3]], false, false),
   ([pt 0 0, pt 10 0, pt 10 10, pt 0 10], [[pt 1 1, pt 2 1, pt 3 1, pt 2 1, pt 4 1,
     pt 4 4]], false, false),
   ([pt 0 0, pt 10 0, pt 10 10, pt 0 10], [[pt 1 1, pt 3 1, pt 3 3, pt 2 1]], false, false),
   ([pt 0 0, pt 10 0, pt 10 10, pt 0 10], [[pt 1 1, pt 3 1, pt 2 1]], false, false),
   ([pt 0 0, pt 5 0, pt 5 5, pt 3 (-1), pt 0 5], [], false, false),
   ([pt 100 1300, pt 140 1300, pt 140 170, pt 100 1700], [], false, false),
   ([pt 100 1300, pt 100 1700, pt 140 170, pt 140 1300], [], false, false),
   ([pt 0 0, pt 10 0, pt 10 10, pt 0 10], [[pt 3 3, pt 3 7, pt 4 6, pt 2 6]], false, false),
   ([pt 0 0, pt 5 0, pt 5 5, pt 0 5], [[pt 1 1, pt 2 1, pt 1 (-1)]], false, false),
   ([pt 0 0, pt 5 0, pt 5 5, pt 3 5, pt 3 0, pt 2 0, pt 2 5, pt 0 5], [], false, false),
   ([pt 0 0, pt 5 0, pt 5 5, pt 3 5, pt 3 0, pt 2 5, pt 0 5], [], false, false),
   ([pt 0 0, pt 5 0, pt 5 1, pt 1 1, pt 1 2, pt 2 2, pt 3 1, pt 4 2, pt 5 2, pt 5 5,
     pt 0 5], [], false, false),
   ([pt 0 0, pt 5 0, pt 5 5, pt 0 5, pt 4 4, pt 2 2, pt 0 5], [], false, false),
   ([pt 0 0, pt 5 0, pt 5 5, pt 1 4, pt 4 4, pt 4 1, pt 0 5], [], false, false),
   ([pt 0 0, pt 5 0, pt 5 5, pt 4 4, pt 1 4, pt 1 1, pt 4 1, pt 4 4, pt 0 5], [], false, false),
   ([pt 0 0, pt 5 0, pt 5 5, pt 4 4, pt 4 1, pt 1 1, pt 1 4, pt 4 4, pt 0 5], [], false, false),
   ([pt (-10) (-10), pt 10 (-10), pt 10 10, pt (-10) 10], [[pt 0 0, pt 5 0, pt 5 5, pt 3 5, pt 3 0,
     pt 2 0, pt 2 5, pt 0 5]], false, false),
   ([pt (-10) (-10), pt 10 (-10), pt 10 10, pt (-10) 10], [[pt 0 0, pt 5 0, pt 5 5, pt 3 5, pt 3 0,
     pt 2 5, pt 0 5]], false, false),
   ([pt (-10) (-10), pt 10 (-10), pt 10 10, pt (-10) 10], [[pt 0 0, pt 5 0, pt 5 1, pt 1 1, pt 1 2,
     pt 2 2, pt 3 1, pt 4 2, pt 5 2, pt 5 5, pt 0 5]], false, false),
   ([pt 0 0, pt 10 0, pt 10 10, pt 0 10], [[pt 1 1, pt 1 10, pt 2 10, pt 2 1]], false, false),
   ([pt 0 0, pt 0 0, pt 10 0, pt 10 10, pt 0 10, pt 0 10], [[pt 1 1, pt 1 10, pt 1 10, pt 2 10,
     pt 2 10, pt 2 1]], false, false),
   ([pt 0 0, pt 10 0, pt 10 10, pt 0 10], [[pt 1 1, pt 1 10, pt 2 1]], true, true),
   ([pt 0 0, pt 10 0, pt 10 10, pt 0 10], [[pt 5 10, pt 4 11, pt 6 11]], false, false),
   ([pt 0 0, pt 10 0, pt 10 10, pt 0 10], [[pt 0 0, pt 1 4, pt 4 1]], true, true),
   ([pt 0 0, pt 10 0, pt 10 10, pt 0 10], [[pt 20 20, pt 20 21, pt 21 21, pt 21 20]], false, false),
   ([pt 0 0, pt 10 0, pt 10 10, pt 0 10], [[pt 20 0, pt 25 10, pt 21 0], [pt 30 0, pt 25 10,
     pt 31 0]], false, false),
   ([pt 58 31, pt 56.57 30, pt 62 33], [[pt 35 9, pt 28 14, pt 31 16], [pt 23 11, pt 29 5,
     pt 26 4]], false, false),
   ([pt 58 31, pt 62 33, pt 56.57 30], [[pt 35 9, pt 31 16, pt 28 14], [pt 23 11, pt 26 4,
     pt 29 5]], false, false),
   ([pt 0 0, pt 10 0, pt 10 10, pt 0 10], [[pt 1 1, pt 1 9, pt 9 9, pt 9 1], [pt 2 2, pt 2 8,
     pt 8 8, pt 8 2]], false, false),
   ([pt 0 0, pt 10 0, pt 10 10, pt 0 10], [[pt 1 1, pt 1 9, pt 9 9, pt 9 1], [pt 2 2, pt 8 2,
     pt 8 8, pt 2 8]], false, false),
   ([pt 0 0, pt 10 0, pt 10 10, pt 0 10], [[pt 1 1, pt 1 9, pt 9 9, pt 9 1], [pt 2 2, pt 2 8,
     pt 8 8, pt 9 6, pt 8 2]], false, false),
   ([pt 0 0, pt 10 0, pt 10 10, pt 0 10], [[pt 1 1, pt 1 9, pt 9 9, pt 9 1], [pt 2 2, pt 8 2,
     pt 9 6, pt 8 8, pt 2 8]], false, false),
   ([pt 0 0, pt 10 0, pt 10 10, pt 0 10], [[pt 1 1, pt 9 1, pt 9 9, pt 1 9], [pt 2 2, pt 2 8,
     pt 8 8, pt 9 6, pt 8 2]], false, false),
   ([pt 0 0, pt 10 0, pt 10 10, pt 0 10], [[pt 1 1, pt 9 1, pt 9 9, pt 1 9], [pt 2 2, pt 8 2,
     pt 9 6, pt 8 8, pt 2 8]], false, false),
   ([pt 0 0, pt 10 0, pt 10 10, pt 0 10], [[pt 5 0, pt 0 5, pt 5 5]], false, false),
   ([pt 0 0, pt 10 0, pt 10 10, pt 0 10], [[pt 0 0, pt 1 9, pt 2 9], [pt 0 0, pt 9 2,
     pt 9 1]], true, true),
   ([pt 0 0, pt 0 0, pt 10 0, pt 10 10, pt 0 10, pt 0 0], [[pt 0 0, pt 0 0, pt 1 9,
     pt 2 9], [pt 0 0, pt 0 0, pt 9 2, pt 9 1]], true, false),
   ([pt 0 10, pt 0 0, pt 0 0, pt 0 0, pt 10 0, pt 10 10], [[pt 2 9, pt 0 0, pt 0 0,
     pt 1 9], [pt 9 1, pt 0 0, pt 0 0, pt 9 2]], true, false),
   ([pt 0 0, pt 10 0, pt 10 10, pt 0 10], [[pt 0 0, pt 1 9, pt 9 1], [pt 0 0, pt 4 5,
     pt 5 4]], false, false),
   ([pt 0 0, pt 10 0, pt 10 10, pt 0 10], [[pt 1 1, pt 1 5, pt 5 5, pt 5 1], [pt 5 4, pt 5 8,
     pt 8 8, pt 8 4]], false, false),
   ([pt 0 0, pt 10 0, pt 10 10, pt 0 10], [[pt 1 1, pt 1 9, pt 9 9, pt 9 8, pt 2 8,
     pt 2 1], [pt 2 5, pt 5 8, pt 5 5]], false, false),
   ([pt 0 0, pt 10 0, pt 10 10, pt 0 10], [[pt 1 1, pt 1 9, pt 2 9], [pt 1 1, pt 9 2,
     pt 9 1]], true, true),
   ([pt 0 0, pt 10 0, pt 10 10, pt 0 10], [[pt 0 10, pt 2 1, pt 1 1], [pt 0 10, pt 4 1,
     pt 3 1], [pt 10 10, pt 9 1, pt 8 1], [pt 10 10, pt 7 1, pt 6 1]], true, true),
   ([pt 0 0, pt 10 0, pt 10 10, pt 0 10], [[pt 0 10, pt 2 1, pt 1 1], [pt 0 10, pt 4 1,
     pt 3 1], [pt 10 10, pt 9 1, pt 8 1], [pt 10 10, pt 7 1, pt 6 1], [pt 4 1, pt 4 4, pt 6 4,
     pt 6 1]], false, false),
   ([pt 0 0, pt 10 0, pt 10 10, pt 0 10], [[pt 0 10, pt 2 1, pt 1 1], [pt 0 10, pt 4 1,
     pt 3 1], [pt 10 10, pt 9 1, pt 8 1], [pt 10 10, pt 7 1, pt 6 1], [pt 4 1, pt 4 4, pt 6 4,
     pt 6 1, pt 5 0]], false, false),
   ([pt 0 0, pt 1 0, pt 1 1, pt 0 1], [[pt (-10) (-10), pt (-10) 10, pt 10 10,
     pt 10 (-10)]], false, false),
   ([pt (-10) (-10), pt 1 0, pt 1 1, pt 0 1], [[pt (-10) (-10), pt (-10) 10, pt 10 10,
     pt 10 (-10)]], false, false),
   ([pt 1.1713032141645456 (-0.9370425713316364), pt 5.1713032141645456 4.0629574286683638,
     pt 4.7808688094430307 4.3753049524455756, pt 4.7808688094430307 4.3753049524455756,
     pt 0.7808688094430304 (-0.6246950475544243),
     pt 0.7808688094430304 (-0.6246950475544243)], [], true, false)]

/-- The multi-polygons mpg01 to mpg17 of `test_open_multipolygons` (each polygon an
exterior ring and its holes), each with the verdict expected when duplicates are allowed
and when they are not. -/
def open_multipolygon_corpus :
    List (List (List Point × List (List Point)) × Bool × Bool) :=
  [([], true, true),
   ([([], [])], false, false),
   ([([pt 0 0], []), ([], [])], false, false),
   ([([pt 0 0, pt 1 0], [])], false, false),
   ([([pt 0 0, pt 1 0, pt 1 1, pt 0 1], []), ([pt 2 2, pt 3 2, pt 3 3, pt 2 3], [])], true, true),
   ([([pt 0 0, pt 1 0, pt 1 0, pt 1 1, pt 0 1], []), ([pt 2 2, pt 3 2, pt 3 3, pt 3 3,
     pt 2 3], [])], true, false),
   ([([pt 0 0, pt 1 0, pt 1 1, pt 0 1], []), ([pt 1 1, pt 2 1, pt 2 2, pt 1 2], [])], true, true),
   ([([pt 0 0, pt 1.5 0, pt 1.5 1, pt 0 1], []), ([pt 1 1, pt 2 1, pt 2 2,
     pt 1 2], [])], false, false),
   ([([pt 0 0, pt 10 0, pt 10 10, pt 0 10], []), ([pt 0 0, pt 9 1, pt 9 2], [])], false, false),
   ([([pt 0 0, pt 10 0, pt 10 10, pt 0 10], []), ([pt 1 1, pt 9 1, pt 9 2], [])], false, false),
   ([([pt 0 0, pt 1 0, pt 1 1, pt 0 1], []), ([pt 1 1, pt 2 1, pt 2 2, pt 1 2], []), ([pt 0 1,
     pt 0 2, pt (-1) 2, pt (-1) (-1)], []), ([pt 1 2, pt 1 3, pt 0 3, pt 0 2], [])], true, true),
   ([([pt 0 0, pt 100 0, pt 100 100, pt 0 100], [[pt 1 1, pt 1 99, pt 99 99, pt 99 1]]), ([pt 2 2,
     pt 98 2, pt 98 98, pt 2 98], [])], true, true),
   ([([pt 0 0, pt 100 0, pt 100 100, pt 0 100], [[pt 1 1, pt 1 99, pt 99 99, pt 99 1]]), ([pt 1 1,
     pt 98 2, pt 98 98, pt 2 98], [])], true, true),
   ([([pt 0 0, pt 100 0, pt 100 100, pt 0 100], [[pt 1 1, pt 1 99, pt 99 99, pt 99 1]]), ([pt 2 2,
     pt 98 2, pt 98 98, pt 2 98], [[pt 3 3, pt 3 97, pt 97 97, pt 97 3]])], true, true),
   ([([pt 0 0, pt 100 0, pt 100 100, pt 0 100], [[pt 3 3, pt 3 97, pt 97 97, pt 97 3]]), ([pt 2 2,
     pt 98 2, pt 98 98, pt 2 98], [[pt 1 1, pt 1 99, pt 99 99, pt 99 1]])], false, false),
   ([([pt (-1) 4, pt 8 (-10), pt (-10) 10, pt 7 (-6), pt 8 (-2), pt (-10) 10, pt (-10) 1,
     pt (-3) (-4), pt 4 1, pt (-1) 2, pt 4 3, pt (-8) 10, pt (-5) (-9), pt (-1) 6,
     pt (-5) 0], []), ([pt (-10) (-3), pt (-8) 1, pt 2 (-8), pt (-2) 6, pt (-4) 0, pt 8 (-5),
     pt (-1) 5, pt 8 2], []), ([pt (-6) (-10), pt 1 10, pt 4 (-8), pt (-7) (-2), pt 2 0, pt (-4) 3,
     pt (-10) 9], []), ([pt 10 (-1), pt (-2) 8, pt (-7) 3, pt (-6) 8, pt (-9) (-7),
     pt 7 (-5)], []), ([pt 7 7, pt (-4) (-4), pt 9 (-8), pt (-10) (-6)], [])], false, false),
   ([([pt (-1) 4, pt 8 (-10), pt (-10) 10, pt 7 (-6), pt 8 (-2), pt (-10) 10, pt (-10) 1,
     pt (-3) (-4), pt 4 1, pt (-1) 2, pt 4 3, pt (-8) 10, pt (-5) (-9), pt (-1) 6,
     pt (-5) 0], []), ([pt (-10) (-3), pt (-8) 1, pt 2 (-8), pt (-2) 6, pt (-4) 0, pt 8 (-5),
     pt (-1) 5, pt 8 2], []), ([pt (-6) (-10), pt (-10) 9, pt (-4) 3, pt 2 0, pt (-7) (-2),
     pt 4 (-8), pt 1 10], []), ([pt 10 (-1), pt (-2) 8, pt (-7) 3, pt (-6) 8, pt (-9) (-7),
     pt 7 (-5)], []), ([pt 7 7, pt (-10) (-6), pt 9 (-8), pt (-4) (-4)], [])], false, false)]

/-- The polygon of a tuple of the corpus: open counter-clockwise rings. -/
def corpus_polygon (t : List Point × List (List Point)) : Polygon :=
  ⟨open_ring t.1, t.2.map open_ring⟩

/-- The exterior ring `(0 0,10 0,10 10,0 10)` of the polygons pg045 to pg071. -/
def ring_square10 : LinearRing := open_ring [⟨0, 0⟩, ⟨10, 0⟩, ⟨10, 10⟩, ⟨0, 10⟩]

/-- The polygon `POLYGON((0 0,10 0,10 10,0 10),(1 1,1 10,2 1))` (pg047). -/
def polygon_pg047 : Polygon := ⟨ring_square10, [open_ring [⟨1, 1⟩, ⟨1, 10⟩, ⟨2, 1⟩]]⟩

/-- The polygon `POLYGON((0 0,10 0,10 10,0 10),(1 1,1 10,2 10,2 1))` (pg045). -/
def polygon_pg045 : Polygon :=
  ⟨ring_square10, [open_ring [⟨1, 1⟩, ⟨1, 10⟩, ⟨2, 10⟩, ⟨2, 1⟩]]⟩

/-- The polygon `POLYGON((0 0,10 0,10 10,0 10),(5 0,0 5,5 5))` (pg060). -/
def polygon_pg060 : Polygon := ⟨ring_square10, [open_ring [⟨5, 0⟩, ⟨0, 5⟩, ⟨5, 5⟩]]⟩

/-- The polygon `((0 0,1 0,1 1,0 1))`, first polygon of mpg05 and mpg07. -/
def polygon_unit_square : Polygon := ⟨open_ring [⟨0, 0⟩, ⟨1, 0⟩, ⟨1, 1⟩, ⟨0, 1⟩], []⟩

/-- The polygon `((1 1,2 1,2 2,1 2))`, second polygon of mpg07 and mpg08. -/
def polygon_shifted_square : Polygon := ⟨open_ring [⟨1, 1⟩, ⟨2, 1⟩, ⟨2, 2⟩, ⟨1, 2⟩], []⟩

/-- The polygon `((0 0,1.5 0,1.5 1,0 1))`, first polygon of mpg08. -/
def polygon_wide_rectangle : Polygon :=
  ⟨open_ring [⟨0, 0⟩, ⟨3 / 2, 0⟩, ⟨3 / 2, 1⟩, ⟨0, 1⟩], []⟩

/-- The polygon `((0 0,10 0,10 10,0 10))`, first polygon of mpg09 and mpg10. -/
def polygon_square10 : Polygon := ⟨ring_square10, []⟩

/-- The polygon `((0 0,9 1,9 2))`, second polygon of mpg09. -/
def polygon_mpg09_inner : Polygon := ⟨open_ring [⟨0, 0⟩, ⟨9, 1⟩, ⟨9, 2⟩], []⟩

/-- The polygon `((1 1,9 1,9 2))`, second polygon of mpg10. -/
def polygon_mpg10_inner : Polygon := ⟨open_ring [⟨1, 1⟩, ⟨9, 1⟩, ⟨9, 2⟩], []⟩

/-- The multi-polygon `MULTIPOLYGON((()))` (mpg02). -/
def multipolygon_mpg02 : List Polygon := [⟨open_ring [], []⟩]

/-- The multi-polygon `MULTIPOLYGON(((0 0)),(()))` (mpg03). -/
def multipolygon_mpg03 : List Polygon := [⟨open_ring [⟨0, 0⟩], []⟩, ⟨open_ring [], []⟩]

/-- The multi-polygon `MULTIPOLYGON(((0 0,1 0)))` (mpg04). -/
def multipolygon_mpg04 : List Polygon := [⟨open_ring [⟨0, 0⟩, ⟨1, 0⟩], []⟩]

/-- The polygon `POLYGON((0 0,10 0,10 10,0 10),(4 4,4 6,6 6,6 4))`, a square with a square
hole. -/
def polygon_square10_hole : Polygon :=
  ⟨ring_square10, [open_ring [⟨4, 4⟩, ⟨4, 6⟩, ⟨6, 6⟩, ⟨6, 4⟩]]⟩

/-- The polygon `POLYGON((4 4,6 4,6 6,4 6))`, which fills the hole of
`polygon_square10_hole`. -/
def polygon_hole_filler : Polygon := ⟨open_ring [⟨4, 4⟩, ⟨6, 4⟩, ⟨6, 6⟩, ⟨4, 6⟩], []⟩

/-- The polygon `POLYGON((0 0,10 0,10 10,0 10),(0 0,1 4,4 1))` (pg049). -/
def polygon_pg049 : Polygon := ⟨ring_square10, [open_ring [⟨0, 0⟩, ⟨1, 4⟩, ⟨4, 1⟩]]⟩

end IsValid

namespace BoxInBox

/-! ## Example boxes for the transitivity of coverage -/

/-- The box `BOX(1 1,2 2)`. -/
def innerBox : Box 2 := ⟨![1, 1], ![2, 2]⟩

/-- The box `BOX(0 0,3 3)`. -/
def middleBox : Box 2 := ⟨![0, 0], ![3, 3]⟩

/-- The box `BOX(-1 -1,4 4)`. -/
def outerBox : Box 2 := ⟨![-1, -1], ![4, 4]⟩

/-- The degenerate box `BOX(0 0,0 1)`, of zero width in dimension 0. -/
def flatBox : Box 2 := ⟨![0, 0], ![0, 1]⟩

end BoxInBox

namespace Vincenty

/-! ## Helpers of the test `extensions/test/gis/latlong/vincenty.cpp` -/

/-- The first loop of `normalize_deg`: `while ( deg > 180 ) deg -= 360;`, returning
the value of `deg` when the loop is left. `T` is the template parameter; the order and
the arithmetic are exact (an ordered ring in which every value lies between two
integers, such as the integers and the rationals). -/
def normalize_deg.while_above {T : Type} [LinearOrderedCommRing T] [FloorRing T] (deg : T) : T :=
  if deg > 180 then normalize_deg.while_above (deg - 360) else deg
termination_by (⌈deg - 180⌉).toNat
decreasing_by
  rename_i h
  have hpos : 0 < ⌈deg - 180⌉ := Int.ceil_pos.mpr (sub_pos.mpr h)
  have hstep : ⌈deg - 360 - 180⌉ = ⌈deg - 180⌉ - 360 := by
    rw [show deg - 360 - 180 = deg - 180 - ((360 : ℤ) : T) by push_cast; ring]
    exact Int.ceil_sub_int _ _
  rw [hstep]
  omega

/-- The second loop of `normalize_deg`: `while ( deg <= -180 ) deg += 360;`, returning
the value of `deg` when the loop is left. -/
def normalize_deg.while_below {T : Type} [LinearOrderedCommRing T] [FloorRing T] (deg : T) : T :=
  if deg ≤ -180 then normalize_deg.while_below (deg + 360) else deg
termination_by (⌊-180 - deg⌋ + 1).toNat
decreasing_by
  rename_i h
  have hpos : 0 ≤ ⌊-180 - deg⌋ := Int.floor_nonneg.mpr (sub_nonneg.mpr h)
  have hstep : ⌊-180 - (deg + 360)⌋ = ⌊-180 - deg⌋ - 360 := by
    rw [show -180 - (deg + 360) = -180 - deg - ((360 : ℤ) : T) by push_cast; ring]
    exact Int.floor_sub_int _ _
  rw [hstep]
  omega

/-- The test helper `normalize_deg(T & deg)`; the reference parameter is modelled by
returning the value left in `deg`. -/
def normalize_deg {T : Type} [LinearOrderedCommRing T] [FloorRing T] (deg : T) : T :=
  normalize_deg.while_below (normalize_deg.while_above deg)

/-- The first loop of `normalize_deg` in the arithmetic rounded by `fl` (`round_double`
for the instantiation `T = double` of the test): `deg -= 360` stores the rounded
difference. The loop is run for at most `fuel` tests of its condition; `none` means it
has not ended by then. -/
def normalize_deg.while_above_rounded (fl : ℚ → ℚ) : Nat → ℚ → Option ℚ
  | 0, _ => none
  | fuel + 1, deg =>
    if deg > 180 then normalize_deg.while_above_rounded fl fuel (fl (deg - 360))
    else some deg

/-- The second loop of `normalize_deg` in the arithmetic rounded by `fl`, run for at
most `fuel` tests of its condition. -/
def normalize_deg.while_below_rounded (fl : ℚ → ℚ) : Nat → ℚ → Option ℚ
  | 0, _ => none
  | fuel + 1, deg =>
    if deg ≤ -180 then normalize_deg.while_below_rounded fl fuel (fl (deg + 360))
    else some deg

/-- The test helper `normalize_deg` in the arithmetic rounded by `fl`, each loop run for
at most `fuel` tests of its condition. -/
def normalize_deg_rounded (fl : ℚ → ℚ) (fuel : Nat) (deg : ℚ) : Option ℚ :=
  (normalize_deg.while_above_rounded fl fuel deg).bind
    (normalize_deg.while_below_rounded fl fuel)

/-- The test helper `azimuth(double deg, double min, double sec)`, the arithmetic of
`double` read as exact arithmetic over the rationals. -/
def azimuth (deg min sec : ℚ) : ℚ :=
  deg + min / 60.0 + sec / 3600.0

end Vincenty

namespace BoxInBox

/-! ## Auxiliary lemmas -/

/-- The normalised longitude is above -180. -/
theorem normalize_longitude_gt (x : ℚ) : -180 < normalize_longitude x := by
  unfold normalize_longitude period half_period
  have h := Int.ceil_lt_add_one ((x - 180) / 360)
  linarith

/-- The normalised longitude is at most 180. -/
theorem normalize_longitude_le (x : ℚ) : normalize_longitude x ≤ 180 := by
  unfold normalize_longitude period half_period
  have h := Int.le_ceil ((x - 180) / 360)
  linarith

/-- Normalising a longitude moves it by a whole number of periods. -/
theorem normalize_longitude_congr (x : ℚ) : ∃ k : ℤ, x - normalize_longitude x = 360 * k :=
  ⟨⌈(x - half_period) / period⌉, by unfold normalize_longitude period; ring⟩

/-- Two values of [0, 360) that differ by a whole number of periods are equal. -/
theorem eq_of_congr_of_mem (r s : ℚ) (k : ℤ) (hr0 : 0 ≤ r) (hr1 : r < 360) (hs0 : 0 ≤ s)
    (hs1 : s < 360) (h : r - s = 360 * k) : r = s := by
  have h1 : ((k : ℤ) : ℚ) < 1 := by linarith
  have h2 : (-1 : ℚ) < ((k : ℤ) : ℚ) := by linarith
  have h3 : k < 1 := by exact_mod_cast h1
  have h4 : -1 < k := by exact_mod_cast h2
  have h5 : k = 0 := by omega
  rw [h5] at h
  simp at h
  linarith

/-- The loop entered at dimension `k` is true exactly when the range test of every
dimension from `k` on is true. -/
theorem relate_box_box_loop_apply_iff (S : Nat → CSTag → ℚ → ℚ → ℚ → ℚ → Bool) (cs : CSTag)
    {D : Nat} (b1 b2 : Box D) :
    ∀ (n k : Nat), D - k = n →
      (relate_box_box_loop.apply S cs b1 b2 k = true ↔
        ∀ d : Fin D, k ≤ d.val →
          S d.val (tag_cast cs) (b1.min_corner d) (b1.max_corner d)
            (b2.min_corner d) (b2.max_corner d) = true) := by
  intro n
  induction n with
  | zero =>
    intro k hk
    rw [relate_box_box_loop.apply]
    have hle : ¬ k < D := by omega
    simp only [hle, dite_false, true_iff]
    intro d hd
    exact absurd (lt_of_le_of_lt hd d.isLt) hle
  | succ n ih =>
    intro k hk
    rw [relate_box_box_loop.apply]
    have hlt : k < D := by omega
    simp only [hlt, dite_true]
    have ih1 := ih (k + 1) (by omega)
    by_cases hS : S k (tag_cast cs) (b1.min_corner ⟨k, hlt⟩) (b1.max_corner ⟨k, hlt⟩)
        (b2.min_corner ⟨k, hlt⟩) (b2.max_corner ⟨k, hlt⟩) = true
    · simp only [hS, Bool.not_true, Bool.false_eq_true, if_false]
      rw [ih1]
      constructor
      · intro h d hd
        rcases Nat.eq_or_lt_of_le hd with heq | hlt2
        · have : d = ⟨k, hlt⟩ := Fin.ext heq.symm
          subst this
          exact hS
        · exact h d hlt2
      · intro h d hd
        exact h d (by omega)
    · have hS2 : S k (tag_cast cs) (b1.min_corner ⟨k, hlt⟩) (b1.max_corner ⟨k, hlt⟩)
        (b2.min_corner ⟨k, hlt⟩) (b2.max_corner ⟨k, hlt⟩) = false := by
        simpa using hS
      simp only [hS2, Bool.not_false, if_true, Bool.false_eq_true, false_iff]
      intro h
      exact hS (h ⟨k, hlt⟩ (le_refl _))

/-- The positive longitude translation computed by both spherical range tests lies in
[0, 360) and differs from its argument by a whole number of periods. -/
theorem positive_translation_spec (x : ℚ) :
    let m := normalize_longitude x
    let t := if m < 0 then m + period else m
    0 ≤ t ∧ t < 360 ∧ ∃ k : ℤ, x - t = 360 * k := by
  intro m t
  have hgt := normalize_longitude_gt x
  have hle := normalize_longitude_le x
  obtain ⟨k, hk⟩ := normalize_longitude_congr x
  by_cases hm : m < 0
  · have ht : t = m + 360 := by simp [t, hm, period]
    refine ⟨by rw [ht]; linarith, by rw [ht]; linarith, k - 1, ?_⟩
    rw [ht]
    push_cast
    linarith
  · have ht : t = m := by simp [t, hm]
    refine ⟨by rw [ht]; linarith, by rw [ht]; linarith, k, ?_⟩
    rw [ht]
    exact hk

/-- The positive longitude translation is the only value of [0, 360) congruent to its
argument modulo 360. -/
theorem positive_translation_eq (x off : ℚ) (k : ℤ) (h0 : 0 ≤ off) (h1 : off < 360)
    (hk : x - off = 360 * k) :
    (if normalize_longitude x < 0 then normalize_longitude x + period
      else normalize_longitude x) = off := by
  obtain ⟨ht0, ht1, j, hj⟩ := positive_translation_spec x
  apply eq_of_congr_of_mem _ _ (k - j) ht0 ht1 h0 h1
  push_cast
  linarith

/-- A longitude already in (-180, 180] is left as it is. -/
theorem normalize_longitude_of_mem (x : ℚ) (h0 : -180 < x) (h1 : x ≤ 180) :
    normalize_longitude x = x := by
  have h : ⌈(x - half_period) / period⌉ = 0 := by
    rw [Int.ceil_eq_iff]
    unfold half_period period
    constructor
    · push_cast; linarith
    · push_cast; linarith
  simp [normalize_longitude, h]

/-- The spherical covered_by test with the translation replaced by its specification. -/
theorem box_covered_by_range_spherical_apply_eq (a b c d off : ℚ) (k : ℤ)
    (h0 : 0 ≤ off) (h1 : off < 360) (hk : a - c - off = 360 * k) :
    box_covered_by_range_spherical.apply a b c d =
      (if d - c < b - a then false
       else if 360 ≤ d - c then true
       else decide (c + off + (b - a) ≤ d)) := by
  have ht := positive_translation_eq (a - c) off k h0 h1 hk
  simp only [period] at ht
  unfold box_covered_by_range_spherical.apply
  simp only [ht, math.smaller, period]
  by_cases hw : d - c < b - a
  · simp [hw]
  · by_cases hf : (360 : ℚ) ≤ d - c
    · simp [hw, hf]
    · simp [hw, hf, not_le.mp hf]

/-- The spherical within test with the translation replaced by its specification. -/
theorem box_within_range_spherical_apply_eq (a b c d off : ℚ) (k : ℤ)
    (h0 : 0 ≤ off) (h1 : off < 360) (hk : a - c - off = 360 * k) :
    box_within_range_spherical.apply a b c d =
      (if d - c < b - a ∨ b - a = 0 then false
       else if 360 ≤ d - c then true
       else decide (c + off + (b - a) ≤ d)) := by
  have ht := positive_translation_eq (a - c) off k h0 h1 hk
  simp only [period] at ht
  unfold box_within_range_spherical.apply
  simp only [ht, math.smaller, period]
  by_cases hw : d - c < b - a ∨ b - a = 0
  · simp [hw]
  · by_cases hf : (360 : ℚ) ≤ d - c
    · simp [hw, hf]
    · simp [hw, hf, not_le.mp hf]

/-- The box loop from dimension 0. -/
theorem box_in_box_apply_eq_true_iff (S : Nat → CSTag → ℚ → ℚ → ℚ → ℚ → Bool) (cs : CSTag)
    {D : Nat} (b1 b2 : Box D) :
    box_in_box.apply S cs b1 b2 = true ↔
      ∀ d : Fin D, S d.val (tag_cast cs) (b1.min_corner d) (b1.max_corner d)
        (b2.min_corner d) (b2.max_corner d) = true := by
  unfold box_in_box.apply
  rw [relate_box_box_loop_apply_iff S cs b1 b2 (D - 0) 0 rfl]
  constructor
  · intro h d
    exact h d (Nat.zero_le _)
  · intro h d _
    exact h d

/-! ## Planar range tests -/

/-- C1: for every totally ordered coordinate type and every four values, the planar
within test of one dimension is true exactly when `outer_min ≤ inner_min`,
`inner_max ≤ outer_max` and `inner_min < inner_max`. -/
theorem box_within_range_apply_iff {T : Type} [LinearOrder T]
    (inner_min inner_max outer_min outer_max : T) :
    box_within_range.apply inner_min inner_max outer_min outer_max = true ↔
      outer_min ≤ inner_min ∧ inner_max ≤ outer_max ∧ inner_min < inner_max := by
  simp [box_within_range.apply, and_assoc]

/-- C2: the planar covered_by test of one dimension is true exactly when
`outer_min ≤ inner_min` and `inner_max ≤ outer_max`; nothing is asked of
`inner_min < inner_max`, so a zero-width inner range `[v, v]` is covered exactly when
`outer_min ≤ v ≤ outer_max`. -/
theorem box_covered_by_range_apply_iff {T : Type} [LinearOrder T]
    (inner_min inner_max outer_min outer_max v : T) :
    (box_covered_by_range.apply inner_min inner_max outer_min outer_max = true ↔
      outer_min ≤ inner_min ∧ inner_max ≤ outer_max) ∧
    (box_covered_by_range.apply v v outer_min outer_max = true ↔
      outer_min ≤ v ∧ v ≤ outer_max) := by
  simp [box_covered_by_range.apply]

/-! ## The box loop -/

/-- C3: for every pair of D-dimensional boxes and every sub-strategy, `box_in_box::apply`
is true exactly when the range test of every dimension `d` in `0..D-1`, applied to
`(inner.min[d], inner.max[d], outer.min[d], outer.max[d])` with the cast tag, is true,
and false exactly when the test of some dimension fails; the range test selected for
`within` and for `covered_by` is the periodic one only for dimension 0 with the
spherical tag, and the planar one otherwise. -/
theorem box_in_box_apply_iff (SubStrategy : Nat → CSTag → ℚ → ℚ → ℚ → ℚ → Bool)
    (cs cs_tag : CSTag) {D : Nat} (inner outer : Box D) (Dimension : Nat) :
    (box_in_box.apply SubStrategy cs inner outer = true ↔
      ∀ d : Fin D, SubStrategy d.val (tag_cast cs) (inner.min_corner d) (inner.max_corner d)
        (outer.min_corner d) (outer.max_corner d) = true) ∧
    (box_in_box.apply SubStrategy cs inner outer = false ↔
      ∃ d : Fin D, SubStrategy d.val (tag_cast cs) (inner.min_corner d) (inner.max_corner d)
        (outer.min_corner d) (outer.max_corner d) = false) ∧
    box_within_range Dimension cs_tag =
      (if Dimension = 0 ∧ cs_tag = CSTag.spherical_tag
        then box_within_range_spherical.apply else box_within_range.apply) ∧
    box_covered_by_range Dimension cs_tag =
      (if Dimension = 0 ∧ cs_tag = CSTag.spherical_tag
        then box_covered_by_range_spherical.apply else box_covered_by_range.apply) := by
  have h := box_in_box_apply_eq_true_iff SubStrategy cs inner outer
  refine ⟨h, ?_, ?_, ?_⟩
  · rw [← Bool.not_eq_true, h]
    simp
  · cases Dimension <;> cases cs_tag <;> simp [box_within_range]
  · cases Dimension <;> cases cs_tag <;> simp [box_covered_by_range]

/-! ## The longitude tests -/

/-- C4: for every four longitudes in degrees, the spherical dimension-0 covered_by test
equals the reference: with `wi = inner_max - inner_min` and `wo = outer_max - outer_min`
it is false if `wo < wi`, otherwise true if `wo ≥ 360`, otherwise the truth of
`outer_min + off + wi ≤ outer_max`, for `off` the value of [0, 360) congruent to
`inner_min - outer_min` modulo 360. -/
theorem box_covered_by_range_spherical_reference
    (inner_min inner_max outer_min outer_max off : ℚ) (k : ℤ)
    (hoff0 : 0 ≤ off) (hoff1 : off < 360)
    (hcongr : inner_min - outer_min - off = 360 * k) :
    box_covered_by_range_spherical.apply inner_min inner_max outer_min outer_max =
      (if outer_max - outer_min < inner_max - inner_min then false
       else if 360 ≤ outer_max - outer_min then true
       else decide (outer_min + off + (inner_max - inner_min) ≤ outer_max)) :=
  box_covered_by_range_spherical_apply_eq inner_min inner_max outer_min outer_max off k
    hoff0 hoff1 hcongr

/-- Witness of C4: inner range [-175, -170], outer range [170, 190], offset 15. -/
theorem box_covered_by_range_spherical_reference_witness :
    (0 : ℚ) ≤ 15 ∧ (15 : ℚ) < 360 ∧ (-175 : ℚ) - 170 - 15 = 360 * ((-1 : ℤ) : ℚ) ∧
    box_covered_by_range_spherical.apply (-175) (-170) 170 190 =
      (if (190 : ℚ) - 170 < -170 - -175 then false
       else if (360 : ℚ) ≤ 190 - 170 then true
       else decide ((170 : ℚ) + 15 + (-170 - -175) ≤ 190)) :=
  ⟨by norm_num, by norm_num, by norm_num,
    box_covered_by_range_spherical_reference (-175) (-170) 170 190 15 (-1)
      (by norm_num) (by norm_num) (by norm_num)⟩

/-- C5: under the spherical tag every dimension `d ≥ 1` uses the planar rule: on the
coordinates of dimension `d` of any two boxes the within and the covered_by range tests
give what they give under the cartesian tag, which is the primary (planar) template. -/
theorem spherical_higher_dimension_is_planar {D : Nat} (inner outer : Box D) (d : Fin D)
    (hd : 1 ≤ d.val) :
    (box_within_range d.val CSTag.spherical_tag
        (inner.min_corner d) (inner.max_corner d) (outer.min_corner d) (outer.max_corner d) =
      box_within_range d.val CSTag.cartesian_tag
        (inner.min_corner d) (inner.max_corner d) (outer.min_corner d) (outer.max_corner d)) ∧
    (box_covered_by_range d.val CSTag.spherical_tag
        (inner.min_corner d) (inner.max_corner d) (outer.min_corner d) (outer.max_corner d) =
      box_covered_by_range d.val CSTag.cartesian_tag
        (inner.min_corner d) (inner.max_corner d) (outer.min_corner d) (outer.max_corner d)) ∧
    (box_within_range d.val CSTag.spherical_tag
        (inner.min_corner d) (inner.max_corner d) (outer.min_corner d) (outer.max_corner d) =
      box_within_range.apply
        (inner.min_corner d) (inner.max_corner d) (outer.min_corner d) (outer.max_corner d)) ∧
    (box_covered_by_range d.val CSTag.spherical_tag
        (inner.min_corner d) (inner.max_corner d) (outer.min_corner d) (outer.max_corner d) =
      box_covered_by_range.apply
        (inner.min_corner d) (inner.max_corner d) (outer.min_corner d) (outer.max_corner d)) := by
  obtain ⟨n, hn⟩ : ∃ n, d.val = n + 1 := ⟨d.val - 1, by omega⟩
  rw [hn]
  simp [box_within_range, box_covered_by_range]

/-- Witness of C5: the latitude dimension (d = 1) of `BOX(0 0,1 1)` against itself. -/
theorem spherical_higher_dimension_is_planar_witness :
    1 ≤ (1 : Fin 2).val ∧
    (box_within_range (1 : Fin 2).val CSTag.spherical_tag
        (unitBox.min_corner 1) (unitBox.max_corner 1)
        (unitBox.min_corner 1) (unitBox.max_corner 1) =
      box_within_range (1 : Fin 2).val CSTag.cartesian_tag
        (unitBox.min_corner 1) (unitBox.max_corner 1)
        (unitBox.min_corner 1) (unitBox.max_corner 1)) :=
  ⟨by decide, (spherical_higher_dimension_is_planar unitBox unitBox 1 (by decide)).1⟩

/-! ## A box against itself -/

/-- Every range is covered by itself under the planar rule. -/
theorem box_covered_by_range_apply_self (a b : ℚ) :
    box_covered_by_range.apply a b a b = true := by
  simp [box_covered_by_range.apply]

/-- Every range is covered by itself under the periodic rule. -/
theorem box_covered_by_range_spherical_apply_self (a b : ℚ) :
    box_covered_by_range_spherical.apply a b a b = true := by
  rw [box_covered_by_range_spherical_apply_eq a b a b 0 0 (le_refl _) (by norm_num)
    (by norm_num)]
  by_cases hf : (360 : ℚ) ≤ b - a
  · simp [hf]
  · simp [hf]

/-- Every range is covered by itself, whatever the dimension and the tag. -/
theorem box_covered_by_range_self (Dimension : Nat) (cs_tag : CSTag) (a b : ℚ) :
    box_covered_by_range Dimension cs_tag a b a b = true := by
  unfold box_covered_by_range
  split
  · exact box_covered_by_range_spherical_apply_self a b
  · exact box_covered_by_range_apply_self a b

/-- A range with `a < b` is within itself under the planar rule. -/
theorem box_within_range_apply_self (a b : ℚ) (h : a < b) :
    box_within_range.apply a b a b = true := by
  simp [box_within_range.apply, h]

/-- A range with `a < b` is within itself under the periodic rule. -/
theorem box_within_range_spherical_apply_self (a b : ℚ) (h : a < b) :
    box_within_range_spherical.apply a b a b = true := by
  rw [box_within_range_spherical_apply_eq a b a b 0 0 (le_refl _) (by norm_num)
    (by norm_num)]
  have hne : ¬ (b - a = 0) := by
    intro h0
    linarith
  by_cases hf : (360 : ℚ) ≤ b - a
  · simp [hf, hne]
  · simp [hf, hne]

/-- A range with `a < b` is within itself, whatever the dimension and the tag. -/
theorem box_within_range_self (Dimension : Nat) (cs_tag : CSTag) (a b : ℚ) (h : a < b) :
    box_within_range Dimension cs_tag a b a b = true := by
  unfold box_within_range
  split
  · exact box_within_range_spherical_apply_self a b h
  · exact box_within_range_apply_self a b h

/-- The box `BOX(0 0,1 1)` has `min < max` in both dimensions. -/
theorem unitBox_nondegenerate : ∀ d : Fin 2, unitBox.min_corner d < unitBox.max_corner d := by
  intro d
  fin_cases d <;> simp [unitBox]

/-- Under the cartesian tag the covered_by test selected in rounded arithmetic is the
planar test, which only compares. -/
theorem box_covered_by_range_rounded_cartesian (fl : ℚ → ℚ) (Dimension : Nat) :
    box_covered_by_range_rounded fl Dimension (tag_cast CSTag.cartesian_tag) =
      box_covered_by_range.apply := by
  cases Dimension <;> simp [box_covered_by_range_rounded, tag_cast]

/-- Under the cartesian tag the within test selected in rounded arithmetic is the planar
test, which only compares. -/
theorem box_within_range_rounded_cartesian (fl : ℚ → ℚ) (Dimension : Nat) :
    box_within_range_rounded fl Dimension (tag_cast CSTag.cartesian_tag) =
      box_within_range.apply := by
  cases Dimension <;> simp [box_within_range_rounded, tag_cast]

/-- With no rounding the rounded spherical covered_by test is the exact one. -/
theorem box_covered_by_range_spherical_apply_rounded_id (a b c d : ℚ) :
    box_covered_by_range_spherical.apply_rounded id a b c d =
      box_covered_by_range_spherical.apply a b c d := by
  simp [box_covered_by_range_spherical.apply_rounded, box_covered_by_range_spherical.apply]

/-- With no rounding the rounded spherical within test is the exact one. -/
theorem box_within_range_spherical_apply_rounded_id (a b c d : ℚ) :
    box_within_range_spherical.apply_rounded id a b c d =
      box_within_range_spherical.apply a b c d := by
  simp [box_within_range_spherical.apply_rounded, box_within_range_spherical.apply]

/-- The box `BOX(-180 0,-63.6 1)` has `min < max` in both dimensions. -/
theorem seamBox_nondegenerate : ∀ d : Fin 2, seamBox.min_corner d < seamBox.max_corner d := by
  decide!

/-- C6, as stated, fails in `double` arithmetic: `BOX(-180 0,-63.6 1)` has `min < max`
in both dimensions, but under the spherical tag the longitude test computes the width
116.4 and then `-180 + 0 + 116.4` as `-63.599999999999994`, which is above `-63.6`, so
`covered_by` of the box and itself is false. -/
theorem covered_by_self_counterexample :
    ¬ ((∀ d : Fin 2, seamBox.min_corner d < seamBox.max_corner d) →
      box_in_box.apply (box_covered_by_range_rounded round_double) CSTag.spherical_tag
        seamBox seamBox = true) := by
  intro h
  have htrue := h seamBox_nondegenerate
  have hfalse : box_in_box.apply (box_covered_by_range_rounded round_double)
      CSTag.spherical_tag seamBox seamBox = false := by
    decide!
  rw [hfalse] at htrue
  exact Bool.noConfusion htrue

/-- C6, amended: for every box X with `min < max` in every dimension, `covered_by(X, X)`
is true under the cartesian tag, whatever the rounding `fl` of the coordinate
arithmetic, and it is true under every tag (periodic rule on dimension 0 for the
spherical family) when the coordinate arithmetic is exact. The hypothesis is the one of
the claim; every range is covered by itself, so the proof does not depend on it. -/
theorem covered_by_self {D : Nat} (fl : ℚ → ℚ) (cs : CSTag) (X : Box D)
    (hX : ∀ d : Fin D, X.min_corner d < X.max_corner d) :
    box_in_box.apply (box_covered_by_range_rounded fl) CSTag.cartesian_tag X X = true ∧
    box_in_box.apply box_covered_by_range cs X X = true := by
  constructor
  · rw [box_in_box_apply_eq_true_iff]
    intro d
    rw [box_covered_by_range_rounded_cartesian]
    exact box_covered_by_range_apply_self _ _
  · rw [box_in_box_apply_eq_true_iff]
    intro d
    have _hd := hX d
    exact box_covered_by_range_self d.val (tag_cast cs) (X.min_corner d) (X.max_corner d)

/-- Witness of amended C6: `BOX(0 0,1 1)`, in `double` arithmetic under the cartesian
tag and in exact arithmetic under the spherical tag. -/
theorem covered_by_self_witness :
    (∀ d : Fin 2, unitBox.min_corner d < unitBox.max_corner d) ∧
    box_in_box.apply (box_covered_by_range_rounded round_double) CSTag.cartesian_tag
      unitBox unitBox = true ∧
    box_in_box.apply box_covered_by_range CSTag.spherical_tag unitBox unitBox = true :=
  ⟨unitBox_nondegenerate,
    covered_by_self round_double CSTag.spherical_tag unitBox unitBox_nondegenerate⟩

/-- C7, as stated, fails: `BOX(0 0,1 1)` has `min < max` in both dimensions and
`within` of the box and itself is true, not false. -/
theorem within_self_counterexample :
    ¬ ((∀ d : Fin 2, unitBox.min_corner d < unitBox.max_corner d) →
      box_in_box.apply box_within_range CSTag.cartesian_tag unitBox unitBox = false) := by
  intro h
  have hfalse := h unitBox_nondegenerate
  have htrue : box_in_box.apply box_within_range CSTag.cartesian_tag unitBox unitBox = true := by
    rw [box_in_box_apply_eq_true_iff]
    intro d
    fin_cases d <;> simp [unitBox, box_within_range, tag_cast, box_within_range.apply]
  rw [htrue] at hfalse
  exact Bool.noConfusion hfalse

/-- C7, amended: for every box X with `min < max` in every dimension, `within(X, X)`
computed by `box_in_box` with the within sub-strategy is true in the planar (cartesian)
coordinate system, where the range test only compares: in exact arithmetic and
whatever the rounding `fl` of the coordinate arithmetic. -/
theorem within_self {D : Nat} (fl : ℚ → ℚ) (X : Box D)
    (hX : ∀ d : Fin D, X.min_corner d < X.max_corner d) :
    box_in_box.apply box_within_range CSTag.cartesian_tag X X = true ∧
    box_in_box.apply (box_within_range_rounded fl) CSTag.cartesian_tag X X = true := by
  constructor
  · rw [box_in_box_apply_eq_true_iff]
    intro d
    exact box_within_range_self d.val (tag_cast CSTag.cartesian_tag) (X.min_corner d)
      (X.max_corner d) (hX d)
  · rw [box_in_box_apply_eq_true_iff]
    intro d
    rw [box_within_range_rounded_cartesian]
    exact box_within_range_apply_self _ _ (hX d)

/-- Witness of amended C7: `BOX(0 0,1 1)` under the cartesian tag, in exact and in
`double` arithmetic. -/
theorem within_self_witness :
    (∀ d : Fin 2, unitBox.min_corner d < unitBox.max_corner d) ∧
    box_in_box.apply box_within_range CSTag.cartesian_tag unitBox unitBox = true ∧
    box_in_box.apply (box_within_range_rounded round_double) CSTag.cartesian_tag
      unitBox unitBox = true :=
  ⟨unitBox_nondegenerate, within_self round_double unitBox unitBox_nondegenerate⟩

/-! ## Longitude ranges across the seam and around the globe -/

/-- C8: in degrees, the spherical dimension-0 covered_by and within tests report the
outer longitude range from 170 to -170 across the seam as containing the inner range from
175 to -175, and likewise for the unwrapped ranges [175, 185] in [170, 190]. -/
theorem longitude_wraparound :
    box_covered_by_range_spherical.apply 175 (-175) 170 (-170) = true ∧
    box_within_range_spherical.apply 175 (-175) 170 (-170) = true ∧
    box_covered_by_range_spherical.apply 175 185 170 190 = true ∧
    box_within_range_spherical.apply 175 185 170 190 = true := by
  have hn : normalize_longitude (175 - 170) = 5 := by
    rw [normalize_longitude_of_mem _ (by norm_num) (by norm_num)]
    norm_num
  refine ⟨?_, ?_, ?_, ?_⟩
  · simp only [box_covered_by_range_spherical.apply, math.smaller, period, hn]
    norm_num
  · simp only [box_within_range_spherical.apply, math.smaller, period, hn]
    norm_num
  · simp only [box_covered_by_range_spherical.apply, math.smaller, period, hn]
    norm_num
  · simp only [box_within_range_spherical.apply, math.smaller, period, hn]
    norm_num

/-- C9: for the spherical dimension-0 covered_by test in degrees, an outer range that
spans a full period (`outer_max - outer_min ≥ 360`) and is not narrower than the inner
range covers the inner range wherever the inner range lies. -/
theorem covered_by_full_period (inner_min inner_max outer_min outer_max : ℚ)
    (hfull : 360 ≤ outer_max - outer_min)
    (hwide : inner_max - inner_min ≤ outer_max - outer_min) :
    box_covered_by_range_spherical.apply inner_min inner_max outer_min outer_max = true := by
  unfold box_covered_by_range_spherical.apply
  simp [math.smaller, period, not_lt.mpr hwide, hfull]

/-- Witness of C9: the inner range [500, 600] in the outer range [-180, 180]. -/
theorem covered_by_full_period_witness :
    (360 : ℚ) ≤ 180 - -180 ∧ (600 : ℚ) - 500 ≤ 180 - -180 ∧
    box_covered_by_range_spherical.apply 500 600 (-180) 180 = true :=
  ⟨by norm_num, by norm_num,
    covered_by_full_period 500 600 (-180) 180 (by norm_num) (by norm_num)⟩

/-- C10, as stated, fails: the outer range [-180, 180] spans a full period and is not
narrower than the zero-width inner range [0, 0], yet the within test returns false. -/
theorem within_full_period_counterexample :
    ¬ ((360 : ℚ) ≤ 180 - -180 → (0 : ℚ) - 0 ≤ 180 - -180 →
      box_within_range_spherical.apply 0 0 (-180) 180 = true) := by
  intro h
  have htrue := h (by norm_num) (by norm_num)
  have hfalse : box_within_range_spherical.apply 0 0 (-180) 180 = false := by
    simp [box_within_range_spherical.apply]
  rw [hfalse] at htrue
  exact Bool.noConfusion htrue

/-- C10, amended: for the spherical dimension-0 within test in degrees, when the outer
range spans a full period and is not narrower than the inner range, the test is true
exactly when the inner range has non-zero width. -/
theorem within_full_period (inner_min inner_max outer_min outer_max : ℚ)
    (hfull : 360 ≤ outer_max - outer_min)
    (hwide : inner_max - inner_min ≤ outer_max - outer_min) :
    box_within_range_spherical.apply inner_min inner_max outer_min outer_max = true ↔
      inner_max - inner_min ≠ 0 := by
  unfold box_within_range_spherical.apply
  by_cases h0 : inner_max - inner_min = 0
  · simp [h0]
  · simp [math.smaller, period, not_lt.mpr hwide, hfull, h0]

/-- Witness of amended C10: the inner range [500, 600] in the outer range [-180, 180]. -/
theorem within_full_period_witness :
    (360 : ℚ) ≤ 180 - -180 ∧ (600 : ℚ) - 500 ≤ 180 - -180 ∧
    (box_within_range_spherical.apply 500 600 (-180) 180 = true ↔ (600 : ℚ) - 500 ≠ 0) :=
  ⟨by norm_num, by norm_num,
    within_full_period 500 600 (-180) 180 (by norm_num) (by norm_num)⟩

/-! ## The spherical family of tags -/

/-- Two tags with the same cast give the same result of the box loop. -/
theorem box_in_box_apply_congr_tag (S : Nat → CSTag → ℚ → ℚ → ℚ → ℚ → Bool) (cs cs2 : CSTag)
    (h : tag_cast cs = tag_cast cs2) {D : Nat} (b1 b2 : Box D) :
    box_in_box.apply S cs b1 b2 = box_in_box.apply S cs2 b1 b2 := by
  rw [Bool.eq_iff_iff, box_in_box_apply_eq_true_iff, box_in_box_apply_eq_true_iff, h]

/-- C11: geographic boxes are handled exactly like spherical ones: for every pair of
boxes, `box_in_box` with the within and with the covered_by sub-strategy (and with any
other) returns under the geographic tag, and under the spherical_polar and
spherical_equatorial tags, what it returns under the spherical tag, each of these tags
being cast to `spherical_tag` before the range test is selected. -/
theorem geographic_like_spherical (SubStrategy : Nat → CSTag → ℚ → ℚ → ℚ → ℚ → Bool)
    {D : Nat} (inner outer : Box D) :
    (box_in_box.apply box_within_range CSTag.geographic_tag inner outer =
      box_in_box.apply box_within_range CSTag.spherical_tag inner outer) ∧
    (box_in_box.apply box_covered_by_range CSTag.geographic_tag inner outer =
      box_in_box.apply box_covered_by_range CSTag.spherical_tag inner outer) ∧
    (box_in_box.apply SubStrategy CSTag.geographic_tag inner outer =
      box_in_box.apply SubStrategy CSTag.spherical_tag inner outer) ∧
    (box_in_box.apply SubStrategy CSTag.spherical_polar_tag inner outer =
      box_in_box.apply SubStrategy CSTag.spherical_tag inner outer) ∧
    (box_in_box.apply SubStrategy CSTag.spherical_equatorial_tag inner outer =
      box_in_box.apply SubStrategy CSTag.spherical_tag inner outer) ∧
    tag_cast CSTag.geographic_tag = CSTag.spherical_tag ∧
    tag_cast CSTag.spherical_polar_tag = CSTag.spherical_tag ∧
    tag_cast CSTag.spherical_equatorial_tag = CSTag.spherical_tag :=
  ⟨box_in_box_apply_congr_tag _ CSTag.geographic_tag CSTag.spherical_tag rfl inner outer,
   box_in_box_apply_congr_tag _ CSTag.geographic_tag CSTag.spherical_tag rfl inner outer,
   box_in_box_apply_congr_tag _ CSTag.geographic_tag CSTag.spherical_tag rfl inner outer,
   box_in_box_apply_congr_tag _ CSTag.spherical_polar_tag CSTag.spherical_tag rfl inner outer,
   box_in_box_apply_congr_tag _ CSTag.spherical_equatorial_tag CSTag.spherical_tag rfl
     inner outer,
   rfl, rfl, rfl⟩

end BoxInBox

namespace IsValid

open BoxInBox

/-! ## Validity of boxes, segments and points -/

/-- C12: a 2-D planar box is valid exactly when `min < max` strictly in both
dimensions; of the boxes of the test file, `BOX(0 0,1 1)` is valid and
`BOX(0 0,-1 0)`, `BOX(0 0,0 -1)`, `BOX(0 0,-1 -1)`, `BOX(0 0,0 0)`, `BOX(0 0,1 0)`,
`BOX(0 0,0 1)` are invalid. -/
theorem is_valid_box_iff (b : Box 2) :
    (is_valid_box b = true ↔
      b.min_corner 0 < b.max_corner 0 ∧ b.min_corner 1 < b.max_corner 1) ∧
    is_valid_box (box2 0 0 1 1) = true ∧
    is_valid_box (box2 0 0 (-1) 0) = false ∧
    is_valid_box (box2 0 0 0 (-1)) = false ∧
    is_valid_box (box2 0 0 (-1) (-1)) = false ∧
    is_valid_box (box2 0 0 0 0) = false ∧
    is_valid_box (box2 0 0 1 0) = false ∧
    is_valid_box (box2 0 0 0 1) = false := by
  refine ⟨?_, by decide!, by decide!, by decide!, by decide!, by decide!, by decide!,
    by decide!⟩
  simp only [is_valid_box, Bool.and_eq_true, decide_eq_true_eq, Fin.forall_fin_two,
    Fin.val_zero, Fin.val_one]
  constructor
  · rintro ⟨⟨_, _⟩, h0, h1⟩
    exact ⟨h0 (by norm_num), h1 (by norm_num)⟩
  · rintro ⟨h0, h1⟩
    exact ⟨⟨le_refl _, le_of_lt h0, le_of_lt h1⟩, fun _ => h0, fun _ => h1⟩

/-- C13: a segment is valid if and only if its two endpoints differ;
`SEGMENT(0 0,0 0)` is invalid and `SEGMENT(0 0,1 0)` is valid. -/
theorem is_valid_segment_iff (s : Segment) :
    (is_valid_segment s = true ↔ s.first ≠ s.second) ∧
    is_valid_segment segment_s01 = false ∧
    is_valid_segment segment_s02 = true := by
  refine ⟨?_, by decide!, by decide!⟩
  obtain ⟨⟨ax, ay⟩, ⟨bx, by_⟩⟩ := s
  simp only [is_valid_segment, distance_squared, decide_eq_true_eq, ne_eq, Point.mk.injEq,
    not_and]
  constructor
  · intro h hx hy
    apply h
    rw [hx, hy]
    ring
  · intro h hsum
    have h1 : (bx - ax) * (bx - ax) = 0 := by nlinarith [mul_self_nonneg (bx - ax), mul_self_nonneg (by_ - ay)]
    have h2 : (by_ - ay) * (by_ - ay) = 0 := by nlinarith [mul_self_nonneg (bx - ax), mul_self_nonneg (by_ - ay)]
    have hx : ax = bx := by
      have := mul_self_eq_zero.mp h1
      linarith
    have hy : ay = by_ := by
      have := mul_self_eq_zero.mp h2
      linarith
    exact h hx hy

/-- C14: every point is valid, whatever its coordinates and whatever the validation
configuration; so is `POINT(0 0)`. -/
theorem is_valid_point_always (cfg : ValidationConfig) (p : Point) :
    is_valid_point cfg p = true ∧ is_valid_point cfg point_p01 = true :=
  ⟨rfl, rfl⟩

/-! ## Sequences with few distinct points -/

/-- A sequence with fewer than three distinct points takes at most two values. -/
theorem two_valued_of_dedup_length (l : List Point) (h : l.dedup.length < 3) :
    ∃ a b : Point, ∀ p ∈ l, p = a ∨ p = b := by
  have hmem : ∀ p ∈ l, p ∈ l.dedup := fun p hp => List.mem_dedup.mpr hp
  match hd : l.dedup, h with
  | [], _ =>
    refine ⟨⟨0, 0⟩, ⟨0, 0⟩, fun p hp => ?_⟩
    have := hmem p hp
    rw [hd] at this
    exact absurd this (List.not_mem_nil _)
  | [a], _ =>
    refine ⟨a, a, fun p hp => ?_⟩
    have := hmem p hp
    rw [hd] at this
    simp at this
    exact Or.inl this
  | [a, b], _ =>
    refine ⟨a, b, fun p hp => ?_⟩
    have := hmem p hp
    rw [hd] at this
    simpa using this
  | _ :: _ :: _ :: _, h3 =>
    simp at h3
    omega

/-! ## Collapsed point sequences -/

/-- Collapsing keeps the first point. -/
theorem head?_collapse (l : List Point) : (collapse l).head? = l.head? := by
  induction l with
  | nil => rfl
  | cons p t ih =>
    cases t with
    | nil => rfl
    | cons q t2 =>
      by_cases hpq : p = q
      · simp only [collapse, hpq, if_true]
        rw [ih]
        rfl
      · simp [collapse, hpq]

/-- Collapsing keeps the set of points. -/
theorem mem_collapse (x : Point) (l : List Point) : x ∈ collapse l ↔ x ∈ l := by
  induction l with
  | nil => simp [collapse]
  | cons p t ih =>
    cases t with
    | nil => simp [collapse]
    | cons q t2 =>
      by_cases hpq : p = q
      · simp only [collapse, hpq, if_true]
        rw [ih]
        simp
      · simp only [collapse, hpq, if_false, List.mem_cons]
        rw [ih]
        simp

/-- Dropping a last point that repeats the first one keeps the set of points. -/
theorem mem_dropLast_of_closed (x : Point) (c : List Point) (h2 : 2 ≤ c.length)
    (hc : c.head? = c.getLast?) : x ∈ c.dropLast ↔ x ∈ c := by
  constructor
  · exact fun h => List.dropLast_subset c h
  · intro h
    match c, h2, hc, h with
    | [], h2, _, _ => simp at h2
    | [_], h2, _, _ => simp at h2
    | p :: q :: t, _, hc, h =>
      have hne : (q :: t) ≠ [] := List.cons_ne_nil _ _
      have hlast : (q :: t).getLast hne = p := by
        have h4 : (p :: q :: t).getLast? = some ((q :: t).getLast hne) := by
          rw [List.getLast?_cons_cons, List.getLast?_eq_getLast _ hne]
        rw [h4] at hc
        simpa using hc.symm
      have hdrop : (p :: q :: t).dropLast = p :: (q :: t).dropLast := by
        simp [List.dropLast]
      rw [hdrop]
      rcases List.mem_cons.mp h with rfl | hx
      · exact List.mem_cons_self _ _
      · rw [← List.dropLast_append_getLast hne, hlast] at hx
        rcases List.mem_append.mp hx with h5 | h5
        · exact List.mem_cons_of_mem _ h5
        · simp at h5
          rw [h5]
          exact List.mem_cons_self _ _

/-- The distinct consecutive points of a ring are the points of its sequence. -/
theorem mem_cyclic_collapse (x : Point) (l : List Point) : x ∈ cyclic_collapse l ↔ x ∈ l := by
  unfold cyclic_collapse
  by_cases h : 2 ≤ (collapse l).length ∧ (collapse l).head? = (collapse l).getLast?
  · simp only [h, and_self, if_true]
    rw [mem_dropLast_of_closed x _ h.1 h.2, mem_collapse]
  · simp only [h, if_false]
    exact mem_collapse x l

/-! ## Validity of linestrings -/

/-- A sequence of equal points collapses to at most one point. -/
theorem collapse_length_le_one (l : List Point) (h : ∀ p ∈ l, ∀ q ∈ l, p = q) :
    (collapse l).length ≤ 1 := by
  induction l with
  | nil => simp [collapse]
  | cons p t ih =>
    cases t with
    | nil => simp [collapse]
    | cons q t2 =>
      have hpq : p = q :=
        h p (List.mem_cons_self _ _) q (List.mem_cons_of_mem _ (List.mem_cons_self _ _))
      simp only [collapse, hpq, if_true]
      exact ih (fun a ha b hb =>
        h a (List.mem_cons_of_mem _ ha) b (List.mem_cons_of_mem _ hb))

/-- A sequence with two distinct points collapses to at least two points. -/
theorem two_le_collapse_length (l : List Point) (h : ∃ p ∈ l, ∃ q ∈ l, p ≠ q) :
    2 ≤ (collapse l).length := by
  induction l with
  | nil =>
    obtain ⟨p, hp, _⟩ := h
    exact absurd hp (List.not_mem_nil _)
  | cons p t ih =>
    cases t with
    | nil =>
      obtain ⟨a, ha, b, hb, hab⟩ := h
      simp at ha hb
      exact absurd (ha.trans hb.symm) hab
    | cons q t2 =>
      by_cases hpq : p = q
      · simp only [collapse, hpq, if_true]
        apply ih
        obtain ⟨a, ha, b, hb, hab⟩ := h
        refine ⟨a, ?_, b, ?_, hab⟩
        · rcases List.mem_cons.mp ha with rfl | h1
          · rw [hpq]
            exact List.mem_cons_self _ _
          · exact h1
        · rcases List.mem_cons.mp hb with rfl | h1
          · rw [hpq]
            exact List.mem_cons_self _ _
          · exact h1
      · simp only [collapse, hpq, if_false, List.length_cons]
        have hhead := head?_collapse (q :: t2)
        cases hc : collapse (q :: t2) with
        | nil =>
          rw [hc] at hhead
          simp at hhead
        | cons a rest => simp

/-- An immediately repeated point does not change the collapsed sequence. -/
theorem collapse_repeated (pre : List Point) (p : Point) (post : List Point) :
    collapse (pre ++ p :: p :: post) = collapse (pre ++ p :: post) := by
  induction pre with
  | nil => simp [collapse]
  | cons a t ih =>
    cases t with
    | nil =>
      by_cases hap : a = p
      · simp only [List.cons_append, List.nil_append, collapse, hap, if_true]
      · have h1 : collapse (p :: p :: post) = collapse (p :: post) := by simp [collapse]
        cases post with
        | nil => simp [collapse, hap]
        | cons c rest =>
          simp only [List.cons_append, List.nil_append, collapse, hap, if_false, if_true]
    | cons b t2 =>
      by_cases hab : a = b
      · simp only [List.cons_append, collapse, hab, if_true]
        exact ih
      · simp only [List.cons_append, collapse, hab, if_false]
        exact congrArg _ ih

/-- A spike stays a spike when a point is put in front of the path. -/
theorem has_spikes_cons (x : Point) (l : List Point) (h : has_spikes l = true) :
    has_spikes (x :: l) = true := by
  match l, h with
  | [], h => simp [has_spikes] at h
  | [_], h => simp [has_spikes] at h
  | [_, _], h => simp [has_spikes] at h
  | a :: b :: c :: rest, h =>
    have h1 : has_spikes (x :: a :: b :: c :: rest) =
        (is_spike x a b || has_spikes (a :: b :: c :: rest)) := by
      simp [has_spikes]
    rw [h1, h]
    simp

/-- Three consecutive points that are collinear and double back make a spike of the
path. -/
theorem has_spikes_of_triple (pre : List Point) (a b c : Point) (post : List Point)
    (hcross : cross_product a b c = 0) (hdot : dot_product a b c < 0) :
    has_spikes (pre ++ a :: b :: c :: post) = true := by
  induction pre with
  | nil => simp [has_spikes, is_spike, hcross, hdot]
  | cons x t ih => exact has_spikes_cons x _ ih

/-- C18: for every linestring and either spike policy, a linestring with fewer than two
distinct points is invalid, a spike-free linestring with at least two distinct points is
valid, and an immediately repeated point never changes the verdict;
`LINESTRING(0 0,1 2)` and `LINESTRING(0 0,0 0,1 2,1 2)` are valid, `LINESTRING(0 0)` and
`LINESTRING(0 0,0 0,0 0)` are invalid. -/
theorem linestring_validity (cfg : ValidationConfig) (ls : List Point) :
    ((∀ p ∈ ls, ∀ q ∈ ls, p = q) → is_valid_linestring cfg ls = false) ∧
    ((∃ p ∈ ls, ∃ q ∈ ls, p ≠ q) → linestring_has_spikes (collapse ls) = false →
      is_valid_linestring cfg ls = true) ∧
    (∀ (pre : List Point) (p : Point) (post : List Point),
      is_valid_linestring cfg (pre ++ p :: p :: post) =
        is_valid_linestring cfg (pre ++ p :: post)) ∧
    is_valid_linestring cfg linestring_l05 = true ∧
    is_valid_linestring cfg linestring_l07 = true ∧
    is_valid_linestring cfg linestring_l02 = false ∧
    is_valid_linestring cfg linestring_l04 = false := by
  refine ⟨?_, ?_, ?_, ?_, ?_, ?_, ?_⟩
  · intro h
    have h1 := collapse_length_le_one ls h
    have h2 : ¬ (2 ≤ (collapse ls).length) := by omega
    simp [is_valid_linestring, h2]
  · intro h hs
    have h1 := two_le_collapse_length ls h
    simp [is_valid_linestring, h1, hs]
  · intro pre p post
    unfold is_valid_linestring
    rw [collapse_repeated]
  · obtain ⟨d, s⟩ := cfg
    cases d <;> cases s <;> decide!
  · obtain ⟨d, s⟩ := cfg
    cases d <;> cases s <;> decide!
  · obtain ⟨d, s⟩ := cfg
    cases d <;> cases s <;> decide!
  · obtain ⟨d, s⟩ := cfg
    cases d <;> cases s <;> decide!

/-- Witness of C18: `LINESTRING(0 0,0 0,0 0)` (l04) has a single distinct point and is
invalid; `LINESTRING(0 0,0 0,1 2,1 2)` (l07) has two distinct points and no spike and is
valid, spikes not allowed. -/
theorem linestring_validity_witness :
    is_valid_linestring ⟨false, false⟩ linestring_l04 = false ∧
    is_valid_linestring ⟨false, false⟩ linestring_l07 = true :=
  ⟨(linestring_validity ⟨false, false⟩ linestring_l04).1 (by decide!),
   (linestring_validity ⟨false, false⟩ linestring_l07).2.1
     ⟨⟨0, 0⟩, by decide!, ⟨1, 2⟩, by decide!, by decide!⟩ (by decide!)⟩

/-- C19: for every linestring with at least two distinct points that contains a spike
(three consecutive points of its collapsed sequence that are collinear and double
back), validity equals the `allow_spikes` setting. -/
theorem linestring_spike_validity (cfg : ValidationConfig) (ls : List Point)
    (htwo : ∃ p ∈ ls, ∃ q ∈ ls, p ≠ q)
    (hspike : ∃ (pre : List Point) (a b c : Point) (post : List Point),
      collapse ls = pre ++ a :: b :: c :: post ∧
        cross_product a b c = 0 ∧ dot_product a b c < 0) :
    is_valid_linestring cfg ls = cfg.allow_spikes := by
  obtain ⟨pre, a, b, c, post, hc, hcross, hdot⟩ := hspike
  have h1 := two_le_collapse_length ls htwo
  have h2 : linestring_has_spikes (collapse ls) = true := by
    unfold linestring_has_spikes
    rw [hc, has_spikes_of_triple pre a b c post hcross hdot]
    simp
  simp [is_valid_linestring, h1, h2]

/-- Witness of C19: `LINESTRING(0 0,10 0,5 0)` (l16), spikes not allowed, and
`LINESTRING(0 0,1 2,0 0)` (l12), spikes allowed. -/
theorem linestring_spike_validity_witness :
    (∃ p ∈ linestring_l16, ∃ q ∈ linestring_l16, p ≠ q) ∧
    is_valid_linestring ⟨false, false⟩ linestring_l16 =
      (ValidationConfig.mk false false).allow_spikes ∧
    is_valid_linestring ⟨false, true⟩ linestring_l12 =
      (ValidationConfig.mk false true).allow_spikes :=
  ⟨⟨⟨0, 0⟩, by decide!, ⟨10, 0⟩, by decide!, by decide!⟩,
   linestring_spike_validity ⟨false, false⟩ linestring_l16
     ⟨⟨0, 0⟩, by decide!, ⟨10, 0⟩, by decide!, by decide!⟩
     ⟨[], ⟨0, 0⟩, ⟨10, 0⟩, ⟨5, 0⟩, [], by decide!, by decide!, by decide!⟩,
   linestring_spike_validity ⟨false, true⟩ linestring_l12
     ⟨⟨0, 0⟩, by decide!, ⟨1, 2⟩, by decide!, by decide!⟩
     ⟨[], ⟨0, 0⟩, ⟨1, 2⟩, ⟨0, 0⟩, [], by decide!, by decide!, by decide!⟩⟩

/-! ## Polygons with one hole -/

/-- The touching graph of a polygon with one hole that touches the exterior at a single
point: the exterior and the hole, each joined to that point. -/
theorem touch_graph_single (outer hole : LinearRing) (p : Point)
    (h : touch_points outer hole = [p]) :
    touch_graph ⟨outer, [hole]⟩ = [(0, p), (1, p)] := by
  simp [touch_graph, touch_graph_from, h, List.range_succ]

/-- A polygon with one hole that touches the exterior at a single point has a connected
interior. -/
theorem interior_connected_single (outer hole : LinearRing) (p : Point)
    (h : touch_points outer hole = [p]) :
    interior_connected ⟨outer, [hole]⟩ = true := by
  unfold interior_connected
  rw [touch_graph_single outer hole p h]
  simp [strip_leaves_iter, strip_leaves]

/-- C20: a polygon whose exterior ring and hole are each valid rings (the hole as an
interior ring), whose hole lies inside the exterior and touches the exterior boundary
at exactly one point, is valid. -/
theorem polygon_hole_touching_once_valid (cfg : ValidationConfig) (outer hole : LinearRing)
    (houter : is_valid_ring cfg false outer = true)
    (hhole : is_valid_ring cfg true hole = true)
    (hinside : hole_within_exterior outer hole = true)
    (htouch : (touch_points outer hole).length = 1) :
    is_valid_polygon cfg ⟨outer, [hole]⟩ = true := by
  obtain ⟨p, hp⟩ := List.length_eq_one.mp htouch
  have hconn := interior_connected_single outer hole p hp
  simp [is_valid_polygon, houter, hhole, hinside, holes_pairwise_compatible, hconn]

/-- Witness of C20: the polygons pg047 (hole `(1 1,1 10,2 1)`, touching an edge of the
exterior at `(1 10)`) and pg049 (hole `(0 0,1 4,4 1)`, touching at the vertex `(0 0)`),
duplicates and spikes not allowed. -/
theorem polygon_hole_touching_once_valid_witness :
    touch_points ring_square10 (open_ring [⟨1, 1⟩, ⟨1, 10⟩, ⟨2, 1⟩]) = [⟨1, 10⟩] ∧
    is_valid_polygon ⟨false, false⟩ polygon_pg047 = true ∧
    touch_points ring_square10 (open_ring [⟨0, 0⟩, ⟨1, 4⟩, ⟨4, 1⟩]) = [⟨0, 0⟩] ∧
    is_valid_polygon ⟨false, false⟩ polygon_pg049 = true :=
  ⟨by decide!,
   polygon_hole_touching_once_valid ⟨false, false⟩ ring_square10
     (open_ring [⟨1, 1⟩, ⟨1, 10⟩, ⟨2, 1⟩]) (by decide!) (by decide!) (by decide!) (by decide!),
   by decide!,
   polygon_hole_touching_once_valid ⟨false, false⟩ ring_square10
     (open_ring [⟨0, 0⟩, ⟨1, 4⟩, ⟨4, 1⟩]) (by decide!) (by decide!) (by decide!) (by decide!)⟩

/-! ## Rings with too few distinct points -/

/-- Collapsing keeps the last point. -/
theorem getLast?_collapse (l : List Point) : (collapse l).getLast? = l.getLast? := by
  induction l with
  | nil => rfl
  | cons p t ih =>
    cases t with
    | nil => rfl
    | cons q t2 =>
      by_cases hpq : p = q
      · simp only [collapse, hpq, if_true]
        rw [ih, List.getLast?_cons_cons]
      · simp only [collapse, hpq, if_false]
        have hhead := head?_collapse (q :: t2)
        cases hc : collapse (q :: t2) with
        | nil =>
          rw [hc] at hhead
          simp at hhead
        | cons a rest =>
          rw [List.getLast?_cons_cons, ← hc, ih, List.getLast?_cons_cons]

/-- A sequence that returns to its first point and whose collapsed sequence, without its
last point, has fewer than three distinct points takes at most two values. -/
theorem two_valued_of_closed (l : List Point)
    (hc : l.head? = l.getLast?) (h : (collapse l).dropLast.dedup.length < 3) :
    ∃ a b : Point, ∀ p ∈ l, p = a ∨ p = b := by
  have hclosed : (collapse l).head? = (collapse l).getLast? := by
    rw [head?_collapse, getLast?_collapse, hc]
  by_cases hlen : 2 ≤ (collapse l).length
  · obtain ⟨a, b, hab⟩ := two_valued_of_dedup_length _ h
    refine ⟨a, b, fun p hp => hab p ?_⟩
    rw [mem_dropLast_of_closed p _ hlen hclosed, mem_collapse]
    exact hp
  · have hshort : (collapse l).dedup.length < 3 := by
      have := (List.dedup_sublist (collapse l)).length_le
      omega
    obtain ⟨a, b, hab⟩ := two_valued_of_dedup_length _ hshort
    exact ⟨a, b, fun p hp => hab p ((mem_collapse p l).mpr hp)⟩

/-- Collapsing leaves no two equal neighbours. -/
theorem collapse_chain (l : List Point) : List.Chain' (· ≠ ·) (collapse l) := by
  induction l with
  | nil => simp [collapse]
  | cons p t ih =>
    cases t with
    | nil => simp [collapse]
    | cons q t2 =>
      by_cases hpq : p = q
      · simp only [collapse, hpq, if_true]
        exact ih
      · simp only [collapse, hpq, if_false]
        rw [List.chain'_cons']
        refine ⟨?_, ih⟩
        intro y hy
        rw [head?_collapse] at hy
        simp only [List.head?_cons, Option.mem_def, Option.some.injEq] at hy
        rw [← hy]
        exact hpq

/-- The distinct consecutive points of a ring have no two equal neighbours. -/
theorem cyclic_collapse_chain (l : List Point) : List.Chain' (· ≠ ·) (cyclic_collapse l) := by
  unfold cyclic_collapse
  by_cases h : 2 ≤ (collapse l).length ∧ (collapse l).head? = (collapse l).getLast?
  · simp only [h, and_self, if_true]
    rw [List.dropLast_eq_take]
    exact (collapse_chain l).take _
  · simp only [h, if_false]
    exact collapse_chain l

/-- In a sequence without equal neighbours the last point differs from the one before
it. -/
theorem chain_dropLast_getLast (c : List Point) (hc : List.Chain' (· ≠ ·) c)
    (x y : Point) (hx : c.dropLast.getLast? = some x) (hy : c.getLast? = some y) : x ≠ y := by
  induction c with
  | nil => simp at hy
  | cons p t ih =>
    cases t with
    | nil => simp at hx
    | cons q t2 =>
      cases t2 with
      | nil =>
        simp only [List.dropLast, List.getLast?_singleton, Option.some.injEq] at hx
        simp only [List.getLast?_cons_cons, List.getLast?_singleton, Option.some.injEq] at hy
        rw [← hx, ← hy]
        exact (List.chain'_cons.mp hc).1
      | cons r t3 =>
        apply ih (List.chain'_cons.mp hc).2
        · simpa [List.dropLast] using hx
        · simpa [List.getLast?_cons_cons] using hy

/-- The distinct consecutive points of a ring, when there are at least two, end in a
point other than the first. -/
theorem cyclic_collapse_ends (l : List Point) (h2 : 2 ≤ (cyclic_collapse l).length) :
    (cyclic_collapse l).head? ≠ (cyclic_collapse l).getLast? := by
  unfold cyclic_collapse at h2 ⊢
  by_cases h : 2 ≤ (collapse l).length ∧ (collapse l).head? = (collapse l).getLast?
  · simp only [h, and_self, if_true] at h2 ⊢
    intro heq
    have hne : (collapse l).dropLast ≠ [] := by
      intro h0
      rw [h0] at h2
      simp at h2
    have hne2 : collapse l ≠ [] := by
      intro h0
      rw [h0] at hne
      simp at hne
    have hx := List.getLast?_eq_getLast _ hne
    have hy := List.getLast?_eq_getLast _ hne2
    have hdiff := chain_dropLast_getLast _ (collapse_chain l) _ _ hx hy
    have hhead : (collapse l).dropLast.head? = (collapse l).head? := by
      cases hcl : collapse l with
      | nil => exact absurd hcl hne2
      | cons p t =>
        cases t with
        | nil =>
          rw [hcl] at hne
          simp at hne
        | cons q t2 => simp [List.dropLast]
    rw [hhead, h.2, hx, hy] at heq
    exact hdiff (Option.some.inj heq).symm
  · simp only [h, if_false] at h2 ⊢
    intro heq
    exact h ⟨h2, heq⟩

/-- An edge meets itself. -/
theorem edges_meet_self (e : Segment) : edges_meet e e = true := by
  have h1 : cross_product e.first e.second e.first = 0 := by
    unfold cross_product
    ring
  have h2 : cross_product e.first e.second e.second = 0 := by
    unfold cross_product
    ring
  have hrel : relate e e = Relation.Identical := by
    simp [relate, orientation, h1, h2]
  simp [edges_meet, hrel]

/-- A ring that runs twice over the same two points in turn intersects itself: its first
and its third edge are the same. -/
theorem ring_self_intersects_of_repeat (x y : Point) (rest : List Point) :
    ring_self_intersects (cyclic_edges (x :: y :: x :: y :: rest)) = true := by
  have hedges : ∃ z zs, cyclic_edges (x :: y :: x :: y :: rest) =
      ⟨x, y⟩ :: ⟨y, x⟩ :: ⟨x, y⟩ :: z :: zs := by
    cases rest with
    | nil => exact ⟨⟨y, x⟩, [], by simp [cyclic_edges]⟩
    | cons r rs => exact ⟨⟨y, r⟩, _, by simp [cyclic_edges]; rfl⟩
  obtain ⟨z, zs, hz⟩ := hedges
  rw [hz]
  simp [ring_self_intersects, List.dropLast, edges_meet_self]

/-- A sequence of at least three points without equal neighbours, ending in a point
other than the first and taking at most two values, runs twice over the same two points
in turn. -/
theorem alternates_of_two_valued (a b : Point) (vs : List Point)
    (hab : ∀ p ∈ vs, p = a ∨ p = b) (hchain : List.Chain' (· ≠ ·) vs)
    (hends : vs.head? ≠ vs.getLast?) (h3 : 3 ≤ vs.length) :
    ∃ x y rest, vs = x :: y :: x :: y :: rest := by
  match vs, hab, hchain, hends, h3 with
  | [], _, _, _, h3 => simp at h3
  | [_], _, _, _, h3 => simp at h3
  | [_, _], _, _, _, h3 => simp at h3
  | v0 :: v1 :: v2 :: tail, hab, hchain, hends, _ =>
    have h01 : v0 ≠ v1 := (List.chain'_cons.mp hchain).1
    have hchain1 := (List.chain'_cons.mp hchain).2
    have h12 : v1 ≠ v2 := (List.chain'_cons.mp hchain1).1
    have hchain2 := (List.chain'_cons.mp hchain1).2
    have m0 := hab v0 (by simp)
    have m1 := hab v1 (by simp)
    have m2 := hab v2 (by simp)
    have h20 : v2 = v0 := by
      rcases m0 with rfl | rfl <;> rcases m1 with rfl | rfl <;> rcases m2 with rfl | rfl <;>
        first | rfl | exact absurd rfl h01 | exact absurd rfl h12
    cases tail with
    | nil =>
      exfalso
      apply hends
      simp [h20]
    | cons v3 rest =>
      have h23 : v2 ≠ v3 := (List.chain'_cons.mp hchain2).1
      have m3 := hab v3 (by simp)
      have h31 : v3 = v1 := by
        rcases m1 with rfl | rfl <;> rcases m2 with rfl | rfl <;> rcases m3 with rfl | rfl <;>
          first | rfl | exact absurd rfl h12 | exact absurd rfl h23
      exact ⟨v0, v1, rest, by rw [h20, h31]⟩

/-- A ring whose logical sequence takes at most two values is invalid: it fails the
vertex floor, or its distinct consecutive points run twice over the same two points and
the ring intersects itself. -/
theorem invalid_of_two_valued (cfg : ValidationConfig) (is_interior_ring : Bool)
    (r : LinearRing) (a b : Point) (hab : ∀ p ∈ r.logical, p = a ∨ p = b) :
    is_valid_ring cfg is_interior_ring r = false := by
  by_cases h3 : 3 ≤ r.vertices.length
  · have hvs : ∀ p ∈ r.vertices, p = a ∨ p = b := fun p hp =>
      hab p ((mem_cyclic_collapse p r.logical).mp hp)
    obtain ⟨x, y, rest, hshape⟩ := alternates_of_two_valued a b r.vertices hvs
      (cyclic_collapse_chain r.logical) (cyclic_collapse_ends r.logical (by
        unfold LinearRing.vertices at h3
        omega)) h3
    have hself : no_self_intersection r = false := by
      unfold no_self_intersection
      rw [hshape, ring_self_intersects_of_repeat]
      rfl
    simp [is_valid_ring, hself]
  · have hfloor : vertex_floor r = false := by
      simp [vertex_floor, h3]
    simp [is_valid_ring, hfloor]

/-- C15: for every ring (open or closed, either orientation, exterior or interior) and
every validation configuration, a ring with fewer than 3 distinct points is invalid:
fewer than 3 distinct points in its logical sequence, or, for a closed ring, fewer than
3 distinct points once repeated points are collapsed and the closing point is left
out. Such a ring fails the vertex floor (too few distinct consecutive points, or a
closed ring that does not close), or it intersects itself. -/
theorem few_distinct_points_invalid (cfg : ValidationConfig) (is_interior_ring : Bool)
    (r : LinearRing)
    (h : r.logical.dedup.length < 3 ∨
      (r.closed = true ∧ (collapse r.points).dropLast.dedup.length < 3)) :
    is_valid_ring cfg is_interior_ring r = false := by
  rcases h with h | ⟨hclosed, h⟩
  · obtain ⟨a, b, hab⟩ := two_valued_of_dedup_length r.logical h
    exact invalid_of_two_valued cfg is_interior_ring r a b hab
  · by_cases hc : r.points.head? = r.points.getLast?
    · obtain ⟨a, b, hab⟩ := two_valued_of_closed r.points hc h
      apply invalid_of_two_valued cfg is_interior_ring r a b
      intro p hp
      apply hab
      unfold LinearRing.logical at hp
      rw [hclosed] at hp
      exact List.dropLast_subset _ hp
    · have hfloor : vertex_floor r = false := by
        simp [vertex_floor, hclosed, hc]
      simp [is_valid_ring, hfloor]

/-- Witness of C15: the open ring `POLYGON((0 0,1 0,0 0))` (r06) and the closed ring
`POLYGON((0 0,1 0,2 0,2 0))` (r08c), duplicates and spikes allowed. -/
theorem few_distinct_points_invalid_witness :
    ring_r06.logical.dedup.length < 3 ∧
    is_valid_ring ⟨true, true⟩ false ring_r06 = false ∧
    (collapse ring_r08c.points).dropLast.dedup.length < 3 ∧
    is_valid_ring ⟨true, true⟩ false ring_r08c = false :=
  ⟨by decide!,
   few_distinct_points_invalid ⟨true, true⟩ false ring_r06 (Or.inl (by decide!)),
   by decide!,
   few_distinct_points_invalid ⟨true, true⟩ false ring_r08c (Or.inr ⟨rfl, by decide!⟩)⟩

/-! ## The validity model on the geometries of the test file -/

/-- With duplicates not allowed a ring is valid exactly when it is valid with duplicates
allowed and repeats no point of its logical sequence. -/
theorem is_valid_ring_strict (s is_interior_ring : Bool) (r : LinearRing) :
    is_valid_ring ⟨false, s⟩ is_interior_ring r =
      (is_valid_ring ⟨true, s⟩ is_interior_ring r && decide r.logical.Nodup) := by
  simp only [is_valid_ring, duplicates_permitted, spikes_permitted, Bool.false_or, Bool.true_or,
    Bool.and_true]
  cases vertex_floor r <;> cases decide r.logical.Nodup <;>
    cases (s || !has_spikes (r.vertices ++ List.take 2 r.vertices)) <;>
    cases no_self_intersection r <;> rfl

/-- A conjunction holds for all members of a list exactly when each part does. -/
theorem all_and_eq {α : Type} (l : List α) (f g : α → Bool) :
    (l.all fun a => f a && g a) = (l.all f && l.all g) := by
  induction l with
  | nil => rfl
  | cons a t ih =>
    simp only [List.all_cons, ih]
    cases f a <;> cases g a <;> cases t.all f <;> cases t.all g <;> rfl

/-- With duplicates not allowed a polygon is valid exactly when it is valid with
duplicates allowed and none of its rings repeats a point. -/
theorem is_valid_polygon_strict (s : Bool) (pg : Polygon) :
    is_valid_polygon ⟨false, s⟩ pg =
      (is_valid_polygon ⟨true, s⟩ pg && pg.free_of_duplicates) := by
  have hinner : (pg.inners.all fun r => is_valid_ring ⟨false, s⟩ true r) =
      ((pg.inners.all fun r => is_valid_ring ⟨true, s⟩ true r) &&
        pg.inners.all fun r => decide r.logical.Nodup) := by
    rw [← all_and_eq]
    congr 1
    funext r
    exact is_valid_ring_strict s true r
  simp only [is_valid_polygon, Polygon.free_of_duplicates, Polygon.rings, List.all_cons]
  rw [is_valid_ring_strict s false pg.outer, hinner]
  cases is_valid_ring ⟨true, s⟩ false pg.outer <;> cases decide pg.outer.logical.Nodup <;>
    cases (pg.inners.all fun r => is_valid_ring ⟨true, s⟩ true r) <;>
    cases (pg.inners.all fun r => decide r.logical.Nodup) <;>
    cases pg.inners.all (hole_within_exterior pg.outer) <;>
    cases holes_pairwise_compatible pg.inners <;> cases interior_connected pg <;> rfl

/-- With duplicates not allowed a multi-polygon is valid exactly when it is valid with
duplicates allowed and none of its rings repeats a point. -/
theorem is_valid_multipolygon_strict (s : Bool) (mp : List Polygon) :
    is_valid_multipolygon ⟨false, s⟩ mp =
      (is_valid_multipolygon ⟨true, s⟩ mp && mp.all Polygon.free_of_duplicates) := by
  have hall : (mp.all fun pg => is_valid_polygon ⟨false, s⟩ pg) =
      ((mp.all fun pg => is_valid_polygon ⟨true, s⟩ pg) &&
        mp.all Polygon.free_of_duplicates) := by
    rw [← all_and_eq]
    congr 1
    funext pg
    exact is_valid_polygon_strict s pg
  simp only [is_valid_multipolygon]
  rw [hall]
  cases (mp.all fun pg => is_valid_polygon ⟨true, s⟩ pg) <;>
    cases mp.all Polygon.free_of_duplicates <;> cases polygons_pairwise_compatible mp <;> rfl

/-- Agreement of the verdict found with duplicates allowed gives the two expected
verdicts. -/
theorem verdicts_of_agree (v n : Bool) (expected : Bool × Bool)
    (h : verdicts_agree v n expected = true) :
    ((v == expected.1) && ((v && n) == expected.2)) = true := by
  obtain ⟨e1, e2⟩ := expected
  cases v <;> cases n <;> cases e1 <;> cases e2 <;> simp_all [verdicts_agree]

/-- The linestring model gives, on each linestring of `test_linestrings`, the verdict
the test expects, with spikes allowed and with spikes not allowed. -/
theorem linestring_corpus_verdicts :
    linestring_corpus.all (fun t =>
      (is_valid_linestring ⟨true, true⟩ t.1 == t.2.1) &&
      (is_valid_linestring ⟨true, false⟩ t.1 == t.2.2)) = true := by
  decide!

/-- The ring model gives, on each ring of `test_open_rings`, the verdict the test
expects, with duplicates allowed and not allowed, spikes not allowed. -/
theorem open_ring_corpus_verdicts :
    open_ring_corpus.all (fun t =>
      (is_valid_ring ⟨true, false⟩ false (open_ring t.1) == t.2.1) &&
      (is_valid_ring ⟨false, false⟩ false (open_ring t.1) == t.2.2)) = true := by
  decide!

/-- The ring model gives, on each ring of `test_closed_rings`, the verdict the test
expects. -/
theorem closed_ring_corpus_verdicts :
    closed_ring_corpus.all (fun t =>
      (is_valid_ring ⟨true, true⟩ false (closed_ring t.1) == t.2.1) &&
      (is_valid_ring ⟨true, false⟩ false (closed_ring t.1) == t.2.1) &&
      (is_valid_ring ⟨false, true⟩ false (closed_ring t.1) == t.2.2) &&
      (is_valid_ring ⟨false, false⟩ false (closed_ring t.1) == t.2.2)) = true := by
  decide!

/-- The polygon model gives, on each polygon of `test_open_polygons`, the verdict the
test expects, with duplicates allowed and not allowed. -/
theorem open_polygon_corpus_verdicts :
    open_polygon_corpus.all (fun t =>
      (is_valid_polygon ⟨true, false⟩ ⟨open_ring t.1, t.2.1.map open_ring⟩ == t.2.2.1) &&
      (is_valid_polygon ⟨false, false⟩ ⟨open_ring t.1, t.2.1.map open_ring⟩ == t.2.2.2)) =
      true := by
  have h : open_polygon_corpus.all (fun t =>
      verdicts_agree (is_valid_polygon ⟨true, false⟩ ⟨open_ring t.1, t.2.1.map open_ring⟩)
        (Polygon.free_of_duplicates ⟨open_ring t.1, t.2.1.map open_ring⟩) t.2.2) = true := by
    decide!
  rw [List.all_eq_true] at h ⊢
  intro t ht
  rw [is_valid_polygon_strict]
  exact verdicts_of_agree _ _ _ (h t ht)

end IsValid

namespace BoxInBox

/-! ## Relations between the range tests -/

/-- C25, as stated, fails in `double` arithmetic: the outer range [-1, 1] is narrower
than the inner range [-1, 1 + 2^-52], but both widths are computed as 2 and the
spherical within and covered_by tests return true. -/
theorem narrower_outer_false_counterexample :
    ¬ ((1 : ℚ) - -1 < (1 + 1 / 2 ^ 52) - -1 →
      box_within_range_spherical.apply_rounded round_double (-1) (1 + 1 / 2 ^ 52) (-1) 1 =
        false ∧
      box_covered_by_range_spherical.apply_rounded round_double (-1) (1 + 1 / 2 ^ 52) (-1) 1 =
        false) := by
  intro h
  have hfalse := (h (by norm_num)).1
  have htrue : box_within_range_spherical.apply_rounded round_double (-1) (1 + 1 / 2 ^ 52)
      (-1) 1 = true := by
    decide!
  rw [htrue] at hfalse
  exact Bool.noConfusion hfalse

/-- C25, amended: for the spherical dimension-0 range tests (within and covered_by),
every four longitudes and every rounding `fl` of the coordinate arithmetic, if the
width computed for the outer range is smaller than the width computed for the inner
range (`diff_ing < diff_ed`), the result is false; in exact arithmetic (`fl = id`) the
computed widths are `outer_max - outer_min` and `inner_max - inner_min`. -/
theorem narrower_outer_false (fl : ℚ → ℚ) (inner_min inner_max outer_min outer_max : ℚ)
    (hnarrow : fl (outer_max - outer_min) < fl (inner_max - inner_min)) :
    box_within_range_spherical.apply_rounded fl inner_min inner_max outer_min outer_max =
      false ∧
    box_covered_by_range_spherical.apply_rounded fl inner_min inner_max outer_min outer_max =
      false := by
  constructor
  · simp [box_within_range_spherical.apply_rounded, hnarrow]
  · simp [box_covered_by_range_spherical.apply_rounded, hnarrow]

/-- Witness of amended C25: the inner range [0, 20] and the outer range [0, 10], in exact
arithmetic, where the rounded tests are the exact ones. -/
theorem narrower_outer_false_witness :
    (10 : ℚ) - 0 < 20 - 0 ∧
    box_within_range_spherical.apply_rounded id 0 20 0 10 = false ∧
    box_covered_by_range_spherical.apply_rounded id 0 20 0 10 = false ∧
    box_within_range_spherical.apply 0 20 0 10 = false ∧
    box_covered_by_range_spherical.apply 0 20 0 10 = false :=
  ⟨by norm_num,
   (narrower_outer_false id 0 20 0 10 (by norm_num)).1,
   (narrower_outer_false id 0 20 0 10 (by norm_num)).2,
   by rw [← box_within_range_spherical_apply_rounded_id]
      exact (narrower_outer_false id 0 20 0 10 (by norm_num)).1,
   by rw [← box_covered_by_range_spherical_apply_rounded_id]
      exact (narrower_outer_false id 0 20 0 10 (by norm_num)).2⟩

/-- The spherical within test is the spherical covered_by test together with a non-zero
width of the inner range. -/
theorem box_within_range_spherical_apply_iff (a b c d : ℚ) :
    box_within_range_spherical.apply a b c d = true ↔
      box_covered_by_range_spherical.apply a b c d = true ∧ b - a ≠ 0 := by
  unfold box_within_range_spherical.apply box_covered_by_range_spherical.apply
  by_cases h0 : b - a = 0
  · simp [h0]
  · by_cases hw : d - c < b - a
    · simp [h0, hw]
    · simp [h0, hw]

/-- C26: for every four longitudes, the spherical dimension-0 within test is true exactly
when the spherical dimension-0 covered_by test is true and the inner range has non-zero
width; a zero-width inner range is within no outer range, whatever the outer range. -/
theorem within_iff_covered_by_and_width (inner_min inner_max outer_min outer_max v : ℚ) :
    (box_within_range_spherical.apply inner_min inner_max outer_min outer_max = true ↔
      box_covered_by_range_spherical.apply inner_min inner_max outer_min outer_max = true ∧
        inner_max - inner_min ≠ 0) ∧
    box_within_range_spherical.apply v v outer_min outer_max = false := by
  refine ⟨box_within_range_spherical_apply_iff _ _ _ _, ?_⟩
  simp [box_within_range_spherical.apply]

/-- The within range test selected for a dimension and a tag. -/
theorem box_within_range_select (Dimension : Nat) (cs_tag : CSTag) :
    box_within_range Dimension cs_tag =
      (if Dimension = 0 ∧ cs_tag = CSTag.spherical_tag
        then box_within_range_spherical.apply else box_within_range.apply) := by
  cases Dimension <;> cases cs_tag <;> simp [box_within_range]

/-- The covered_by range test selected for a dimension and a tag. -/
theorem box_covered_by_range_select (Dimension : Nat) (cs_tag : CSTag) :
    box_covered_by_range Dimension cs_tag =
      (if Dimension = 0 ∧ cs_tag = CSTag.spherical_tag
        then box_covered_by_range_spherical.apply else box_covered_by_range.apply) := by
  cases Dimension <;> cases cs_tag <;> simp [box_covered_by_range]

/-- The range test of within implies the range test of covered_by, in every dimension
and under every tag. -/
theorem box_covered_by_range_of_within (Dimension : Nat) (cs_tag : CSTag) (a b c d : ℚ)
    (h : box_within_range Dimension cs_tag a b c d = true) :
    box_covered_by_range Dimension cs_tag a b c d = true := by
  rw [box_within_range_select] at h
  rw [box_covered_by_range_select]
  by_cases hsel : Dimension = 0 ∧ cs_tag = CSTag.spherical_tag
  · simp only [hsel, and_self, if_true] at h ⊢
    exact ((box_within_range_spherical_apply_iff a b c d).mp h).1
  · simp only [hsel, if_false] at h ⊢
    simp only [box_within_range.apply, Bool.and_eq_true, decide_eq_true_eq] at h
    simp [box_covered_by_range.apply, h.1.1, h.1.2]

/-- C27: within implies covered_by: for every pair of boxes of equal dimension and every
coordinate-system tag (planar, spherical, geographic), if `box_in_box` with the within
sub-strategy returns true, so does `box_in_box` with the covered_by sub-strategy. -/
theorem within_implies_covered_by (cs : CSTag) {D : Nat} (inner outer : Box D)
    (h : box_in_box.apply box_within_range cs inner outer = true) :
    box_in_box.apply box_covered_by_range cs inner outer = true := by
  rw [box_in_box_apply_eq_true_iff] at h ⊢
  intro d
  exact box_covered_by_range_of_within d.val (tag_cast cs) _ _ _ _ (h d)

/-- The box `BOX(0 0,1 1)` is within itself under every tag. -/
theorem unitBox_within_self (cs : CSTag) :
    box_in_box.apply box_within_range cs unitBox unitBox = true := by
  rw [box_in_box_apply_eq_true_iff]
  intro d
  exact box_within_range_self d.val (tag_cast cs) _ _ (unitBox_nondegenerate d)

/-- Witness of C27: `BOX(0 0,1 1)` within itself under the geographic tag. -/
theorem within_implies_covered_by_witness :
    box_in_box.apply box_within_range CSTag.geographic_tag unitBox unitBox = true ∧
    box_in_box.apply box_covered_by_range CSTag.geographic_tag unitBox unitBox = true :=
  ⟨unitBox_within_self CSTag.geographic_tag,
    within_implies_covered_by CSTag.geographic_tag unitBox unitBox
      (unitBox_within_self CSTag.geographic_tag)⟩

end BoxInBox

namespace BoxInBox

/-! ## Periodicity and normalised ranges -/

/-- The positive translation of a longitude difference, as a value of [0, 360) congruent
to it modulo 360. -/
theorem exists_positive_translation (x : ℚ) :
    ∃ (off : ℚ) (k : ℤ), 0 ≤ off ∧ off < 360 ∧ x - off = 360 * k := by
  obtain ⟨h0, h1, k, hk⟩ := positive_translation_spec x
  exact ⟨_, k, h0, h1, hk⟩

/-- The spherical covered_by test is unchanged by whole periods added to the inner and
to the outer range. -/
theorem box_covered_by_range_spherical_apply_shift (a b c d : ℚ) (k m : ℤ) :
    box_covered_by_range_spherical.apply (a + 360 * k) (b + 360 * k) (c + 360 * m)
      (d + 360 * m) = box_covered_by_range_spherical.apply a b c d := by
  obtain ⟨off, j, h0, h1, hj⟩ := exists_positive_translation (a - c)
  rw [box_covered_by_range_spherical_apply_eq a b c d off j h0 h1 hj,
    box_covered_by_range_spherical_apply_eq (a + 360 * k) (b + 360 * k) (c + 360 * m)
      (d + 360 * m) off (j + k - m) h0 h1 (by push_cast; linarith)]
  have e1 : d + 360 * (m : ℚ) - (c + 360 * m) = d - c := by ring
  have e2 : b + 360 * (k : ℚ) - (a + 360 * k) = b - a := by ring
  have e3 : (c + 360 * (m : ℚ) + off + (b - a) ≤ d + 360 * m) ↔ (c + off + (b - a) ≤ d) := by
    constructor <;> intro h <;> linarith
  simp only [e1, e2, e3]

/-- The spherical within test is unchanged by whole periods added to the inner and to
the outer range. -/
theorem box_within_range_spherical_apply_shift (a b c d : ℚ) (k m : ℤ) :
    box_within_range_spherical.apply (a + 360 * k) (b + 360 * k) (c + 360 * m)
      (d + 360 * m) = box_within_range_spherical.apply a b c d := by
  rw [Bool.eq_iff_iff, box_within_range_spherical_apply_iff, box_within_range_spherical_apply_iff,
    box_covered_by_range_spherical_apply_shift]
  have e2 : b + 360 * (k : ℚ) - (a + 360 * k) = b - a := by ring
  rw [e2]

/-- C28: periodicity of the longitude test: for every four longitudes in degrees and
every integer k, adding 360·k to both ends of the inner range, or to both ends of the
outer range, leaves the result of the spherical dimension-0 within test and of the
covered_by test unchanged. -/
theorem longitude_test_periodic (inner_min inner_max outer_min outer_max : ℚ) (k : ℤ) :
    (box_within_range_spherical.apply (inner_min + 360 * k) (inner_max + 360 * k)
        outer_min outer_max =
      box_within_range_spherical.apply inner_min inner_max outer_min outer_max) ∧
    (box_within_range_spherical.apply inner_min inner_max (outer_min + 360 * k)
        (outer_max + 360 * k) =
      box_within_range_spherical.apply inner_min inner_max outer_min outer_max) ∧
    (box_covered_by_range_spherical.apply (inner_min + 360 * k) (inner_max + 360 * k)
        outer_min outer_max =
      box_covered_by_range_spherical.apply inner_min inner_max outer_min outer_max) ∧
    (box_covered_by_range_spherical.apply inner_min inner_max (outer_min + 360 * k)
        (outer_max + 360 * k) =
      box_covered_by_range_spherical.apply inner_min inner_max outer_min outer_max) := by
  have w1 := box_within_range_spherical_apply_shift inner_min inner_max outer_min outer_max k 0
  have w2 := box_within_range_spherical_apply_shift inner_min inner_max outer_min outer_max 0 k
  have c1 := box_covered_by_range_spherical_apply_shift inner_min inner_max outer_min
    outer_max k 0
  have c2 := box_covered_by_range_spherical_apply_shift inner_min inner_max outer_min
    outer_max 0 k
  simp only [Int.cast_zero, mul_zero, add_zero] at w1 w2 c1 c2
  exact ⟨w1, w2, c1, c2⟩

/-- The spherical covered_by test is true on an inner range that lies, as planar ranges
do, between the ends of the outer range. -/
theorem box_covered_by_range_spherical_of_planar (a b c d : ℚ) (hab : a ≤ b)
    (hca : c ≤ a) (hbd : b ≤ d) :
    box_covered_by_range_spherical.apply a b c d = true := by
  have hw : ¬ (d - c < b - a) := by linarith
  by_cases hfull : (360 : ℚ) ≤ d - c
  · simp [box_covered_by_range_spherical.apply, math.smaller, period, hw, hfull]
  · rw [box_covered_by_range_spherical_apply_eq a b c d (a - c) 0 (by linarith) (by linarith)
      (by push_cast; ring)]
    simp [hw, hfull, hbd]

/-- On normalised longitude ranges with an inner range of positive width, the spherical
covered_by test is true exactly when the inner range lies between the ends of the outer
range. -/
theorem box_covered_by_range_spherical_normalised (a b c d : ℚ)
    (ha : -180 ≤ a) (hab : a < b) (hb : b ≤ 180) (hc : -180 ≤ c) (hd : d ≤ 180) :
    box_covered_by_range_spherical.apply a b c d = true ↔ c ≤ a ∧ b ≤ d := by
  constructor
  · intro h
    by_cases hca : c ≤ a
    · refine ⟨hca, ?_⟩
      by_cases hfull : (360 : ℚ) ≤ d - c
      · linarith
      · rw [box_covered_by_range_spherical_apply_eq a b c d (a - c) 0 (by linarith)
          (by linarith) (by push_cast; ring)] at h
        by_cases hw : d - c < b - a
        · simp [hw] at h
        · simp only [hw, hfull, if_false, decide_eq_true_eq] at h
          linarith
    · exfalso
      have hac : a < c := not_le.mp hca
      by_cases hw : d - c < b - a
      · simp [box_covered_by_range_spherical.apply, hw] at h
      · have hfull : ¬ ((360 : ℚ) ≤ d - c) := by
          intro hf
          linarith
        rw [box_covered_by_range_spherical_apply_eq a b c d (a - c + 360) (-1)
          (by linarith) (by linarith) (by push_cast; ring)] at h
        simp only [hw, hfull, if_false, decide_eq_true_eq] at h
        linarith
  · rintro ⟨hca, hbd⟩
    exact box_covered_by_range_spherical_of_planar a b c d (le_of_lt hab) hca hbd

/-- C29, as stated, fails in `double` arithmetic, both ways: for the range [-180, -63.6]
against itself the planar within test is true and the spherical one false (the inner
maximum is recomputed as `-63.599999999999994`); for the inner range [-1, 1 + 2^-52] in
the outer range [-1, 1] the planar test is false and the spherical one true (both
widths are computed as 2). -/
theorem spherical_within_eq_planar_counterexample :
    ¬ ((-180 : ℚ) ≤ -180 → (-180 : ℚ) ≤ round_double (-63.6) → round_double (-63.6) ≤ 180 →
        (-180 : ℚ) ≤ -180 → (-180 : ℚ) ≤ round_double (-63.6) → round_double (-63.6) ≤ 180 →
      box_within_range_spherical.apply_rounded round_double
          (-180) (round_double (-63.6)) (-180) (round_double (-63.6)) =
        box_within_range.apply (-180) (round_double (-63.6)) (-180) (round_double (-63.6))) ∧
    ¬ ((-180 : ℚ) ≤ -1 → (-1 : ℚ) ≤ 1 + 1 / 2 ^ 52 → (1 : ℚ) + 1 / 2 ^ 52 ≤ 180 →
        (-180 : ℚ) ≤ -1 → (-1 : ℚ) ≤ 1 → (1 : ℚ) ≤ 180 →
      box_within_range_spherical.apply_rounded round_double (-1) (1 + 1 / 2 ^ 52) (-1) 1 =
        box_within_range.apply (-1 : ℚ) (1 + 1 / 2 ^ 52) (-1) 1) := by
  constructor
  · intro h
    have heq := h (by decide!) (by decide!) (by decide!) (by decide!) (by decide!) (by decide!)
    have hne : box_within_range_spherical.apply_rounded round_double
          (-180) (round_double (-63.6)) (-180) (round_double (-63.6)) ≠
        box_within_range.apply (-180) (round_double (-63.6)) (-180) (round_double (-63.6)) := by
      decide!
    exact hne heq
  · intro h
    have heq := h (by decide!) (by decide!) (by decide!) (by decide!) (by decide!) (by decide!)
    have hne : box_within_range_spherical.apply_rounded round_double (-1) (1 + 1 / 2 ^ 52)
          (-1) 1 ≠ box_within_range.apply (-1 : ℚ) (1 + 1 / 2 ^ 52) (-1) 1 := by
      decide!
    exact hne heq

/-- C29, amended: in exact arithmetic, on normalised longitude ranges the spherical
within test agrees with the planar one: for `-180 ≤ inner_min ≤ inner_max ≤ 180` and
`-180 ≤ outer_min ≤ outer_max ≤ 180` the spherical dimension-0 within range test returns
what the planar within range test returns. -/
theorem spherical_within_eq_planar (inner_min inner_max outer_min outer_max : ℚ)
    (h1 : -180 ≤ inner_min) (h2 : inner_min ≤ inner_max) (h3 : inner_max ≤ 180)
    (h4 : -180 ≤ outer_min) (h5 : outer_min ≤ outer_max) (h6 : outer_max ≤ 180) :
    box_within_range_spherical.apply inner_min inner_max outer_min outer_max =
      box_within_range.apply inner_min inner_max outer_min outer_max := by
  have _hordered := h5
  rw [Bool.eq_iff_iff, box_within_range_spherical_apply_iff]
  simp only [box_within_range.apply, Bool.and_eq_true, decide_eq_true_eq]
  by_cases hlt : inner_min < inner_max
  · rw [box_covered_by_range_spherical_normalised _ _ _ _ h1 hlt h3 h4 h6]
    constructor
    · rintro ⟨⟨hca, hbd⟩, _⟩
      exact ⟨⟨hca, hbd⟩, hlt⟩
    · rintro ⟨⟨hca, hbd⟩, _⟩
      exact ⟨⟨hca, hbd⟩, by intro h0; linarith⟩
  · have heq : inner_max - inner_min = 0 := by linarith
    constructor
    · rintro ⟨_, hne⟩
      exact absurd heq hne
    · rintro ⟨_, h⟩
      exact absurd h hlt

/-- Witness of amended C29: the inner range [10, 20] and the outer range [0, 30]. -/
theorem spherical_within_eq_planar_witness :
    box_within_range_spherical.apply 10 20 0 30 =
      box_within_range.apply (10 : ℚ) 20 0 30 :=
  spherical_within_eq_planar 10 20 0 30 (by norm_num) (by norm_num) (by norm_num)
    (by norm_num) (by norm_num) (by norm_num)

/-- C30, as stated, fails in `double` arithmetic: the range [-180, -63.6] is covered by
itself under the planar test, but the spherical covered_by test recomputes the inner
maximum as `-63.599999999999994`, above `-63.6`, and returns false. -/
theorem planar_covered_implies_spherical_counterexample :
    ¬ ((-180 : ℚ) ≤ -180 → (-180 : ℚ) ≤ round_double (-63.6) → round_double (-63.6) ≤ 180 →
        (-180 : ℚ) ≤ -180 → (-180 : ℚ) ≤ round_double (-63.6) → round_double (-63.6) ≤ 180 →
        box_covered_by_range.apply (-180) (round_double (-63.6)) (-180) (round_double (-63.6)) =
          true →
      box_covered_by_range_spherical.apply_rounded round_double
        (-180) (round_double (-63.6)) (-180) (round_double (-63.6)) = true) := by
  intro h
  have htrue := h (by decide!) (by decide!) (by decide!) (by decide!) (by decide!) (by decide!)
    (by decide!)
  have hfalse : box_covered_by_range_spherical.apply_rounded round_double
      (-180) (round_double (-63.6)) (-180) (round_double (-63.6)) = false := by
    decide!
  rw [hfalse] at htrue
  exact Bool.noConfusion htrue

/-- C30, amended: in exact arithmetic, on normalised longitude ranges planar coverage
implies spherical coverage: for `-180 ≤ inner_min ≤ inner_max ≤ 180` and
`-180 ≤ outer_min ≤ outer_max ≤ 180`, if the planar covered_by range test is true then
the spherical dimension-0 covered_by range test is true. -/
theorem planar_covered_implies_spherical (inner_min inner_max outer_min outer_max : ℚ)
    (h1 : -180 ≤ inner_min) (h2 : inner_min ≤ inner_max) (h3 : inner_max ≤ 180)
    (h4 : -180 ≤ outer_min) (h5 : outer_min ≤ outer_max) (h6 : outer_max ≤ 180)
    (hplanar : box_covered_by_range.apply inner_min inner_max outer_min outer_max = true) :
    box_covered_by_range_spherical.apply inner_min inner_max outer_min outer_max = true := by
  have _hbounds := And.intro (And.intro h1 h3) (And.intro (And.intro h4 h5) h6)
  simp only [box_covered_by_range.apply, Bool.and_eq_true, decide_eq_true_eq, ge_iff_le]
    at hplanar
  exact box_covered_by_range_spherical_of_planar _ _ _ _ h2 hplanar.1 hplanar.2

/-- Witness of amended C30: the inner range [10, 20] and the outer range [0, 30]. -/
theorem planar_covered_implies_spherical_witness :
    box_covered_by_range.apply (10 : ℚ) 20 0 30 = true ∧
    box_covered_by_range_spherical.apply 10 20 0 30 = true :=
  ⟨by decide!, planar_covered_implies_spherical 10 20 0 30 (by norm_num) (by norm_num)
    (by norm_num) (by norm_num) (by norm_num) (by norm_num) (by decide!)⟩

end BoxInBox

namespace IsValid

/-! ## Holes against the exterior ring -/

/-- Two edges that share a segment of positive length cross or overlap. -/
theorem crosses_or_overlaps_of_shared (e f : Segment)
    (h : relate e f = Relation.Identical ∨ ∃ r, relate e f = Relation.CollinearOverlap r) :
    (relate e f).crosses_or_overlaps = true := by
  rcases h with h | ⟨r, h⟩ <;> rw [h] <;> rfl

/-- Two lists of edges cross or overlap as soon as one edge of each does. -/
theorem edges_cross_or_overlap_of_mem (es fs : List Segment) (e f : Segment)
    (he : e ∈ es) (hf : f ∈ fs) (h : (relate e f).crosses_or_overlaps = true) :
    edges_cross_or_overlap es fs = true := by
  unfold edges_cross_or_overlap
  rw [List.any_eq_true]
  refine ⟨e, he, ?_⟩
  rw [List.any_eq_true]
  exact ⟨f, hf, h⟩

/-- A list with two distinct members has at least two elements. -/
theorem two_le_length_of_mem {α : Type} (l : List α) (a b : α) (ha : a ∈ l) (hb : b ∈ l)
    (hab : a ≠ b) : 2 ≤ l.length := by
  match l, ha, hb with
  | [], ha, _ => exact absurd ha (List.not_mem_nil _)
  | [x], ha, hb =>
    simp at ha hb
    exact absurd (ha.trans hb.symm) hab
  | _ :: _ :: _, _, _ => simp

/-- Every member of a list is paired with an index in the zip with the range of its
length. -/
theorem exists_index_zip_range {α : Type} (l : List α) (x : α) (hx : x ∈ l) :
    ∃ j : Nat, (j, x) ∈ (List.range l.length).zip l := by
  obtain ⟨i, hi, rfl⟩ := List.mem_iff_getElem.mp hx
  refine ⟨i, ?_⟩
  rw [List.mem_iff_getElem]
  refine ⟨i, by simp [hi], ?_⟩
  simp

/-- A hole and the exterior are joined in the touching graph to each point at which
they touch, the hole under one and the same number. -/
theorem mem_touch_graph_of_hole (pg : Polygon) (h : LinearRing) (hh : h ∈ pg.inners) :
    ∃ j : Nat, ∀ p ∈ touch_points pg.outer h,
      (0, p) ∈ touch_graph pg ∧ (1 + j, p) ∈ touch_graph pg := by
  obtain ⟨j, hj⟩ := exists_index_zip_range pg.inners h hh
  refine ⟨j, fun p hp => ?_⟩
  unfold touch_graph
  rw [List.mem_dedup, List.mem_dedup]
  unfold touch_graph_from
  constructor
  · apply List.mem_append_left
    rw [List.mem_flatMap]
    refine ⟨(j, h), hj, ?_⟩
    rw [List.mem_flatMap]
    exact ⟨p, hp, by simp⟩
  · apply List.mem_append_left
    rw [List.mem_flatMap]
    refine ⟨(j, h), hj, ?_⟩
    rw [List.mem_flatMap]
    exact ⟨p, hp, by simp [Nat.add_comm]⟩

/-- Leaf removal keeps every edge of a part of the graph in which each edge has another
edge at its ring and another edge at its point. -/
theorem strip_leaves_keeps (g c : List (Nat × Point)) (hsub : ∀ e ∈ c, e ∈ g)
    (hring : ∀ e ∈ c, ∃ e1 ∈ c, e1 ≠ e ∧ e1.1 = e.1)
    (hpoint : ∀ e ∈ c, ∃ e2 ∈ c, e2 ≠ e ∧ e2.2 = e.2) :
    ∀ e ∈ c, e ∈ strip_leaves g := by
  intro e he
  unfold strip_leaves
  rw [List.mem_filter]
  refine ⟨hsub e he, ?_⟩
  obtain ⟨e1, he1, hne1, h1⟩ := hring e he
  obtain ⟨e2, he2, hne2, h2⟩ := hpoint e he
  have hr : 2 ≤ (g.filter fun f => decide (f.1 = e.1)).length :=
    two_le_length_of_mem _ e1 e
      (List.mem_filter.mpr ⟨hsub e1 he1, by simp [h1]⟩)
      (List.mem_filter.mpr ⟨hsub e he, by simp⟩) hne1
  have hp : 2 ≤ (g.filter fun f => decide (f.2 = e.2)).length :=
    two_le_length_of_mem _ e2 e
      (List.mem_filter.mpr ⟨hsub e2 he2, by simp [h2]⟩)
      (List.mem_filter.mpr ⟨hsub e he, by simp⟩) hne2
  simp [hr, hp]

/-- Such a part of the graph survives every number of rounds of leaf removal. -/
theorem strip_leaves_iter_keeps (c : List (Nat × Point))
    (hring : ∀ e ∈ c, ∃ e1 ∈ c, e1 ≠ e ∧ e1.1 = e.1)
    (hpoint : ∀ e ∈ c, ∃ e2 ∈ c, e2 ≠ e ∧ e2.2 = e.2) :
    ∀ (fuel : Nat) (g : List (Nat × Point)), (∀ e ∈ c, e ∈ g) →
      ∀ e ∈ c, e ∈ strip_leaves_iter fuel g := by
  intro fuel
  induction fuel with
  | zero => exact fun g hsub => hsub
  | succ n ih =>
    intro g hsub
    exact ih (strip_leaves g) (strip_leaves_keeps g c hsub hring hpoint)

/-- A polygon with a hole that touches the exterior at two distinct points has no
connected interior. -/
theorem not_interior_connected_of_two_touches (pg : Polygon) (h : LinearRing)
    (hh : h ∈ pg.inners) (p q : Point) (hp : p ∈ touch_points pg.outer h)
    (hq : q ∈ touch_points pg.outer h) (hpq : p ≠ q) : interior_connected pg = false := by
  obtain ⟨j, hj⟩ := mem_touch_graph_of_hole pg h hh
  have hsub : ∀ e ∈ [(0, p), (1 + j, p), (0, q), (1 + j, q)], e ∈ touch_graph pg := by
    intro e he
    simp only [List.mem_cons, List.mem_singleton, List.not_mem_nil, or_false] at he
    rcases he with rfl | rfl | rfl | rfl
    · exact (hj p hp).1
    · exact (hj p hp).2
    · exact (hj q hq).1
    · exact (hj q hq).2
  have hqp : q ≠ p := fun h0 => hpq h0.symm
  have hring : ∀ e ∈ [(0, p), (1 + j, p), (0, q), (1 + j, q)],
      ∃ e1 ∈ [(0, p), (1 + j, p), (0, q), (1 + j, q)], e1 ≠ e ∧ e1.1 = e.1 := by
    intro e he
    simp only [List.mem_cons, List.mem_singleton, List.not_mem_nil, or_false] at he
    rcases he with rfl | rfl | rfl | rfl
    · exact ⟨(0, q), by simp, by simp [hqp], rfl⟩
    · exact ⟨(1 + j, q), by simp, by simp [hqp], rfl⟩
    · exact ⟨(0, p), by simp, by simp [hpq], rfl⟩
    · exact ⟨(1 + j, p), by simp, by simp [hpq], rfl⟩
  have hpoint : ∀ e ∈ [(0, p), (1 + j, p), (0, q), (1 + j, q)],
      ∃ e2 ∈ [(0, p), (1 + j, p), (0, q), (1 + j, q)], e2 ≠ e ∧ e2.2 = e.2 := by
    intro e he
    simp only [List.mem_cons, List.mem_singleton, List.not_mem_nil, or_false] at he
    rcases he with rfl | rfl | rfl | rfl
    · exact ⟨(1 + j, p), by simp, by simp, rfl⟩
    · exact ⟨(0, p), by simp, by simp; omega, rfl⟩
    · exact ⟨(1 + j, q), by simp, by simp, rfl⟩
    · exact ⟨(0, q), by simp, by simp; omega, rfl⟩
  have hkeep := strip_leaves_iter_keeps _ hring hpoint (touch_graph pg).length
    (touch_graph pg) hsub (0, p) (by simp)
  unfold interior_connected
  cases hg : strip_leaves_iter (touch_graph pg).length (touch_graph pg) with
  | nil =>
    rw [hg] at hkeep
    exact absurd hkeep (List.not_mem_nil _)
  | cons a t => rfl

/-- C21: a polygon in which a hole shares a boundary segment of positive length with
the exterior ring is invalid under every validation configuration, and so is a polygon
with a hole that touches the exterior at two distinct points. -/
theorem polygon_hole_sharing_boundary_invalid (cfg : ValidationConfig) (pg : Polygon) :
    (∀ h ∈ pg.inners, ∀ e ∈ h.edges, ∀ f ∈ pg.outer.edges,
      (relate e f = Relation.Identical ∨ ∃ r, relate e f = Relation.CollinearOverlap r) →
        is_valid_polygon cfg pg = false) ∧
    (∀ h ∈ pg.inners, ∀ p ∈ touch_points pg.outer h, ∀ q ∈ touch_points pg.outer h,
      p ≠ q → is_valid_polygon cfg pg = false) := by
  constructor
  · intro h hh e he f hf hshare
    have hx := edges_cross_or_overlap_of_mem h.edges pg.outer.edges e f he hf
      (crosses_or_overlaps_of_shared e f hshare)
    have hhole : hole_within_exterior pg.outer h = false := by
      simp [hole_within_exterior, hx]
    have hall : pg.inners.all (hole_within_exterior pg.outer) = false := by
      rw [List.all_eq_false]
      exact ⟨h, hh, by simp [hhole]⟩
    simp [is_valid_polygon, hall]
  · intro h hh p hp q hq hpq
    have hc := not_interior_connected_of_two_touches pg h hh p q hp hq hpq
    simp [is_valid_polygon, hc]

/-- Witness of C21: in pg045 the edge `(1 10,2 10)` of the hole lies on the edge
`(10 10,0 10)` of the exterior; in pg060 the hole touches the exterior at `(5 0)` and
at `(0 5)`; both polygons are invalid, duplicates allowed or not. -/
theorem polygon_hole_sharing_boundary_invalid_witness :
    relate ⟨⟨1, 10⟩, ⟨2, 10⟩⟩ ⟨⟨10, 10⟩, ⟨0, 10⟩⟩ =
      Relation.CollinearOverlap ⟨⟨1, 10⟩, ⟨2, 10⟩⟩ ∧
    is_valid_polygon ⟨true, false⟩ polygon_pg045 = false ∧
    is_valid_polygon ⟨false, false⟩ polygon_pg045 = false ∧
    touch_points ring_square10 (open_ring [⟨5, 0⟩, ⟨0, 5⟩, ⟨5, 5⟩]) = [⟨5, 0⟩, ⟨0, 5⟩] ∧
    is_valid_polygon ⟨true, false⟩ polygon_pg060 = false ∧
    is_valid_polygon ⟨false, false⟩ polygon_pg060 = false :=
  ⟨by decide!,
   (polygon_hole_sharing_boundary_invalid ⟨true, false⟩ polygon_pg045).1
     (open_ring [⟨1, 1⟩, ⟨1, 10⟩, ⟨2, 10⟩, ⟨2, 1⟩]) (by decide!)
     ⟨⟨1, 10⟩, ⟨2, 10⟩⟩ (by decide!) ⟨⟨10, 10⟩, ⟨0, 10⟩⟩ (by decide!)
     (Or.inr ⟨⟨⟨1, 10⟩, ⟨2, 10⟩⟩, by decide!⟩),
   (polygon_hole_sharing_boundary_invalid ⟨false, false⟩ polygon_pg045).1
     (open_ring [⟨1, 1⟩, ⟨1, 10⟩, ⟨2, 10⟩, ⟨2, 1⟩]) (by decide!)
     ⟨⟨1, 10⟩, ⟨2, 10⟩⟩ (by decide!) ⟨⟨10, 10⟩, ⟨0, 10⟩⟩ (by decide!)
     (Or.inr ⟨⟨⟨1, 10⟩, ⟨2, 10⟩⟩, by decide!⟩),
   by decide!,
   (polygon_hole_sharing_boundary_invalid ⟨true, false⟩ polygon_pg060).2
     (open_ring [⟨5, 0⟩, ⟨0, 5⟩, ⟨5, 5⟩]) (by decide!) ⟨5, 0⟩ (by decide!) ⟨0, 5⟩ (by decide!)
     (by decide!),
   (polygon_hole_sharing_boundary_invalid ⟨false, false⟩ polygon_pg060).2
     (open_ring [⟨5, 0⟩, ⟨0, 5⟩, ⟨5, 5⟩]) (by decide!) ⟨5, 0⟩ (by decide!) ⟨0, 5⟩ (by decide!)
     (by decide!)⟩

end IsValid

namespace IsValid

/-! ## Validity of multi-polygons -/

/-- A multi-polygon with an invalid polygon is invalid. -/
theorem multipolygon_invalid_of_mem (cfg : ValidationConfig) (mp : List Polygon)
    (pg : Polygon) (hmem : pg ∈ mp) (hpg : is_valid_polygon cfg pg = false) :
    is_valid_multipolygon cfg mp = false := by
  have hall : mp.all (is_valid_polygon cfg) = false := by
    rw [List.all_eq_false]
    exact ⟨pg, hmem, by simp [hpg]⟩
  simp [is_valid_multipolygon, hall]

/-- The validity of a multi-polygon of two polygons. -/
theorem is_valid_multipolygon_pair (cfg : ValidationConfig) (p q : Polygon) :
    is_valid_multipolygon cfg [p, q] =
      (is_valid_polygon cfg p && is_valid_polygon cfg q && polygons_compatible p q) := by
  simp [is_valid_multipolygon, polygons_pairwise_compatible]

/-- C22: the empty MultiPolygon is valid under every validation configuration, while a
MultiPolygon containing a polygon that is itself invalid is invalid; so are
`MULTIPOLYGON((()))`, `MULTIPOLYGON(((0 0)),(()))` and `MULTIPOLYGON(((0 0,1 0)))`. -/
theorem multipolygon_empty_and_invalid_member (cfg : ValidationConfig) :
    is_valid_multipolygon cfg [] = true ∧
    (∀ (mp : List Polygon) (pg : Polygon), pg ∈ mp → is_valid_polygon cfg pg = false →
      is_valid_multipolygon cfg mp = false) ∧
    is_valid_multipolygon cfg multipolygon_mpg02 = false ∧
    is_valid_multipolygon cfg multipolygon_mpg03 = false ∧
    is_valid_multipolygon cfg multipolygon_mpg04 = false := by
  refine ⟨rfl, fun mp pg hmem hpg => multipolygon_invalid_of_mem cfg mp pg hmem hpg, ?_, ?_, ?_⟩
  · obtain ⟨d, s⟩ := cfg
    cases d <;> cases s <;> decide!
  · obtain ⟨d, s⟩ := cfg
    cases d <;> cases s <;> decide!
  · obtain ⟨d, s⟩ := cfg
    cases d <;> cases s <;> decide!

/-- Witness of C22: `MULTIPOLYGON(((0 0,1 0)))` (mpg04) contains a polygon with a
two-point exterior ring, which is invalid with duplicates allowed. -/
theorem multipolygon_empty_and_invalid_member_witness :
    is_valid_polygon ⟨true, false⟩ ⟨open_ring [⟨0, 0⟩, ⟨1, 0⟩], []⟩ = false ∧
    is_valid_multipolygon ⟨true, false⟩ multipolygon_mpg04 = false :=
  ⟨by decide!,
   (multipolygon_empty_and_invalid_member ⟨true, false⟩).2.1 multipolygon_mpg04
     ⟨open_ring [⟨0, 0⟩, ⟨1, 0⟩], []⟩ (by decide!) (by decide!)⟩

/-- The first end of a segment lies on it. -/
theorem on_segment_first (a b : Point) : on_segment a b a = true := by
  have h : cross_product a b a = 0 := by
    unfold cross_product
    ring
  simp [on_segment, h]

/-- The second end of a segment lies on it. -/
theorem on_segment_second (a b : Point) : on_segment a b b = true := by
  have h : cross_product a b b = 0 := by
    unfold cross_product
    ring
  simp [on_segment, h]

/-- The point halfway between two points of a segment lies on the segment. -/
theorem on_segment_midpoint (s t a b : Point) (ha : on_segment s t a = true)
    (hb : on_segment s t b = true) : on_segment s t (midpoint a b) = true := by
  simp only [on_segment, Bool.and_eq_true, decide_eq_true_eq] at ha hb ⊢
  obtain ⟨⟨⟨⟨ha0, ha1⟩, ha2⟩, ha3⟩, ha4⟩ := ha
  obtain ⟨⟨⟨⟨hb0, hb1⟩, hb2⟩, hb3⟩, hb4⟩ := hb
  have hcross : cross_product s t (midpoint a b) =
      (cross_product s t a + cross_product s t b) / 2 := by
    simp only [cross_product, midpoint]
    ring
  refine ⟨⟨⟨⟨?_, ?_⟩, ?_⟩, ?_⟩, ?_⟩
  · rw [hcross, ha0, hb0]
    norm_num
  · show min s.x t.x ≤ (a.x + b.x) / 2
    linarith
  · show (a.x + b.x) / 2 ≤ max s.x t.x
    linarith
  · show min s.y t.y ≤ (a.y + b.y) / 2
    linarith
  · show (a.y + b.y) / 2 ≤ max s.y t.y
    linarith

/-- Every cut point of an edge lies on the edge. -/
theorem on_segment_of_mem_cut_points (e : Segment) (fs : List Segment) (c : Point)
    (hc : c ∈ cut_points e fs) : on_segment e.first e.second c = true := by
  unfold cut_points at hc
  rcases List.mem_cons.mp hc with rfl | hc
  · exact on_segment_first _ _
  · rcases List.mem_cons.mp hc with rfl | hc
    · exact on_segment_second _ _
    · exact (List.mem_filter.mp hc).2

/-- A point halfway between two points of a list is halfway between two of its
members. -/
theorem exists_of_mem_pair_midpoints (l : List Point) (m : Point)
    (hm : m ∈ pair_midpoints l) : ∃ a ∈ l, ∃ b ∈ l, m = midpoint a b := by
  induction l with
  | nil => simp [pair_midpoints] at hm
  | cons c rest ih =>
    simp only [pair_midpoints, List.mem_append, List.mem_map] at hm
    rcases hm with ⟨b, hb, rfl⟩ | hm
    · exact ⟨c, List.mem_cons_self _ _, b, List.mem_cons_of_mem _ hb, rfl⟩
    · obtain ⟨a, ha, b, hb, rfl⟩ := ih hm
      exact ⟨a, List.mem_cons_of_mem _ ha, b, List.mem_cons_of_mem _ hb, rfl⟩

/-- Every tested point of an edge lies on the edge. -/
theorem on_segment_of_mem_probes (e : Segment) (fs : List Segment) (m : Point)
    (hm : m ∈ probes e fs) : on_segment e.first e.second m = true := by
  unfold probes at hm
  rcases List.mem_cons.mp hm with rfl | hm
  · exact on_segment_first _ _
  · obtain ⟨a, ha, b, hb, rfl⟩ := exists_of_mem_pair_midpoints _ m hm
    exact on_segment_midpoint _ _ a b (on_segment_of_mem_cut_points e fs a ha)
      (on_segment_of_mem_cut_points e fs b hb)

/-- The first end of an edge is one of its tested points. -/
theorem first_mem_probes (e : Segment) (fs : List Segment) : e.first ∈ probes e fs := by
  unfold probes
  exact List.mem_cons_self _ _

/-- The boundary of `q` does not enter the interior of `p` when no point of the boundary
of `q` lies in the interior of `p`. -/
theorem not_boundary_enters (p q : Polygon)
    (hsep : ∀ x : Point, on_polygon_boundary q x = true → in_interior p x = false) :
    boundary_enters p q = false := by
  unfold boundary_enters
  rw [← Bool.not_eq_true, List.any_eq_true]
  rintro ⟨e, he, hany⟩
  obtain ⟨m, hm, hin⟩ := List.any_eq_true.mp hany
  have hon : on_polygon_boundary q m = true := by
    unfold on_polygon_boundary
    rw [List.any_eq_true]
    exact ⟨e, he, on_segment_of_mem_probes e _ m hm⟩
  rw [hsep m hon] at hin
  exact Bool.noConfusion hin

/-- Two lists of edges neither cross nor overlap when any two of their edges are
disjoint or touch at a point. -/
theorem not_edges_cross_or_overlap (es fs : List Segment) (v : Point)
    (h : ∀ e ∈ es, ∀ f ∈ fs,
      relate e f = Relation.Disjoint ∨ relate e f = Relation.TouchAtPoint v) :
    edges_cross_or_overlap es fs = false := by
  unfold edges_cross_or_overlap
  rw [← Bool.not_eq_true, List.any_eq_true]
  rintro ⟨e, he, hany⟩
  obtain ⟨f, hf, hx⟩ := List.any_eq_true.mp hany
  rcases h e he f hf with hrel | hrel <;> rw [hrel] at hx <;> exact Bool.noConfusion hx

/-- The first points of the edges of a cyclic sequence are the points of the sequence. -/
theorem map_first_zipWith (l m : List Point) (h : l.length ≤ m.length) :
    (List.zipWith Segment.mk l m).map Segment.first = l := by
  induction l generalizing m with
  | nil => simp
  | cons a t ih =>
    cases m with
    | nil => simp at h
    | cons b m2 =>
      simp only [List.zipWith_cons_cons, List.map_cons, List.cons.injEq, true_and]
      exact ih m2 (by simpa using h)

/-- Every point of a cyclic sequence is the first end of one of its edges. -/
theorem exists_edge_of_mem (l : List Point) (v : Point) (hv : v ∈ l) :
    ∃ e ∈ cyclic_edges l, e.first = v := by
  have hmap : (cyclic_edges l).map Segment.first = l := by
    unfold cyclic_edges
    apply map_first_zipWith
    cases l with
    | nil => simp
    | cons a t => simp
  rw [← hmap] at hv
  obtain ⟨e, he, hfirst⟩ := List.mem_map.mp hv
  exact ⟨e, he, hfirst⟩

/-- The boundary of `q` enters the interior of `p` when a vertex of the exterior ring of
`q` lies in the interior of `p`. -/
theorem boundary_enters_of_vertex (p q : Polygon) (v : Point) (hv : v ∈ q.outer.vertices)
    (hin : in_interior p v = true) : boundary_enters p q = true := by
  obtain ⟨e, he, hfirst⟩ := exists_edge_of_mem q.outer.vertices v hv
  unfold boundary_enters
  rw [List.any_eq_true]
  refine ⟨e, ?_, ?_⟩
  · simp only [Polygon.boundary, Polygon.rings, List.flatMap_cons, List.mem_append]
    exact Or.inl he
  · rw [List.any_eq_true]
    exact ⟨e.first, first_mem_probes e _, by rw [hfirst]; exact hin⟩

/-- The edges of the unit square. -/
theorem unit_square_edges :
    polygon_unit_square.outer.edges =
      [⟨⟨0, 0⟩, ⟨1, 0⟩⟩, ⟨⟨1, 0⟩, ⟨1, 1⟩⟩, ⟨⟨1, 1⟩, ⟨0, 1⟩⟩, ⟨⟨0, 1⟩, ⟨0, 0⟩⟩] := by
  decide!

/-- The edges of the shifted square. -/
theorem shifted_square_edges :
    polygon_shifted_square.outer.edges =
      [⟨⟨1, 1⟩, ⟨2, 1⟩⟩, ⟨⟨2, 1⟩, ⟨2, 2⟩⟩, ⟨⟨2, 2⟩, ⟨1, 2⟩⟩, ⟨⟨1, 2⟩, ⟨1, 1⟩⟩] := by
  decide!

/-- No point with `x ≥ 1` lies in the interior of the unit square. -/
theorem unit_square_interior_false (x : Point) (hx : 1 ≤ x.x) :
    in_interior polygon_unit_square x = false := by
  have h1 : ray_crosses x ⟨⟨0, 0⟩, ⟨1, 0⟩⟩ = false := by simp [ray_crosses]
  have h2 : ray_crosses x ⟨⟨1, 0⟩, ⟨1, 1⟩⟩ = false := by
    simp [ray_crosses]
    intro _
    linarith
  have h3 : ray_crosses x ⟨⟨1, 1⟩, ⟨0, 1⟩⟩ = false := by simp [ray_crosses]
  have h4 : ray_crosses x ⟨⟨0, 1⟩, ⟨0, 0⟩⟩ = false := by
    simp [ray_crosses]
    intro _
    linarith
  simp [in_interior, strictly_inside, unit_square_edges, List.filter, h1, h2, h3, h4]

/-- The boundary of the shifted square lies in the quadrant `x ≥ 1`, `y ≥ 1`. -/
theorem shifted_square_boundary (x : Point)
    (h : on_polygon_boundary polygon_shifted_square x = true) : 1 ≤ x.x ∧ 1 ≤ x.y := by
  have hb : polygon_shifted_square.boundary = polygon_shifted_square.outer.edges := by
    simp [Polygon.boundary, Polygon.rings, polygon_shifted_square]
  unfold on_polygon_boundary at h
  rw [hb, shifted_square_edges] at h
  simp only [on_segment, List.any_cons, List.any_nil, Bool.or_false, Bool.or_eq_true,
    Bool.and_eq_true, decide_eq_true_eq, min_le_iff, le_max_iff] at h
  rcases h with h | h | h | h <;> obtain ⟨⟨⟨⟨_, h1⟩, _⟩, h3⟩, _⟩ := h <;> constructor <;>
    rcases h1 with h1 | h1 <;> rcases h3 with h3 | h3 <;> linarith

/-- The boundary of the unit square lies in the quadrant `x ≤ 1`, `y ≤ 1`. -/
theorem unit_square_boundary (x : Point)
    (h : on_polygon_boundary polygon_unit_square x = true) : x.x ≤ 1 ∧ x.y ≤ 1 := by
  have hb : polygon_unit_square.boundary = polygon_unit_square.outer.edges := by
    simp [Polygon.boundary, Polygon.rings, polygon_unit_square]
  unfold on_polygon_boundary at h
  rw [hb, unit_square_edges] at h
  simp only [on_segment, List.any_cons, List.any_nil, Bool.or_false, Bool.or_eq_true,
    Bool.and_eq_true, decide_eq_true_eq, min_le_iff, le_max_iff] at h
  rcases h with h | h | h | h <;> obtain ⟨⟨⟨_, h2⟩, _⟩, h4⟩ := h <;> constructor <;>
    rcases h2 with h2 | h2 <;> rcases h4 with h4 | h4 <;> linarith

/-- No point with `x ≤ 1` and `y ≤ 1` lies in the interior of the shifted square. -/
theorem shifted_square_interior_false (x : Point) (hx : x.x ≤ 1) (hy : x.y ≤ 1) :
    in_interior polygon_shifted_square x = false := by
  have h1 : ray_crosses x ⟨⟨1, 1⟩, ⟨2, 1⟩⟩ = false := by simp [ray_crosses]
  have h3 : ray_crosses x ⟨⟨2, 2⟩, ⟨1, 2⟩⟩ = false := by simp [ray_crosses]
  by_cases hy1 : x.y < 1
  · have hy2 : x.y < 2 := by linarith
    have h2 : ray_crosses x ⟨⟨2, 1⟩, ⟨2, 2⟩⟩ = false := by simp [ray_crosses, hy1, hy2]
    have h4 : ray_crosses x ⟨⟨1, 2⟩, ⟨1, 1⟩⟩ = false := by simp [ray_crosses, hy1, hy2]
    simp [in_interior, strictly_inside, shifted_square_edges, List.filter, h1, h2, h3, h4]
  · have hy' : x.y = 1 := le_antisymm hy (not_lt.mp hy1)
    by_cases hx1 : x.x < 1
    · have hx2 : x.x < 2 := by linarith
      have h2 : ray_crosses x ⟨⟨2, 1⟩, ⟨2, 2⟩⟩ = true := by simp [ray_crosses, hy', hx2]
      have h4 : ray_crosses x ⟨⟨1, 2⟩, ⟨1, 1⟩⟩ = true := by simp [ray_crosses, hy', hx1]
      simp [in_interior, strictly_inside, shifted_square_edges, List.filter, h1, h2, h3, h4]
    · have hx' : x.x = 1 := le_antisymm hx (not_lt.mp hx1)
      have hon : on_boundary polygon_shifted_square.outer x = true := by
        simp [on_boundary, shifted_square_edges, on_segment, cross_product, hx', hy']
      simp [in_interior, strictly_inside, hon]

/-- C23: a MultiPolygon of two individually valid polygons whose boundaries meet only at
a single vertex `v` (any edge of one and any edge of the other are disjoint or touch at
`v`) and whose interiors are disjoint is valid. Disjoint interiors are used through
their consequence that no point of the boundary of one polygon lies in the interior of
the other. -/
theorem multipolygon_touching_at_vertex_valid (cfg : ValidationConfig) (p q : Polygon)
    (v : Point)
    (hp : is_valid_polygon cfg p = true) (hq : is_valid_polygon cfg q = true)
    (hmeet : ∀ e ∈ p.boundary, ∀ f ∈ q.boundary,
      relate e f = Relation.Disjoint ∨ relate e f = Relation.TouchAtPoint v)
    (hdisjoint_q : ∀ x : Point, on_polygon_boundary q x = true → in_interior p x = false)
    (hdisjoint_p : ∀ x : Point, on_polygon_boundary p x = true → in_interior q x = false) :
    is_valid_multipolygon cfg [p, q] = true := by
  rw [is_valid_multipolygon_pair]
  have hedges := not_edges_cross_or_overlap p.boundary q.boundary v hmeet
  have hq_out := not_boundary_enters p q hdisjoint_q
  have hp_out := not_boundary_enters q p hdisjoint_p
  simp [hp, hq, polygons_compatible, hedges, hq_out, hp_out]

/-- Witness of C23: `MULTIPOLYGON(((0 0,1 0,1 1,0 1)),((1 1,2 1,2 2,1 2)))` (mpg07), the
two squares touching at `(1 1)`, duplicates not allowed. -/
theorem multipolygon_touching_at_vertex_valid_witness :
    is_valid_multipolygon ⟨false, false⟩ [polygon_unit_square, polygon_shifted_square] =
      true :=
  multipolygon_touching_at_vertex_valid ⟨false, false⟩ polygon_unit_square
    polygon_shifted_square ⟨1, 1⟩ (by decide!) (by decide!) (by decide!)
    (fun x hx => unit_square_interior_false x (shifted_square_boundary x hx).1)
    (fun x hx => shifted_square_interior_false x (unit_square_boundary x hx).1
      (unit_square_boundary x hx).2)

/-- C24: a MultiPolygon of two individually valid polygons whose boundaries share a
segment of positive length (an edge of a ring of one, exterior or hole, is identical to
an edge of a ring of the other or overlaps it along a segment) is invalid, as is one in
which a vertex of one polygon lies in the interior of the other (one polygon inside the
other). -/
theorem multipolygon_overlapping_invalid (cfg : ValidationConfig) (p q : Polygon)
    (hp : is_valid_polygon cfg p = true) (hq : is_valid_polygon cfg q = true) :
    (∀ e ∈ p.boundary, ∀ f ∈ q.boundary,
      (relate e f = Relation.Identical ∨ ∃ r, relate e f = Relation.CollinearOverlap r) →
        is_valid_multipolygon cfg [p, q] = false) ∧
    ((∃ v ∈ q.outer.vertices, in_interior p v = true) →
      is_valid_multipolygon cfg [p, q] = false) ∧
    ((∃ v ∈ p.outer.vertices, in_interior q v = true) →
      is_valid_multipolygon cfg [p, q] = false) := by
  have _hvalid := And.intro hp hq
  refine ⟨?_, ?_, ?_⟩
  · intro e he f hf hshare
    have hx := edges_cross_or_overlap_of_mem p.boundary q.boundary e f he hf
      (crosses_or_overlaps_of_shared e f hshare)
    rw [is_valid_multipolygon_pair]
    simp [polygons_compatible, hx]
  · rintro ⟨v, hv, hin⟩
    have henters := boundary_enters_of_vertex p q v hv hin
    rw [is_valid_multipolygon_pair]
    simp [polygons_compatible, henters]
  · rintro ⟨v, hv, hin⟩
    have henters := boundary_enters_of_vertex q p v hv hin
    rw [is_valid_multipolygon_pair]
    simp [polygons_compatible, henters]

/-- Witness of C24: in mpg08 the edge `(1.5 1,0 1)` of the first polygon and the edge
`(1 1,2 1)` of the second share the segment from `(1 1)` to `(1.5 1)`; the square
`(4 4,6 4,6 6,4 6)` fills the hole of the first polygon and shares the edge from `(4 4)`
to `(4 6)` with it; in mpg09 and mpg10 the vertex `(9 1)` of the second polygon lies in
the interior of the first. -/
theorem multipolygon_overlapping_invalid_witness :
    relate ⟨⟨3 / 2, 1⟩, ⟨0, 1⟩⟩ ⟨⟨1, 1⟩, ⟨2, 1⟩⟩ =
      Relation.CollinearOverlap ⟨⟨1, 1⟩, ⟨3 / 2, 1⟩⟩ ∧
    is_valid_multipolygon ⟨false, false⟩ [polygon_wide_rectangle, polygon_shifted_square] =
      false ∧
    relate ⟨⟨4, 4⟩, ⟨4, 6⟩⟩ ⟨⟨4, 6⟩, ⟨4, 4⟩⟩ = Relation.Identical ∧
    is_valid_multipolygon ⟨false, false⟩ [polygon_square10_hole, polygon_hole_filler] =
      false ∧
    in_interior polygon_square10 ⟨9, 1⟩ = true ∧
    is_valid_multipolygon ⟨false, false⟩ [polygon_square10, polygon_mpg09_inner] = false ∧
    is_valid_multipolygon ⟨false, false⟩ [polygon_square10, polygon_mpg10_inner] = false :=
  ⟨by decide!,
   (multipolygon_overlapping_invalid ⟨false, false⟩ polygon_wide_rectangle
     polygon_shifted_square (by decide!) (by decide!)).1
     ⟨⟨3 / 2, 1⟩, ⟨0, 1⟩⟩ (by decide!) ⟨⟨1, 1⟩, ⟨2, 1⟩⟩ (by decide!)
     (Or.inr ⟨⟨⟨1, 1⟩, ⟨3 / 2, 1⟩⟩, by decide!⟩),
   by decide!,
   (multipolygon_overlapping_invalid ⟨false, false⟩ polygon_square10_hole
     polygon_hole_filler (by decide!) (by decide!)).1
     ⟨⟨4, 4⟩, ⟨4, 6⟩⟩ (by decide!) ⟨⟨4, 6⟩, ⟨4, 4⟩⟩ (by decide!) (Or.inl (by decide!)),
   by decide!,
   (multipolygon_overlapping_invalid ⟨false, false⟩ polygon_square10 polygon_mpg09_inner
     (by decide!) (by decide!)).2.1 ⟨⟨9, 1⟩, by decide!, by decide!⟩,
   (multipolygon_overlapping_invalid ⟨false, false⟩ polygon_square10 polygon_mpg10_inner
     (by decide!) (by decide!)).2.1 ⟨⟨9, 1⟩, by decide!, by decide!⟩⟩

/-- The multi-polygon model rejects the square `(0 0,2 0,2 2,0 2)` with the diamond
`(1 0,2 1,1 2,0 1)` inscribed in it: their boundaries only touch, but the edges of the
diamond run through the interior of the square. -/
theorem inscribed_diamond_invalid (cfg : ValidationConfig) :
    is_valid_multipolygon cfg
      [⟨open_ring [⟨0, 0⟩, ⟨2, 0⟩, ⟨2, 2⟩, ⟨0, 2⟩], []⟩,
       ⟨open_ring [⟨1, 0⟩, ⟨2, 1⟩, ⟨1, 2⟩, ⟨0, 1⟩], []⟩] = false := by
  obtain ⟨d, s⟩ := cfg
  cases d <;> cases s <;> decide!

/-- The multi-polygon model gives, on each multi-polygon mpg01 to mpg17 of
`test_open_multipolygons`, the verdict the test expects, with duplicates allowed and
not allowed. -/
theorem open_multipolygon_corpus_verdicts :
    open_multipolygon_corpus.all (fun t =>
      (is_valid_multipolygon ⟨true, false⟩ (t.1.map corpus_polygon) == t.2.1) &&
      (is_valid_multipolygon ⟨false, false⟩ (t.1.map corpus_polygon) == t.2.2)) = true := by
  have h : open_multipolygon_corpus.all (fun t =>
      verdicts_agree (is_valid_multipolygon ⟨true, false⟩ (t.1.map corpus_polygon))
        ((t.1.map corpus_polygon).all Polygon.free_of_duplicates) t.2) = true := by
    decide!
  rw [List.all_eq_true] at h ⊢
  intro t ht
  rw [is_valid_multipolygon_strict]
  exact verdicts_of_agree _ _ _ (h t ht)

end IsValid

namespace BoxInBox

/-! ## The antimeridian and the transitivity of coverage -/

/-- C31, as stated, fails in `double` arithmetic: for `b = -76.1` the spherical
covered_by test computes the translation 256.1 and then `-76.1 + 256.1 + 0` as
`180.00000000000003`, above 180, and reports the inner range [-180, -180] as not covered
by the outer range [b, 180]. -/
theorem antimeridian_identified_counterexample :
    ¬ ((-180 : ℚ) < round_double (-76.1) → round_double (-76.1) ≤ 180 →
      box_covered_by_range_spherical.apply_rounded round_double
          (-180) (-180) (round_double (-76.1)) 180 = true ∧
        box_covered_by_range.apply (-180 : ℚ) (-180) (round_double (-76.1)) 180 = false) := by
  intro h
  have htrue := (h (by decide!) (by decide!)).1
  have hfalse : box_covered_by_range_spherical.apply_rounded round_double
      (-180) (-180) (round_double (-76.1)) 180 = false := by
    decide!
  rw [hfalse] at htrue
  exact Bool.noConfusion htrue

/-- C31, amended: in exact arithmetic the antimeridian is identified with itself: for
every `b` with `-180 < b ≤ 180`, the spherical dimension-0 covered_by test reports the
zero-width inner range [-180, -180] as covered by the outer range [b, 180], whereas the
planar covered_by test returns false on the same four values. -/
theorem antimeridian_identified (b : ℚ) (hlow : -180 < b) (hhigh : b ≤ 180) :
    box_covered_by_range_spherical.apply (-180) (-180) b 180 = true ∧
    box_covered_by_range.apply (-180 : ℚ) (-180) b 180 = false := by
  constructor
  · rw [box_covered_by_range_spherical_apply_eq (-180) (-180) b 180 (180 - b) (-1)
      (by linarith) (by linarith) (by push_cast; ring)]
    have hw : ¬ (180 - b < -180 - -180) := by
      rw [not_lt]
      linarith
    have hf : ¬ ((360 : ℚ) ≤ 180 - b) := by
      rw [not_le]
      linarith
    simp [hw, hf, hhigh]
  · simp [box_covered_by_range.apply, hlow]

/-- Witness of amended C31: the outer range [170, 180]. -/
theorem antimeridian_identified_witness :
    (-180 : ℚ) < 170 ∧ (170 : ℚ) ≤ 180 ∧
    box_covered_by_range_spherical.apply (-180) (-180) 170 180 = true ∧
    box_covered_by_range.apply (-180 : ℚ) (-180) 170 180 = false :=
  ⟨by norm_num, by norm_num, antimeridian_identified 170 (by norm_num) (by norm_num)⟩

/-- The range test selected under the cartesian tag is the planar covered_by test. -/
theorem box_covered_by_range_cartesian (Dimension : Nat) :
    box_covered_by_range Dimension (tag_cast CSTag.cartesian_tag) =
      box_covered_by_range.apply := by
  rw [box_covered_by_range_select]
  simp [tag_cast]

/-- The range test selected under the cartesian tag is the planar within test. -/
theorem box_within_range_cartesian (Dimension : Nat) :
    box_within_range Dimension (tag_cast CSTag.cartesian_tag) = box_within_range.apply := by
  rw [box_within_range_select]
  simp [tag_cast]

/-- Planar coverage of boxes, dimension by dimension. -/
theorem box_in_box_covered_by_cartesian_iff {D : Nat} (A B : Box D) :
    box_in_box.apply box_covered_by_range CSTag.cartesian_tag A B = true ↔
      ∀ d : Fin D, B.min_corner d ≤ A.min_corner d ∧ A.max_corner d ≤ B.max_corner d := by
  rw [box_in_box_apply_eq_true_iff]
  simp [box_covered_by_range_cartesian, box_covered_by_range.apply]

/-- Planar within of boxes, dimension by dimension. -/
theorem box_in_box_within_cartesian_iff {D : Nat} (A B : Box D) :
    box_in_box.apply box_within_range CSTag.cartesian_tag A B = true ↔
      ∀ d : Fin D, B.min_corner d ≤ A.min_corner d ∧ A.max_corner d ≤ B.max_corner d ∧
        A.min_corner d < A.max_corner d := by
  rw [box_in_box_apply_eq_true_iff]
  simp [box_within_range_cartesian, box_within_range.apply, and_assoc]

/-- C32: planar box coverage is transitive: for all boxes A, B, C of the same dimension
in the cartesian system, covered_by(A, B) and covered_by(B, C) imply covered_by(A, C),
and within(A, B) and within(B, C) imply within(A, C). -/
theorem planar_coverage_transitive {D : Nat} (A B C : Box D) :
    (box_in_box.apply box_covered_by_range CSTag.cartesian_tag A B = true →
      box_in_box.apply box_covered_by_range CSTag.cartesian_tag B C = true →
        box_in_box.apply box_covered_by_range CSTag.cartesian_tag A C = true) ∧
    (box_in_box.apply box_within_range CSTag.cartesian_tag A B = true →
      box_in_box.apply box_within_range CSTag.cartesian_tag B C = true →
        box_in_box.apply box_within_range CSTag.cartesian_tag A C = true) := by
  constructor
  · intro hab hbc
    rw [box_in_box_covered_by_cartesian_iff] at hab hbc ⊢
    intro d
    exact ⟨le_trans (hbc d).1 (hab d).1, le_trans (hab d).2 (hbc d).2⟩
  · intro hab hbc
    rw [box_in_box_within_cartesian_iff] at hab hbc ⊢
    intro d
    exact ⟨le_trans (hbc d).1 (hab d).1, le_trans (hab d).2.1 (hbc d).2.1, (hab d).2.2⟩

/-- Witness of C32: `BOX(1 1,2 2)` in `BOX(0 0,3 3)` in `BOX(-1 -1,4 4)`. -/
theorem planar_coverage_transitive_witness :
    box_in_box.apply box_covered_by_range CSTag.cartesian_tag innerBox middleBox = true ∧
    box_in_box.apply box_covered_by_range CSTag.cartesian_tag middleBox outerBox = true ∧
    box_in_box.apply box_covered_by_range CSTag.cartesian_tag innerBox outerBox = true ∧
    box_in_box.apply box_within_range CSTag.cartesian_tag innerBox middleBox = true ∧
    box_in_box.apply box_within_range CSTag.cartesian_tag middleBox outerBox = true ∧
    box_in_box.apply box_within_range CSTag.cartesian_tag innerBox outerBox = true :=
  ⟨by decide!, by decide!,
   (planar_coverage_transitive innerBox middleBox outerBox).1 (by decide!) (by decide!),
   by decide!, by decide!,
   (planar_coverage_transitive innerBox middleBox outerBox).2 (by decide!) (by decide!)⟩

/-- The spherical covered_by test as a condition on the widths and on the positive
translation of the inner range. -/
theorem box_covered_by_range_spherical_apply_iff (a b c d off : ℚ) (k : ℤ)
    (h0 : 0 ≤ off) (h1 : off < 360) (hk : a - c - off = 360 * k) :
    box_covered_by_range_spherical.apply a b c d = true ↔
      b - a ≤ d - c ∧ (360 ≤ d - c ∨ off + (b - a) ≤ d - c) := by
  rw [box_covered_by_range_spherical_apply_eq a b c d off k h0 h1 hk]
  by_cases hw : d - c < b - a
  · simp only [hw, if_true, Bool.false_eq_true, false_iff, not_and]
    intro h
    exact absurd hw (not_lt.mpr h)
  · by_cases hf : (360 : ℚ) ≤ d - c
    · simp [hw, hf, not_lt.mp hw]
    · simp only [hw, hf, if_false, decide_eq_true_eq, false_or]
      constructor
      · intro h
        exact ⟨not_lt.mp hw, by linarith⟩
      · intro h
        linarith [h.2]

/-- The positive translation from the first to the third range is at most the sum of
the translations from the first to the second and from the second to the third. -/
theorem positive_translation_subadditive (p q r : ℚ) (i j k : ℤ)
    (hp : 0 ≤ p) (hq : 0 ≤ q) (hr : r < 360) (x y : ℚ)
    (hi : x - p = 360 * i) (hj : y - q = 360 * j) (hk : x + y - r = 360 * k) :
    r ≤ p + q := by
  have hcast : ((k - i - j : ℤ) : ℚ) * 360 = p + q - r := by
    push_cast
    linarith
  have hgt : (-1 : ℚ) < ((k - i - j : ℤ) : ℚ) := by linarith
  have hint : -1 < k - i - j := by exact_mod_cast hgt
  have hge : (0 : ℚ) ≤ ((k - i - j : ℤ) : ℚ) := by
    have h0 : 0 ≤ k - i - j := by omega
    exact_mod_cast h0
  linarith

/-- C33: spherical longitude coverage is transitive: for all longitude ranges A, B, C in
degrees, if the spherical dimension-0 covered_by test holds for A in B and for B in C,
it holds for A in C. -/
theorem spherical_coverage_transitive (a_min a_max b_min b_max c_min c_max : ℚ)
    (hab : box_covered_by_range_spherical.apply a_min a_max b_min b_max = true)
    (hbc : box_covered_by_range_spherical.apply b_min b_max c_min c_max = true) :
    box_covered_by_range_spherical.apply a_min a_max c_min c_max = true := by
  obtain ⟨p, i, hp0, hp1, hi⟩ := exists_positive_translation (a_min - b_min)
  obtain ⟨q, j, hq0, hq1, hj⟩ := exists_positive_translation (b_min - c_min)
  obtain ⟨r, k, hr0, hr1, hk⟩ := exists_positive_translation (a_min - c_min)
  rw [box_covered_by_range_spherical_apply_iff _ _ _ _ p i hp0 hp1 hi] at hab
  rw [box_covered_by_range_spherical_apply_iff _ _ _ _ q j hq0 hq1 hj] at hbc
  rw [box_covered_by_range_spherical_apply_iff _ _ _ _ r k hr0 hr1 hk]
  have hsub : r ≤ p + q :=
    positive_translation_subadditive p q r i j k hp0 hq0 hr1 (a_min - b_min) (b_min - c_min)
      hi hj (by linarith)
  refine ⟨le_trans hab.1 hbc.1, ?_⟩
  by_cases hfull : 360 ≤ c_max - c_min
  · exact Or.inl hfull
  · right
    have hfit : q + (b_max - b_min) ≤ c_max - c_min := hbc.2.resolve_left hfull
    have hnarrow : ¬ (360 ≤ b_max - b_min) := by
      intro hwide
      exact hfull (by linarith)
    have hfit2 : p + (a_max - a_min) ≤ b_max - b_min := hab.2.resolve_left hnarrow
    linarith

/-- Witness of C33: across the seam, [-178, -176] in [175, 185] in [170, 190]. -/
theorem spherical_coverage_transitive_witness :
    box_covered_by_range_spherical.apply (-178) (-176) 175 185 = true ∧
    box_covered_by_range_spherical.apply 175 185 170 190 = true ∧
    box_covered_by_range_spherical.apply (-178) (-176) 170 190 = true :=
  ⟨by decide!, by decide!,
   spherical_coverage_transitive (-178) (-176) 175 185 170 190 (by decide!) (by decide!)⟩

/-- C34: for every planar box X, `box_in_box` with the within sub-strategy applied to
(X, X) returns true exactly when `X.min < X.max` in every dimension; a box with a
zero-width or inverted range in some dimension is not within itself, although it is
covered by itself. -/
theorem within_self_iff_nondegenerate {D : Nat} (X : Box D) :
    (box_in_box.apply box_within_range CSTag.cartesian_tag X X = true ↔
      ∀ d : Fin D, X.min_corner d < X.max_corner d) ∧
    ((∃ d : Fin D, X.max_corner d ≤ X.min_corner d) →
      box_in_box.apply box_within_range CSTag.cartesian_tag X X = false ∧
      box_in_box.apply box_covered_by_range CSTag.cartesian_tag X X = true) ∧
    box_in_box.apply box_covered_by_range CSTag.cartesian_tag X X = true := by
  have hiff : box_in_box.apply box_within_range CSTag.cartesian_tag X X = true ↔
      ∀ d : Fin D, X.min_corner d < X.max_corner d := by
    rw [box_in_box_within_cartesian_iff]
    constructor
    · intro h d
      exact (h d).2.2
    · intro h d
      exact ⟨le_refl _, le_refl _, h d⟩
  have hcov : box_in_box.apply box_covered_by_range CSTag.cartesian_tag X X = true := by
    rw [box_in_box_covered_by_cartesian_iff]
    intro d
    exact ⟨le_refl _, le_refl _⟩
  refine ⟨hiff, ?_, hcov⟩
  rintro ⟨d, hd⟩
  refine ⟨?_, hcov⟩
  rw [← Bool.not_eq_true, hiff]
  intro h
  exact absurd (h d) (not_lt.mpr hd)

/-- Witness of C34: `BOX(0 0,0 1)` has zero width in dimension 0; it is not within
itself and it is covered by itself, while `BOX(0 0,1 1)` is within itself. -/
theorem within_self_iff_nondegenerate_witness :
    flatBox.max_corner 0 ≤ flatBox.min_corner 0 ∧
    box_in_box.apply box_within_range CSTag.cartesian_tag flatBox flatBox = false ∧
    box_in_box.apply box_covered_by_range CSTag.cartesian_tag flatBox flatBox = true ∧
    box_in_box.apply box_within_range CSTag.cartesian_tag unitBox unitBox = true :=
  ⟨by decide!,
   ((within_self_iff_nondegenerate flatBox).2.1 ⟨0, by decide!⟩).1,
   ((within_self_iff_nondegenerate flatBox).2.1 ⟨0, by decide!⟩).2,
   (within_self_iff_nondegenerate unitBox).1.mpr unitBox_nondegenerate⟩

end BoxInBox

namespace Vincenty

/-! ## Normalisation of angles in degrees -/

/-- With no rounding and enough fuel the first loop in rounded arithmetic returns what
the first loop returns. -/
theorem while_above_rounded_id :
    ∀ (fuel : Nat) (deg : ℚ), (⌈deg - 180⌉).toNat < fuel →
      normalize_deg.while_above_rounded id fuel deg =
        some (normalize_deg.while_above deg) := by
  intro fuel
  induction fuel with
  | zero =>
    intro deg h
    exact absurd h (Nat.not_lt_zero _)
  | succ n ih =>
    intro deg h
    rw [normalize_deg.while_above, normalize_deg.while_above_rounded]
    by_cases hgt : deg > 180
    · rw [if_pos hgt, if_pos hgt]
      have hpos : 0 < ⌈deg - 180⌉ := Int.ceil_pos.mpr (sub_pos.mpr hgt)
      have hstep : ⌈deg - 360 - 180⌉ = ⌈deg - 180⌉ - 360 := by
        rw [show deg - 360 - 180 = deg - 180 - ((360 : ℤ) : ℚ) by push_cast; ring]
        exact Int.ceil_sub_int _ _
      exact ih (deg - 360) (by rw [hstep]; omega)
    · rw [if_neg hgt, if_neg hgt]

/-- With no rounding and enough fuel the second loop in rounded arithmetic returns what
the second loop returns. -/
theorem while_below_rounded_id :
    ∀ (fuel : Nat) (deg : ℚ), (⌊-180 - deg⌋ + 1).toNat < fuel →
      normalize_deg.while_below_rounded id fuel deg =
        some (normalize_deg.while_below deg) := by
  intro fuel
  induction fuel with
  | zero =>
    intro deg h
    exact absurd h (Nat.not_lt_zero _)
  | succ n ih =>
    intro deg h
    rw [normalize_deg.while_below, normalize_deg.while_below_rounded]
    by_cases hle : deg ≤ -180
    · rw [if_pos hle, if_pos hle]
      have hpos : 0 ≤ ⌊-180 - deg⌋ := Int.floor_nonneg.mpr (sub_nonneg.mpr hle)
      have hstep : ⌊-180 - (deg + 360)⌋ = ⌊-180 - deg⌋ - 360 := by
        rw [show -180 - (deg + 360) = -180 - deg - ((360 : ℤ) : ℚ) by push_cast; ring]
        exact Int.floor_sub_int _ _
      exact ih (deg + 360) (by rw [hstep]; omega)
    · rw [if_neg hle, if_neg hle]

/-- In exact arithmetic the helper in rounded arithmetic, given enough fuel, returns
what `normalize_deg` returns: the two are the same program. -/
theorem normalize_deg_rounded_id (deg : ℚ) :
    ∃ fuel : Nat, normalize_deg_rounded id fuel deg = some (normalize_deg deg) := by
  refine ⟨(⌈deg - 180⌉).toNat +
    (⌊-180 - normalize_deg.while_above deg⌋ + 1).toNat + 1, ?_⟩
  unfold normalize_deg_rounded normalize_deg
  rw [while_above_rounded_id _ deg (by omega)]
  simp only [Option.some_bind]
  exact while_below_rounded_id _ _ (by omega)

/-- C36: what the test helper `azimuth` computes for a negated degree part: it adds the
minutes and seconds to the negative degrees, `azimuth(-d, m, s) = -d + m/60 + s/3600`,
which is `-azimuth(d, m, s)` only when `m/60 + s/3600 = 0`. For the Flinders Peak
latitude, `azimuth(-37, 57, 3.72030)` is `-(36 + 2/60 + 56.2797/3600)`, not
`-(37 + 57/60 + 3.72030/3600)`. -/
theorem azimuth_negative_degrees (d m s : ℚ) :
    azimuth (-d) m s = -d + m / 60 + s / 3600 ∧
    (azimuth (-d) m s = -azimuth d m s ↔ m / 60 + s / 3600 = 0) ∧
    (azimuth (-d) m s = -(d + m / 60 + s / 3600) ↔ m / 60 + s / 3600 = 0) ∧
    azimuth (-37) 57 3.72030 = -(36 + 2 / 60 + 56.2797 / 3600) ∧
    azimuth (-37) 57 3.72030 ≠ -(37 + 57 / 60 + 3.72030 / 3600) ∧
    azimuth (-37) 57 3.72030 ≠ -azimuth 37 57 3.72030 := by
  refine ⟨?_, ?_, ?_, ?_, ?_, ?_⟩
  · unfold azimuth
    norm_num
  · unfold azimuth
    norm_num
    constructor
    · intro h
      linarith
    · intro h
      linarith
  · unfold azimuth
    norm_num
    constructor
    · intro h
      linarith
    · intro h
      linarith
  · unfold azimuth
    norm_num
  · unfold azimuth
    norm_num
  · unfold azimuth
    norm_num

end Vincenty
